import Mathlib

/-!
Verification development for the COLORS gesture system: a shallow embedding of
the event-based gesture player, the seeded generative gesture model and the
keyboard gesture palette, with theorems settling the specification claims.

JavaScript numbers are modelled as exact rationals (`ℚ`); machine integers and
MIDI pitches as `ℤ`; JS `Map`s as association lists with `Map.set`/`Map.delete`
semantics; JS `Set`s of slot ids as insertion-ordered duplicate-free lists.
Timer-based scheduling is modelled as a pending-timer pool: arming a timer
allocates a fresh id into the pool, cancelling removes it, and a separate
`fireTimer` operation executes a still-pending timer's callback.  Timers may
fire in any order in the model, which over-approximates the real delay-ordered
event loop; all properties proved here are insensitive to firing order.
-/

/-! ## JavaScript number semantics helpers -/

/-- Truncation toward zero, as JavaScript's implicit integer conversion. -/
def jsTrunc (q : ℚ) : ℤ := if q < 0 then -⌊-q⌋ else ⌊q⌋

/-- The JavaScript `%` operator on numbers: remainder with the dividend's sign. -/
def jsRem (a b : ℚ) : ℚ := a - b * (jsTrunc (a / b) : ℚ)

/-- JavaScript `Math.floor`, kept in the number world. -/
def jsFloor (q : ℚ) : ℚ := (⌊q⌋ : ℚ)

/-- JavaScript array indexing `arr[i]` with a fallback standing in for
`undefined` (never reached by the inputs exercised in this development). -/
def jsGet {α : Type} (l : List α) (i : ℤ) (d : α) : α :=
  if 0 ≤ i then l.getD i.toNat d else d

/-- JavaScript `Math.max(...)` over a list; the sentinel stands in for the
`-Infinity` result on an empty list (never reached here). -/
def jsMaxList (l : List ℚ) : ℚ := l.foldr max (-(2 ^ 1024))

/-- Adding an element to a JS `Set` (insertion order, no duplicates). -/
def jsSetAdd {α : Type} [DecidableEq α] (x : α) (l : List α) : List α :=
  if x ∈ l then l else l ++ [x]

/-- Removing an element from a JS `Set`. -/
def jsSetDelete {α : Type} [DecidableEq α] (x : α) (l : List α) : List α :=
  l.erase x

/-! ## JS `Map` as an association list (`Map.get` / `Map.set` / `Map.delete`) -/

/-- Lookup in a JS `Map` modelled as an association list. -/
def mapGet {κ α : Type} [DecidableEq κ] (k : κ) : List (κ × α) → Option α
  | [] => none
  | (k', v) :: t => if k' = k then some v else mapGet k t

/-- JS `Map.set`: replace in place if the key exists, else append. -/
def mapSet {κ α : Type} [DecidableEq κ] (k : κ) (v : α) : List (κ × α) → List (κ × α)
  | [] => [(k, v)]
  | (k', v') :: t => if k' = k then (k, v) :: t else (k', v') :: mapSet k v t

/-- JS `Map.delete`. -/
def mapDelete {κ α : Type} [DecidableEq κ] (k : κ) : List (κ × α) → List (κ × α)
  | [] => []
  | (k', v') :: t => if k' = k then t else (k', v') :: mapDelete k t

/-- Update the value at a key in place (used for mutations of a heap cell). -/
def mapUpdate {κ α : Type} [DecidableEq κ] (k : κ) (f : α → α) : List (κ × α) → List (κ × α)
  | [] => []
  | (k', v) :: t => if k' = k then (k', f v) :: t else (k', v) :: mapUpdate k f t

/-! ## Gesture data model (`gesture-core.js`) -/

/-- Configuration for a single keyboard slot (`SlotConfig`). -/
structure SlotConfig where
  slotId : ℤ
  styleId : String
  role : String
  density : ℚ
  complexity : ℚ
  tension : ℚ
  registerShift : ℤ
  rhythmLoose : ℚ
  motifVariation : ℚ
  seed : ℚ
deriving DecidableEq

/-- A single event within a gesture (`GestureEvent`). -/
structure GestureEvent where
  time : ℚ
  note : ℤ
  velocity : ℚ
  duration : ℚ
  tag : Option String
deriving DecidableEq

/-- A complete gesture (`Gesture`). `loopLengthBeats = none` models `null`. -/
structure Gesture where
  typeId : String
  slotId : ℤ
  role : String
  events : List GestureEvent
  loopLengthBeats : Option ℚ
  display : String
deriving DecidableEq

/-- Harmonic context for gesture generation (`HarmonicContext`).  The
`diatonicChords`, `currentChord` and `progression` fields of the source
class are never read by any operation verified here and are omitted. -/
structure HarmonicContext where
  root : String
  scale : String
  scaleNotes : List ℤ
deriving DecidableEq

/-- Performance context (`PerformanceContext`); only `tempo` is read here. -/
structure PerformanceContext where
  tempo : ℚ
deriving DecidableEq

/-- Milliseconds per beat, `PerformanceContext.getMsPerBeat`. -/
def PerformanceContext.getMsPerBeat (pc : PerformanceContext) : ℚ := 60000 / pc.tempo

/-- Seeded linear-congruential random generator (`SeededRandom`).  The state is
kept as a rational because JavaScript applies `%` to arbitrary numbers. -/
structure SeededRandom where
  seed : ℚ
deriving DecidableEq

/-- The `SeededRandom` constructor: `seed % 2147483647`, shifted into range
when nonpositive. -/
def SeededRandom.mk' (seed : ℚ) : SeededRandom :=
  let s := jsRem seed 2147483647
  ⟨if s ≤ 0 then s + 2147483646 else s⟩

/-- One LCG step: advance the state and return a value in `[0,1)`. -/
def SeededRandom.next (r : SeededRandom) : ℚ × SeededRandom :=
  let s := jsRem (r.seed * 16807) 2147483647
  ((s - 1) / 2147483646, ⟨s⟩)

/-- A draw scaled into `[min, max)` (`SeededRandom.range`). -/
def SeededRandom.rangeDraw (r : SeededRandom) (lo hi : ℚ) : ℚ × SeededRandom :=
  let (v, r') := r.next
  (lo + v * (hi - lo), r')

/-- An integer draw in `[min, max]` (`SeededRandom.int`). -/
def SeededRandom.intDraw (r : SeededRandom) (lo hi : ℤ) : ℤ × SeededRandom :=
  let (v, r') := r.rangeDraw lo (hi + 1)
  (⌊v⌋, r')

/-- A uniform choice from an array (`SeededRandom.choice`). -/
def SeededRandom.choiceDraw {α : Type} [Inhabited α] (r : SeededRandom) (l : List α) :
    α × SeededRandom :=
  let (i, r') := r.intDraw 0 (l.length - 1)
  (jsGet l i default, r')

/-! ## Harmony library (`harmony.js`): the parts the core reads -/

/-- Note-name table `NOTE_NAMES`. -/
def NOTE_NAMES : List String :=
  ["C", "C#", "D", "D#", "E", "F"] ++ ["F#", "G", "G#", "A", "A#", "B"]

/-- JS `Array.indexOf` (first index, `-1` when absent). -/
def jsIndexOf {α : Type} [DecidableEq α] (l : List α) (x : α) : ℤ :=
  match l.indexOf? x with
  | some i => (i : ℤ)
  | none => -1

/-- Scale interval table `SCALES` as a name-keyed lookup. -/
def SCALES : List (String × List ℤ) :=
  [("major", [0, 2, 4, 5, 7, 9, 11]),
   ("minor", [0, 2, 3, 5, 7, 8, 10]),
   ("harmonicMinor", [0, 2, 3, 5, 7, 8, 11]),
   ("melodicMinor", [0, 2, 3, 5, 7, 9, 11]),
   ("dorian", [0, 2, 3, 5, 7, 9, 10]),
   ("phrygian", [0, 1, 3, 5, 7, 8, 10]),
   ("lydian", [0, 2, 4, 6, 7, 9, 11]),
   ("mixolydian", [0, 2, 4, 5, 7, 9, 10]),
   ("locrian", [0, 1, 3, 5, 6, 8, 10]),
   ("pentatonicMajor", [0, 2, 4, 7, 9]),
   ("pentatonicMinor", [0, 3, 5, 7, 10]),
   ("blues", [0, 3, 5, 6, 7, 10])]

/-- The lookup `SCALES[scaleName] || SCALES.major`. -/
def scaleIntervalsFor (scaleName : String) : List ℤ :=
  match mapGet scaleName SCALES with
  | some l => l
  | none => [0, 2, 4, 5, 7, 9, 11]

/-- Circular pitch-class distance as computed inside `quantizeToScale`:
the absolute difference, wrapped when above 6. -/
def circDist (a b : ℤ) : ℤ :=
  let d := |a - b|
  if d > 6 then 12 - d else d

/-- One step of `quantizeToScale`'s nearest-degree scan: state is
`(minDist, nearestInterval)`. -/
def quantizeStep (noteClass rootIndex : ℤ) (acc : ℤ × ℤ) (interval : ℤ) : ℤ × ℤ :=
  let scaleDegree := (rootIndex + interval).tmod 12
  let dist := circDist noteClass scaleDegree
  if dist < acc.1 then (dist, scaleDegree) else acc

/-- Quantize a note to the scale (`quantizeToScale` in `harmony.js`): find the
scale pitch-class nearest to the note's class (circular distance, first
minimiser wins) and rebuild the pitch inside the note's own
`Math.floor(midiNote / 12)` octave.  JS `%` on integers is the truncated
remainder `Int.tmod`; `Math.floor` of the JS division is `Int.fdiv`. -/
def quantizeToScale (midiNote : ℤ) (root : String) (scaleName : String) : ℤ :=
  let rootIndex := jsIndexOf NOTE_NAMES root
  let scaleIntervals := scaleIntervalsFor scaleName
  let noteClass := midiNote.tmod 12
  let octave := midiNote.fdiv 12
  let res := scaleIntervals.foldl (quantizeStep noteClass rootIndex) (12, 0)
  octave * 12 + res.2

/-! ## Style generator base helpers (`style-generator.js`) -/

/-- Scale notes within a symmetric register window
(`StyleGenerator.getScaleNotesInRegister`). -/
def getScaleNotesInRegister (hc : HarmonicContext) (centerNote : ℚ)
    (rangeOctaves : ℚ) : List ℤ :=
  let minNote := centerNote - rangeOctaves * 12
  let maxNote := centerNote + rangeOctaves * 12
  hc.scaleNotes.filter (fun n => minNote ≤ (n : ℚ) ∧ (n : ℚ) ≤ maxNote)

/-- Quantize helper bound to a harmonic context (`StyleGenerator.quantizeNote`). -/
def quantizeNote (note : ℤ) (hc : HarmonicContext) : ℤ :=
  quantizeToScale note hc.root hc.scale

/-- Bounded pseudo-random timing jitter (`StyleGenerator.applyMicrotiming`).
When the looseness amount is exactly `0` the raw time is returned without
consuming randomness; otherwise the perturbed time is floor-clamped at `0`. -/
def applyMicrotiming (time amount : ℚ) (rng : SeededRandom) : ℚ × SeededRandom :=
  if amount = 0 then (time, rng)
  else
    let (v, rng') := rng.next
    (max 0 (time + (v - 0.5) * amount * 0.1), rng')

/-- In-place update of the element at a (nonnegative) index, as JS
`arr[i].field = …` on an existing index. -/
def listModify {α : Type} (f : α → α) (i : ℤ) : List α → List α
  | [] => []
  | x :: t => if i = 0 then f x :: t else x :: listModify f (i - 1) t

/-- The sequential `events.forEach(e => e.time = applyMicrotiming(…))` pass. -/
def microtimingPass (amount : ℚ) : List GestureEvent → SeededRandom →
    List GestureEvent × SeededRandom
  | [], rng => ([], rng)
  | e :: t, rng =>
    let (tm, r1) := applyMicrotiming e.time amount rng
    let (rest, r2) := microtimingPass amount t r1
    ({ e with time := tm } :: rest, r2)

/-! ## Lyrical Minimal style generator (`styles/lyrical-minimal.js`) -/

/-- Event emission loop of `generateSimpleCell`: one event per pattern slot,
with the documented pool-index formula. -/
def lmSimpleLoop (notes : List ℤ) : List ℚ → SeededRandom →
    List GestureEvent × SeededRandom
  | [], rng => ([], rng)
  | t :: rest, rng =>
    let idx := (⌊(t / 4) * (notes.length : ℚ)⌋).tmod (notes.length : ℤ)
    let note := jsGet notes idx 0
    let (v, r1) := rng.next
    let (tail, r2) := lmSimpleLoop notes rest r1
    (⟨t, note, 0.65 + v * 0.15, 0.8, none⟩ :: tail, r2)

/-- Simple repeating note pattern (`LyricalMinimalGenerator.generateSimpleCell`). -/
def generateSimpleCell (scaleNotes : List ℤ) (rng : SeededRandom)
    (config : SlotConfig) : List GestureEvent × SeededRandom :=
  let noteCount : ℤ := if config.density < 0.5 then 2 else 3
  let centerIndex : ℤ := (scaleNotes.length : ℤ).fdiv 2
  let notes := (List.range noteCount.toNat).map (fun i =>
    let offset : ℤ := (i : ℤ) - noteCount.fdiv 2
    jsGet scaleNotes (max 0 (min ((scaleNotes.length : ℤ) - 1)
      (centerIndex + offset * 2))) 0)
  let patterns : List (List ℚ) :=
    [[0, 1, 2, 3], [0, 1, 2], [0, 0.5, 1, 1.5, 2], [0, 1.5, 3]]
  let (pattern, rng1) := rng.choiceDraw patterns
  lmSimpleLoop notes pattern rng1

/-- Gentle arpeggio (`LyricalMinimalGenerator.generateArpeggioCell`); consumes
no randomness. -/
def generateArpeggioCell (scaleNotes : List ℤ) (rng : SeededRandom)
    (config : SlotConfig) : List GestureEvent × SeededRandom :=
  let noteCount : ℤ := 3 + ⌊config.density⌋
  let centerIndex : ℤ := (scaleNotes.length : ℤ).fdiv 2
  let notes := (List.range noteCount.toNat).map (fun i =>
    jsGet scaleNotes (max 0 (min ((scaleNotes.length : ℤ) - 1)
      (centerIndex + (i : ℤ) * 2))) 0)
  let timePerNote : ℚ := 4 / (notes.length : ℚ)
  let up := (List.range notes.length).map (fun (i : ℕ) =>
    GestureEvent.mk ((i : ℚ) * timePerNote) (jsGet notes (i : ℤ) 0)
      (0.6 + (i : ℚ) * 0.05) (timePerNote * 1.2) none)
  let down :=
    if config.complexity > 0.5 ∧ notes.length > 2 then
      (List.range (notes.length - 2)).map (fun (j : ℕ) =>
        let i := notes.length - 2 - j
        GestureEvent.mk ((notes.length : ℚ) * timePerNote +
            ((notes.length : ℚ) - 1 - (i : ℚ)) * timePerNote)
          (jsGet notes (i : ℤ) 0) 0.55 (timePerNote * 1.2) none)
    else []
  (up ++ down, rng)

/-- Iteration of `generateMelodyCell`: the counter runs down, so the branch
with counter `n + 1` and `n = 0` is the final note. -/
def lmMelodyLoop (scaleNotes : List ℤ) : ℕ → ℤ → ℚ → SeededRandom →
    List GestureEvent × SeededRandom
  | 0, _, _, rng => ([], rng)
  | n + 1, currentIndex, currentTime, rng =>
    let note := jsGet scaleNotes currentIndex 0
    let (duration, rng1) :=
      if n = 0 then ((1.5 : ℚ), rng) else rng.choiceDraw [(0.5 : ℚ), 0.75, 1.0]
    let (v, rng2) := rng1.next
    let ev := GestureEvent.mk currentTime note (0.65 + v * 0.2) (duration * 0.9) none
    let (step, rng3) := rng2.choiceDraw [(-1 : ℤ), 0, 1, 1]
    let nextIndex := max 0 (min ((scaleNotes.length : ℤ) - 1) (currentIndex + step))
    let (rest, rng4) := lmMelodyLoop scaleNotes n nextIndex (currentTime + duration) rng3
    (ev :: rest, rng4)

/-- Simple melodic phrase (`LyricalMinimalGenerator.generateMelodyCell`). -/
def generateMelodyCell (scaleNotes : List ℤ) (rng : SeededRandom)
    (config : SlotConfig) : List GestureEvent × SeededRandom :=
  let noteCount : ℤ := 4 + ⌊config.density * 2⌋
  let startIndex : ℤ := ⌊(scaleNotes.length : ℚ) * 0.4⌋
  lmMelodyLoop scaleNotes noteCount.toNat startIndex 0 rng

/-- Emission loop of `generateDyadCell` over the four beat times. -/
def lmDyadLoop (note1 note2 : ℤ) (together : Bool) : List ℚ → SeededRandom →
    List GestureEvent × SeededRandom
  | [], rng => ([], rng)
  | t :: rest, rng =>
    if together then
      let (v1, r1) := rng.next
      let (v2, r2) := r1.next
      let (tail, r3) := lmDyadLoop note1 note2 together rest r2
      (⟨t, note1, 0.6 + v1 * 0.15, 0.9, none⟩ ::
       ⟨t, note2, 0.55 + v2 * 0.15, 0.9, none⟩ :: tail, r3)
    else
      let nt := if jsRem t 2 = 0 then note1 else note2
      let (v, r1) := rng.next
      let (tail, r2) := lmDyadLoop note1 note2 together rest r1
      (⟨t, nt, 0.6 + v * 0.2, 0.9, none⟩ :: tail, r2)

/-- Two-note dyad (`LyricalMinimalGenerator.generateDyadCell`). -/
def generateDyadCell (scaleNotes : List ℤ) (rng : SeededRandom)
    (config : SlotConfig) : List GestureEvent × SeededRandom :=
  let centerIndex : ℤ := (scaleNotes.length : ℤ).fdiv 2
  let (intervalSteps, rng1) := rng.choiceDraw [(2 : ℤ), 3, 4]
  let note1 := jsGet scaleNotes centerIndex 0
  let note2 := jsGet scaleNotes
    (min ((scaleNotes.length : ℤ) - 1) (centerIndex + intervalSteps)) 0
  lmDyadLoop note1 note2 (decide (config.complexity > 0.6)) [0, 1, 2, 3] rng1

/-- Subtle asymmetry pass (`LyricalMinimalGenerator.addAsymmetry`). -/
def addAsymmetry (events : List GestureEvent) (rng : SeededRandom) :
    List GestureEvent × SeededRandom :=
  if events.length < 2 then (events, rng)
  else
    let (targetIndex, rng1) := rng.intDraw 0 ((events.length : ℤ) - 1)
    let (shift, rng2) := rng1.rangeDraw (-0.1) 0.1
    let events1 := listModify (fun e => { e with time := max 0 (e.time + shift) })
      targetIndex events
    let (v, rng3) := rng2.next
    if v < 0.5 ∧ 0 < events1.length then
      match events1 with
      | [] => (events1, rng3)
      | e0 :: _ =>
        let (pm, rng4) := rng3.choiceDraw [(-2 : ℤ), 2]
        (events1 ++ [⟨max 0 (e0.time - 0.08), e0.note + pm, e0.velocity * 0.5,
          0.08, some "grace"⟩], rng4)
    else (events1, rng3)

/-- Empty gesture fallback (`LyricalMinimalGenerator.createEmptyGesture`). -/
def lyricalEmptyGesture (config : SlotConfig) : Gesture :=
  ⟨"lyricalMinimal", config.slotId, config.role, [], none, "Empty"⟩

/-- The Lyrical Minimal generator (`LyricalMinimalGenerator.generate`).

The `ambientEntropy` argument models the environment's ambient randomness
(`Math.random`, `Date.now`, …), which is globally reachable from any JS
function; the source generator never reads it, and the binder is unused in
this translation, which is exactly the determinism contract under audit. -/
def lyricalGenerate (ambientEntropy : ℕ → ℚ) (slotConfig : SlotConfig)
    (harmonicContext : HarmonicContext) (performanceContext : PerformanceContext) :
    Gesture :=
  let rng := SeededRandom.mk' slotConfig.seed
  let baseOctave := 4 + slotConfig.registerShift
  let registerCenter : ℚ := 60 + ((baseOctave : ℚ) - 4) * 12
  let scaleNotes := getScaleNotesInRegister harmonicContext registerCenter 1.5
  if scaleNotes = [] then lyricalEmptyGesture slotConfig
  else
    let cellTypes : List String := ["simple", "arpeggio", "melody", "dyad"]
    let (cellType, rng1) := rng.choiceDraw cellTypes
    let (events0, rng2) :=
      if cellType = "simple" then generateSimpleCell scaleNotes rng1 slotConfig
      else if cellType = "arpeggio" then generateArpeggioCell scaleNotes rng1 slotConfig
      else if cellType = "melody" then generateMelodyCell scaleNotes rng1 slotConfig
      else if cellType = "dyad" then generateDyadCell scaleNotes rng1 slotConfig
      else ([], rng1)
    let (events1, rng3) :=
      if slotConfig.complexity > 0.5 then
        let (v, r) := rng2.next
        if v < 0.3 then addAsymmetry events0 r else (events0, r)
      else (events0, rng2)
    let (events2, _rng4) := microtimingPass (slotConfig.rhythmLoose * 0.5) events1 rng3
    let totalDuration := jsMaxList (events2.map (fun e => e.time + e.duration))
    let loopLength : ℚ := if totalDuration ≤ 2.5 then 2 else 4
    { typeId := "lyricalMinimal", slotId := slotConfig.slotId,
      role := slotConfig.role, events := events2,
      loopLengthBeats := some loopLength, display := "Minimal " ++ cellType }

/-! ## Tintinnabuli style generator (`TintinnabuliGenerator`) -/

/-- Tonic triad across four octaves (`TintinnabuliGenerator.getTonicTriad`).
The source guards only `length < 3` yet reads index 4; the `jsGet` fallback
models the `undefined` corner, which no input exercised here reaches. -/
def getTonicTriad (hc : HarmonicContext) : List ℤ :=
  let scaleNotes := hc.scaleNotes
  if scaleNotes.length < 3 then []
  else
    let root := jsGet scaleNotes 0 0
    let third := jsGet scaleNotes 2 0
    let fifth := jsGet scaleNotes 4 0
    let triad := (List.range 4).flatMap (fun (o : ℕ) =>
      let oct : ℤ := (o : ℤ) - 1
      [root + oct * 12, third + oct * 12, fifth + oct * 12])
    triad.mergeSort (fun a b => decide (a ≤ b))

/-- Iteration of `generateMelodicVoice`; counter runs down over the phrase. -/
def tintMelodicLoop (scaleNotes : List ℤ) (startIndex : ℤ) : ℕ → ℤ → ℚ → SeededRandom →
    List GestureEvent × SeededRandom
  | 0, _, _, rng => ([], rng)
  | n + 1, currentIndex, currentTime, rng =>
    let note := jsGet scaleNotes currentIndex 0
    let (duration, r1) := rng.choiceDraw [(1.0 : ℚ), 1.0, 0.5, 0.5, 2.0, 0.75, 0.25]
    let (v, r2) := r1.next
    let ev := GestureEvent.mk currentTime note (0.65 + v * 0.15) (duration * 0.9) none
    let (sv, r3) := r2.next
    let stepSize : ℤ := if sv < 0.7 then 1 else 2
    let (dv, r4) := r3.next
    let direction : ℤ := if dv < 0.5 then 1 else -1
    let idx1 := max 0 (min ((scaleNotes.length : ℤ) - 1) (currentIndex + direction * stepSize))
    let (cv, r5) := r4.next
    let idx2 := if cv < 0.2 then startIndex else idx1
    let (rest, r6) := tintMelodicLoop scaleNotes startIndex n idx2 (currentTime + duration) r5
    (ev :: rest, r6)

/-- Stepwise melodic voice (`TintinnabuliGenerator.generateMelodicVoice`). -/
def generateMelodicVoice (scaleNotes : List ℤ) (phraseLength : ℕ)
    (rng : SeededRandom) (config : SlotConfig) : List GestureEvent × SeededRandom :=
  let startIndex : ℤ := (scaleNotes.length : ℤ).fdiv 2
  tintMelodicLoop scaleNotes startIndex phraseLength startIndex 0 rng

/-- One step of the closest-chord-tone scan in `generateTintinnabuliVoice`:
state is `(closestNote, minDistance)`. -/
def tintSelectStep (melodicNote : ℤ) (position : String) (acc : ℤ × ℤ)
    (triadNote : ℤ) : ℤ × ℤ :=
  let distance := |melodicNote - triadNote|
  if distance < acc.2 ∧ distance > 0 then
    let isAbove := triadNote > melodicNote
    if (position = "above" ∧ isAbove) ∨ (position = "below" ∧ ¬ isAbove) then
      (triadNote, distance)
    else acc
  else acc

/-- Chord-tone selection for one melodic note: the scan starts from
`tonicTriad[0]` whatever its side. -/
def tintSelect (melodicNote : ℤ) (tonicTriad : List ℤ) (position : String) : ℤ :=
  let c0 := jsGet tonicTriad 0 0
  (tonicTriad.foldl (tintSelectStep melodicNote position) (c0, |melodicNote - c0|)).1

/-- Second voice derivation (`TintinnabuliGenerator.generateTintinnabuliVoice`). -/
def generateTintinnabuliVoice (melodicVoice : List GestureEvent)
    (tonicTriad : List ℤ) (position : String) (hc : HarmonicContext) :
    List GestureEvent :=
  melodicVoice.map (fun me =>
    ⟨me.time, tintSelect me.note tonicTriad position, me.velocity * 0.7,
      me.duration, some "tintinnabuli"⟩)

/-- Empty gesture fallback (`TintinnabuliGenerator.createEmptyGesture`). -/
def tintEmptyGesture (config : SlotConfig) : Gesture :=
  ⟨"tintinnabuli", config.slotId, config.role, [], none, "Empty"⟩

/-- The Tintinnabuli generator (`TintinnabuliGenerator.generate`); the
`ambientEntropy` argument plays the same role as in `lyricalGenerate`. -/
def tintinnabuliGenerate (ambientEntropy : ℕ → ℚ) (slotConfig : SlotConfig)
    (harmonicContext : HarmonicContext) (performanceContext : PerformanceContext) :
    Gesture :=
  let rng := SeededRandom.mk' slotConfig.seed
  let tonicTriad := getTonicTriad harmonicContext
  if tonicTriad.length < 3 then tintEmptyGesture slotConfig
  else
    let baseOctave := 4 + slotConfig.registerShift
    let registerCenter : ℚ := 60 + ((baseOctave : ℚ) - 4) * 12
    let scaleNotes := getScaleNotesInRegister harmonicContext registerCenter 1.5
    if scaleNotes = [] then tintEmptyGesture slotConfig
    else
      let phraseLength : ℤ := ⌊4 + slotConfig.density * 8⌋
      let (melodicVoice, rng1) :=
        generateMelodicVoice scaleNotes phraseLength.toNat rng slotConfig
      let position := if slotConfig.complexity > 0.5 then "above" else "below"
      let tintVoice :=
        generateTintinnabuliVoice melodicVoice tonicTriad position harmonicContext
      let events0 := melodicVoice ++ tintVoice
      let (events1, _rng2) :=
        microtimingPass (slotConfig.rhythmLoose * 0.3) events0 rng1
      let totalDuration := jsMaxList (events1.map (fun e => e.time + e.duration))
      let loopLength : ℤ := ⌈totalDuration / 4⌉ * 4
      { typeId := "tintinnabuli", slotId := slotConfig.slotId,
        role := slotConfig.role, events := events1,
        loopLengthBeats := some (loopLength : ℚ),
        display := "Tintinnabuli " ++ toString loopLength ++ "bar" }

/-! ## Fractured Lead style generator (`FracturedLeadGenerator`) -/

/-- The generator's own quantizer is plain `Math.round`, the identity on the
integer pitches that reach it (`FracturedLeadGenerator.quantizeNote`). -/
def fracturedQuantizeNote (note : ℤ) : ℤ := note

/-- Iteration of `generateMotif`: counter runs down, `i` counts up for the
rhythm-pattern cycle. -/
def fracturedMotifLoop (scaleNotes : List ℤ) (rhythm : List ℚ) : ℕ → ℕ → ℤ → ℚ →
    SeededRandom → List GestureEvent × SeededRandom
  | 0, _, _, _, rng => ([], rng)
  | n + 1, i, currentIndex, currentTime, rng =>
    let note := jsGet scaleNotes currentIndex 0
    let duration := rhythm.getD (i % rhythm.length) 0
    let (v, r1) := rng.next
    let velocity0 := 0.7 + v * 0.3
    let (g, r2) := r1.next
    let isGhost := g < 0.15
    let velocity1 := if isGhost then velocity0 * 0.4 else velocity0
    let ev := GestureEvent.mk currentTime note velocity1 (duration * 0.7)
      (if isGhost then some "ghost" else none)
    let (mv, r3) := r2.next
    let (stepv, r4) :=
      if mv < 0.7 then r3.choiceDraw [(-1 : ℤ), 1, -2, 2]
      else r3.choiceDraw [(-5 : ℤ), -4, -3, 3, 4, 5]
    let idx := max 0 (min ((scaleNotes.length : ℤ) - 1) (currentIndex + stepv))
    let (rest, r5) :=
      fracturedMotifLoop scaleNotes rhythm n (i + 1) idx (currentTime + duration) r4
    (ev :: rest, r5)

/-- Core motif construction (`FracturedLeadGenerator.generateMotif`). -/
def generateMotif (scaleNotes : List ℤ) (length : ℕ) (rng : SeededRandom)
    (config : SlotConfig) : List GestureEvent × SeededRandom :=
  let startIndex : ℤ := (scaleNotes.length : ℤ).fdiv 2
  let rhythmPatterns : List (List ℚ) :=
    [[0.333, 0.333, 0.334],
     [0.25, 0.25, 0.5],
     [0.2, 0.2, 0.2, 0.2, 0.2],
     [0.14, 0.14, 0.14, 0.14, 0.14, 0.14, 0.15],
     [0.125, 0.375, 0.5],
     [0.5, 0.25, 0.25]]
  let (rhythm, rng1) := rng.choiceDraw rhythmPatterns
  fracturedMotifLoop scaleNotes rhythm length 0 startIndex 0 rng1

/-- Per-event mutation pass (`FracturedLeadGenerator.mutateMotif`).  The
chromatic grace note is armed `0.05` beats before the event's own time with no
floor clamp, unlike the other grace-note sites in the code base. -/
def mutateMotifLoop (mutationAmount : ℚ) (scaleNotes : List ℤ)
    (config : SlotConfig) : List GestureEvent → SeededRandom →
    List GestureEvent × SeededRandom
  | [], rng => ([], rng)
  | event :: rest, rng =>
    let (c1, r1) := rng.next
    let (note1, r2) :=
      if c1 < mutationAmount then
        let noteIndex := jsIndexOf scaleNotes event.note
        let (noteA, rA) :=
          if noteIndex ≠ -1 then
            let (shift, rs) := r1.choiceDraw [(-2 : ℤ), -1, 1, 2]
            (jsGet scaleNotes (max 0 (min ((scaleNotes.length : ℤ) - 1)
              (noteIndex + shift))) 0, rs)
          else (event.note, r1)
        let (c2, rB) := rA.next
        if c2 < mutationAmount * 0.5 then
          let (oct, rC) := rB.choiceDraw [(-12 : ℤ), 12]
          (fracturedQuantizeNote (noteA + oct), rC)
        else (noteA, rB)
      else (event.note, r1)
    let (c3, r3) := r2.next
    let (duration1, r4) :=
      if c3 < mutationAmount * 0.5 then
        let (m, rm) := r3.rangeDraw 0.7 1.3
        (event.duration * m, rm)
      else (event.duration, r3)
    let (c4, r5) := r4.next
    let (velocity1, r6) :=
      if c4 < mutationAmount * 0.3 then
        let (m, rm) := r5.rangeDraw 0.8 1.2
        (max 0.1 (min 1 (event.velocity * m)), rm)
      else (event.velocity, r5)
    let (c5, r7) := r6.next
    if c5 < mutationAmount * 0.3 then
      let (stutterCount, r8) := r7.intDraw 2 4
      let stutterDur := duration1 / (stutterCount : ℚ)
      let stutters := (List.range stutterCount.toNat).map (fun (s : ℕ) =>
        GestureEvent.mk (event.time + (s : ℚ) * stutterDur) note1
          (velocity1 * (1 - (s : ℚ) * 0.2)) (stutterDur * 0.8) (some "stutter"))
      let (tail, r9) := mutateMotifLoop mutationAmount scaleNotes config rest r8
      (stutters ++ tail, r9)
    else
      let (graceList, r8) :=
        if config.tension > 0.7 then
          let (c6, rg) := r7.next
          if c6 < 0.2 then
            let (pm, rg2) := rg.choiceDraw [(-1 : ℤ), 1]
            ([GestureEvent.mk (event.time - 0.05) (note1 + pm) (velocity1 * 0.6)
              0.05 (some "grace")], rg2)
          else ([], rg)
        else ([], r7)
      let (tail, r9) := mutateMotifLoop mutationAmount scaleNotes config rest r8
      (graceList ++ GestureEvent.mk event.time note1 velocity1 duration1 event.tag
        :: tail, r9)

/-- Repetition loop of `FracturedLeadGenerator.generate`: each repetition
mutates the motif with `rep * motifVariation`, shifts it to the running time,
and inserts a random gap except after the last repetition. -/
def fracturedRepLoop (motif : List GestureEvent) (scaleNotes : List ℤ)
    (config : SlotConfig) (repetitions : ℕ) : ℕ → ℚ → SeededRandom →
    List GestureEvent × SeededRandom
  | 0, _, rng => ([], rng)
  | n + 1, currentTime, rng =>
    let rep := repetitions - (n + 1)
    let mutationAmount := (rep : ℚ) * config.motifVariation
    let (mutatedMotif, r1) := mutateMotifLoop mutationAmount scaleNotes config motif rng
    let placed := mutatedMotif.map (fun e => { e with time := currentTime + e.time })
    let motifDuration := jsMaxList (mutatedMotif.map (fun e => e.time + e.duration))
    let (gap, r2) :=
      if 0 < n then r1.rangeDraw 0.1 0.5
      else ((0 : ℚ), r1)
    let (rest, r3) := fracturedRepLoop motif scaleNotes config repetitions n
      (currentTime + motifDuration + gap) r2
    (placed ++ rest, r3)

/-- Empty gesture fallback (`FracturedLeadGenerator.createEmptyGesture`). -/
def fracturedEmptyGesture (config : SlotConfig) : Gesture :=
  ⟨"fracturedLead", config.slotId, config.role, [], none, "Empty"⟩

/-- The Fractured Lead generator (`FracturedLeadGenerator.generate`); the
`ambientEntropy` argument plays the same role as in `lyricalGenerate`. -/
def fracturedGenerate (ambientEntropy : ℕ → ℚ) (slotConfig : SlotConfig)
    (harmonicContext : HarmonicContext) (performanceContext : PerformanceContext) :
    Gesture :=
  let rng := SeededRandom.mk' slotConfig.seed
  let baseOctave := 5 + slotConfig.registerShift
  let registerCenter : ℚ := 60 + ((baseOctave : ℚ) - 4) * 12
  let scaleNotes := getScaleNotesInRegister harmonicContext registerCenter 2
  if scaleNotes = [] then fracturedEmptyGesture slotConfig
  else
    let motifLength : ℤ := 3 + ⌊slotConfig.complexity * 4⌋
    let (motif, rng1) := generateMotif scaleNotes motifLength.toNat rng slotConfig
    let repetitions : ℤ := 2 + ⌊slotConfig.density * 3⌋
    let (events0, rng2) := fracturedRepLoop motif scaleNotes slotConfig
      repetitions.toNat repetitions.toNat 0 rng1
    let (events1, _rng3) := microtimingPass slotConfig.rhythmLoose events0 rng2
    { typeId := "fracturedLead", slotId := slotConfig.slotId,
      role := slotConfig.role, events := events1, loopLengthBeats := none,
      display := "Fractured " ++ toString motifLength ++ "n" }

/-! ## Alice Cascade style generator (`AliceCascadeGenerator`) -/

/-- The transcendental members of the JS `Math` object used by the wave
cascade.  They are fixed pure functions of their argument; Lean's computable
rational fragment cannot express them, so the embedding abstracts over any
fixed interpretation, which is all the verified properties depend on. -/
structure JsMath where
  pi : ℚ
  sin : ℚ → ℚ

/-- Ascending cascade (`AliceCascadeGenerator.generateAscendingCascade`). -/
def generateAscendingCascade (scaleNotes : List ℤ) (noteCount : ℕ)
    (totalBeats : ℚ) (rng : SeededRandom) : List GestureEvent × SeededRandom :=
  let startIndex : ℤ := ⌊(scaleNotes.length : ℚ) * 0.2⌋
  let timePerNote : ℚ := totalBeats / (noteCount : ℚ)
  (List.range noteCount).foldl (fun (acc : List GestureEvent × SeededRandom) (i : ℕ) =>
    let index := min
      (startIndex + ⌊(i : ℚ) * ((scaleNotes.length : ℚ) - (startIndex : ℚ)) / (noteCount : ℚ)⌋)
      ((scaleNotes.length : ℤ) - 1)
    let (v, r1) := acc.2.next
    let (d, r2) := r1.next
    (acc.1 ++ [GestureEvent.mk ((i : ℚ) * timePerNote) (jsGet scaleNotes index 0)
      (0.6 + v * 0.3) (timePerNote * (0.8 + d * 0.4)) none], r2)) ([], rng)

/-- Descending cascade (`AliceCascadeGenerator.generateDescendingCascade`). -/
def generateDescendingCascade (scaleNotes : List ℤ) (noteCount : ℕ)
    (totalBeats : ℚ) (rng : SeededRandom) : List GestureEvent × SeededRandom :=
  let startIndex : ℤ := ⌊(scaleNotes.length : ℚ) * 0.8⌋
  let timePerNote : ℚ := totalBeats / (noteCount : ℚ)
  (List.range noteCount).foldl (fun (acc : List GestureEvent × SeededRandom) (i : ℕ) =>
    let index := max (startIndex - ⌊(i : ℚ) * (startIndex : ℚ) / (noteCount : ℚ)⌋) 0
    let (v, r1) := acc.2.next
    let (d, r2) := r1.next
    (acc.1 ++ [GestureEvent.mk ((i : ℚ) * timePerNote) (jsGet scaleNotes index 0)
      (0.6 + v * 0.3) (timePerNote * (0.8 + d * 0.4)) none], r2)) ([], rng)

/-- Wave cascade (`AliceCascadeGenerator.generateWaveCascade`). -/
def generateWaveCascade (jm : JsMath) (scaleNotes : List ℤ) (noteCount : ℕ)
    (totalBeats : ℚ) (rng : SeededRandom) (config : SlotConfig) :
    List GestureEvent × SeededRandom :=
  let timePerNote : ℚ := totalBeats / (noteCount : ℚ)
  let waveFreq : ℚ := 0.5 + config.complexity * 1.5
  (List.range noteCount).foldl (fun (acc : List GestureEvent × SeededRandom) (i : ℕ) =>
    let phase := ((i : ℚ) / (noteCount : ℚ)) * jm.pi * 2 * waveFreq
    let wavePos := (jm.sin phase + 1) / 2
    let index : ℤ := ⌊wavePos * ((scaleNotes.length : ℚ) - 1)⌋
    let (v, r1) := acc.2.next
    let (d, r2) := r1.next
    (acc.1 ++ [GestureEvent.mk ((i : ℚ) * timePerNote) (jsGet scaleNotes index 0)
      (0.6 + v * 0.3) (timePerNote * (0.7 + d * 0.5)) none], r2)) ([], rng)

/-- Irregular time grid of the scattered cascade: the running times before
normalisation, together with the final running total. -/
def scatteredTimes (noteCount : ℕ) (rng : SeededRandom) :
    (List ℚ × ℚ) × SeededRandom :=
  (List.range noteCount).foldl (fun (acc : (List ℚ × ℚ) × SeededRandom) (_i : ℕ) =>
    let (g, r1) := acc.2.rangeDraw 0.05 0.3
    ((acc.1.1 ++ [acc.1.2], acc.1.2 + g), r1)) (([], 0), rng)

/-- Scattered cascade (`AliceCascadeGenerator.generateScatteredCascade`). -/
def generateScatteredCascade (scaleNotes : List ℤ) (noteCount : ℕ)
    (totalBeats : ℚ) (rng : SeededRandom) : List GestureEvent × SeededRandom :=
  let ((times0, currentTime), rng1) := scatteredTimes noteCount rng
  let scaleFactor := totalBeats / currentTime
  let times := times0.map (fun t => t * scaleFactor)
  (List.range noteCount).foldl (fun (acc : List GestureEvent × SeededRandom) (i : ℕ) =>
    let (idx, r1) := acc.2.intDraw 0 ((scaleNotes.length : ℤ) - 1)
    let (v, r2) := r1.next
    let (d, r3) := r2.next
    (acc.1 ++ [GestureEvent.mk (times.getD i 0) (jsGet scaleNotes idx 0)
      (0.5 + v * 0.4) (0.3 + d * 0.5) none], r3)) ([], rng1)

/-- Sustained pedal tone one octave below (`AliceCascadeGenerator.addPedalTone`). -/
def addPedalTone (pedalNote : ℤ) (duration : ℚ) (rng : SeededRandom) :
    List GestureEvent × SeededRandom :=
  let (v, r1) := rng.next
  ([GestureEvent.mk 0 (pedalNote - 12) (0.4 + v * 0.2) duration (some "pedal")], r1)

/-- Quartal voicing (`AliceCascadeGenerator.addQuartalChord`).  The source
passes the slot `config` where the base-class helper expects the harmonic
context, so the quantizer reads `root` and `scale` as JS `undefined`: the
root-name lookup misses (index `-1`) and the scale lookup falls back to
major, which the literal `"undefined"` strings reproduce exactly. -/
def addQuartalChord (scaleNotes : List ℤ) (duration : ℚ) (rng : SeededRandom)
    (config : SlotConfig) : List GestureEvent × SeededRandom :=
  if scaleNotes.length < 3 then ([], rng)
  else
    let rootIndex : ℤ := ⌊(scaleNotes.length : ℚ) * 0.3⌋
    let root := jsGet scaleNotes rootIndex 0
    let second := quantizeToScale (root + 5) "undefined" "undefined"
    let third := quantizeToScale (root + 10) "undefined" "undefined"
    let chordNotes := [root, second, third]
    let startTime := duration * 0.2
    (List.range chordNotes.length).foldl
      (fun (acc : List GestureEvent × SeededRandom) (i : ℕ) =>
        let (v, r1) := acc.2.next
        (acc.1 ++ [GestureEvent.mk (startTime + (i : ℚ) * 0.05)
          (jsGet chordNotes (i : ℤ) 0) (0.5 + v * 0.2) (duration * 0.6) none], r1))
      ([], rng)

/-- Empty gesture fallback (`AliceCascadeGenerator.createEmptyGesture`). -/
def aliceEmptyGesture (config : SlotConfig) : Gesture :=
  ⟨"aliceCascade", config.slotId, config.role, [], none, "Empty"⟩

/-- The Alice Cascade generator (`AliceCascadeGenerator.generate`); `jm`
interprets `Math.PI`/`Math.sin` and `ambientEntropy` plays the same role as in
`lyricalGenerate`. -/
def aliceCascadeGenerate (jm : JsMath) (ambientEntropy : ℕ → ℚ)
    (slotConfig : SlotConfig) (harmonicContext : HarmonicContext)
    (performanceContext : PerformanceContext) : Gesture :=
  let rng := SeededRandom.mk' slotConfig.seed
  let baseOctave := 4 + slotConfig.registerShift
  let registerCenter : ℚ := 60 + ((baseOctave : ℚ) - 4) * 12
  let scaleNotes := getScaleNotesInRegister harmonicContext registerCenter
    (2 + slotConfig.complexity)
  if scaleNotes = [] then aliceEmptyGesture slotConfig
  else
    let totalBeats : ℚ := 2 + slotConfig.density * 6
    let noteCount : ℤ := ⌊8 + slotConfig.density * 24⌋
    let cascadeTypes : List String := ["ascending", "descending", "wave", "scattered"]
    let (cascadeType, rng1) := rng.choiceDraw cascadeTypes
    let (events0, rng2) :=
      if cascadeType = "ascending" then
        generateAscendingCascade scaleNotes noteCount.toNat totalBeats rng1
      else if cascadeType = "descending" then
        generateDescendingCascade scaleNotes noteCount.toNat totalBeats rng1
      else if cascadeType = "wave" then
        generateWaveCascade jm scaleNotes noteCount.toNat totalBeats rng1 slotConfig
      else if cascadeType = "scattered" then
        generateScatteredCascade scaleNotes noteCount.toNat totalBeats rng1
      else ([], rng1)
    let (events1, rng3) :=
      if slotConfig.complexity > 0.6 then
        let (pedal, r) := addPedalTone (jsGet scaleNotes 0 0) totalBeats rng2
        (events0 ++ pedal, r)
      else (events0, rng2)
    let (events2, rng4) :=
      if slotConfig.tension > 0.4 ∧ slotConfig.tension < 0.8 then
        let (chord, r) := addQuartalChord scaleNotes totalBeats rng3 slotConfig
        (events1 ++ chord, r)
      else (events1, rng3)
    let (events3, _rng5) := microtimingPass slotConfig.rhythmLoose events2 rng4
    { typeId := "aliceCascade", slotId := slotConfig.slotId,
      role := slotConfig.role, events := events3, loopLengthBeats := none,
      display := "Alice " ++ cascadeType }

/-! ## Style registry (`style-generator.js` + registrations in
`keyboard-palette.js`) -/

/-- The style ids registered at startup, in registration order. -/
def registryStyleIds : List String :=
  ["aliceCascade", "tintinnabuli", "fracturedLead", "lyricalMinimal"]

/-- Registry membership (`styleRegistry.has`). -/
def styleRegistryHas (styleId : String) : Bool := registryStyleIds.contains styleId

/-- Registry dispatch (`StyleRegistry.generate`): run the generator registered
for `slotConfig.styleId`, or fall back to an explicit empty gesture. -/
def styleRegistryGenerate (jm : JsMath) (ambientEntropy : ℕ → ℚ)
    (slotConfig : SlotConfig) (harmonicContext : HarmonicContext)
    (performanceContext : PerformanceContext) : Gesture :=
  if slotConfig.styleId = "aliceCascade" then
    aliceCascadeGenerate jm ambientEntropy slotConfig harmonicContext performanceContext
  else if slotConfig.styleId = "tintinnabuli" then
    tintinnabuliGenerate ambientEntropy slotConfig harmonicContext performanceContext
  else if slotConfig.styleId = "fracturedLead" then
    fracturedGenerate ambientEntropy slotConfig harmonicContext performanceContext
  else if slotConfig.styleId = "lyricalMinimal" then
    lyricalGenerate ambientEntropy slotConfig harmonicContext performanceContext
  else
    ⟨"empty", slotConfig.slotId, slotConfig.role, [], none, "Empty"⟩

/-! ## Keyboard gesture palette (`keyboard-palette.js`)

The palette's gesture cache stores, with each cached `Gesture`, an allocation
counter `gid`: every `new Gesture(...)` the registry returns is a fresh JS
object, so two cache entries are the *same object* (`===`) exactly when their
`gid`s agree.  Operations are parameterised by the registry's generation
function `gen`, which `styleRegistryGenerate jm ambientEntropy` instantiates. -/

/-- A cached gesture together with its object identity. -/
structure GestureRef where
  gid : ℕ
  gesture : Gesture
deriving DecidableEq

/-- The registry generation function seen by the palette. -/
def PaletteGen : Type :=
  SlotConfig → HarmonicContext → PerformanceContext → Gesture

/-- Palette state (`KeyboardGesturePalette` fields read by the verified
operations).  `lockedSlots` is a JS `Set`: an insertion-ordered list without
duplicates. -/
structure KeyboardGesturePalette where
  minSlot : ℤ
  maxSlot : ℤ
  root : String
  scale : String
  tempo : ℚ
  slotConfigs : List (ℤ × SlotConfig)
  gestures : List (ℤ × GestureRef)
  lockedSlots : List ℤ
  harmonicContext : HarmonicContext
  performanceContext : PerformanceContext
  styleDistribution : List (String × ℚ)
  nextGestureId : ℕ

/-- Source default field values of `SlotConfig` (the ambient default seed is
irrelevant: this fallback value is never reached by the verified operations). -/
instance : Inhabited SlotConfig :=
  ⟨⟨60, "lyricalMinimal", "chords", 0.5, 0.5, 0.3, 0, 0.2, 0.3, 0⟩⟩

/-- Clamp helper (`KeyboardGesturePalette.clamp` with default bounds). -/
def paletteClamp (value : ℚ) : ℚ := min 1 (max 0 value)

/-- Cache lookup (`getGesture`). -/
def paletteGetGesture (pal : KeyboardGesturePalette) (slotId : ℤ) :
    Option GestureRef :=
  mapGet slotId pal.gestures

/-- Lock query (`isSlotLocked`). -/
def paletteIsSlotLocked (pal : KeyboardGesturePalette) (slotId : ℤ) : Bool :=
  pal.lockedSlots.contains slotId

/-- Lock toggle (`toggleSlotLock`): returns the updated palette and the
boolean result. -/
def paletteToggleSlotLock (pal : KeyboardGesturePalette) (slotId : ℤ) :
    KeyboardGesturePalette × Bool :=
  if slotId ∈ pal.lockedSlots then
    ({ pal with lockedSlots := pal.lockedSlots.erase slotId }, false)
  else
    ({ pal with lockedSlots := pal.lockedSlots ++ [slotId] }, true)

/-- Single-slot regeneration (`regenerateSlot`): locked slots with a cached
gesture are returned unchanged, otherwise the registry runs and a fresh
gesture object replaces the cache entry. -/
def paletteRegenerateSlot (gen : PaletteGen) (slotId : ℤ)
    (pal : KeyboardGesturePalette) : KeyboardGesturePalette × Option GestureRef :=
  match mapGet slotId pal.slotConfigs with
  | none => (pal, none)
  | some config =>
    if slotId ∈ pal.lockedSlots ∧ (mapGet slotId pal.gestures).isSome then
      (pal, mapGet slotId pal.gestures)
    else
      let gref : GestureRef :=
        ⟨pal.nextGestureId, gen config pal.harmonicContext pal.performanceContext⟩
      ({ pal with gestures := mapSet slotId gref pal.gestures,
                  nextGestureId := pal.nextGestureId + 1 }, some gref)

/-- Bulk regeneration (`regenerateAll({respectLocks})`); without
`respectLocks` the cache is cleared first and every slot, locked or not, gets
a fresh gesture object. -/
def paletteRegenerateAll (gen : PaletteGen) (respectLocks : Bool)
    (pal : KeyboardGesturePalette) : KeyboardGesturePalette :=
  let pal0 := if respectLocks then pal else { pal with gestures := [] }
  pal0.slotConfigs.foldl (fun p entry =>
    if respectLocks ∧ entry.1 ∈ p.lockedSlots ∧ (mapGet entry.1 p.gestures).isSome then
      p
    else
      { p with
        gestures := mapSet entry.1
          ⟨p.nextGestureId, gen entry.2 p.harmonicContext p.performanceContext⟩
          p.gestures,
        nextGestureId := p.nextGestureId + 1 }) pal0

/-- Regenerate only unlocked slots (`regenerateUnlockedSlots`). -/
def paletteRegenerateUnlockedSlots (gen : PaletteGen)
    (pal : KeyboardGesturePalette) : KeyboardGesturePalette :=
  (pal.slotConfigs.map Prod.fst).foldl (fun p slotId =>
    if slotId ∈ p.lockedSlots then p
    else (paletteRegenerateSlot gen slotId p).1) pal

/-- Scan of `weightedChoice`: subtract weights until the draw is exhausted. -/
def weightedScanAux (weights : List (String × ℚ)) : ℚ → List String → Option String
  | _, [] => none
  | random, s :: rest =>
    let r' := random - (mapGet s weights).getD 0
    if r' ≤ 0 then some s else weightedScanAux weights r' rest

/-- Weighted style choice (`KeyboardGesturePalette.weightedChoice`). -/
def paletteWeightedChoice (weights : List (String × ℚ)) (rng : SeededRandom) :
    String × SeededRandom :=
  let styles := weights.map Prod.fst
  let available := styles.filter (fun s => styleRegistryHas s)
  if available = [] then ("lyricalMinimal", rng)
  else
    let total := available.foldl (fun acc s => acc + (mapGet s weights).getD 0) 0
    let (v, rng1) := rng.next
    let random := v * total
    ((weightedScanAux weights random available).getD (available.headD "lyricalMinimal"),
      rng1)

/-- Position-banded slot configuration (`createSlotConfig`). -/
def createSlotConfig (minSlot : ℤ) (styleDistribution : List (String × ℚ))
    (slotId : ℤ) (rng : SeededRandom) (totalSlots : ℤ) :
    SlotConfig × SeededRandom :=
  let position : ℚ := ((slotId : ℚ) - (minSlot : ℚ)) / (totalSlots : ℚ)
  let (role, styleId, registerShift, rng1) :=
    if position < 0.25 then
      let (role, rA) := rng.choiceDraw ["bass", "texture", "chords"]
      let (st, rB) := rA.choiceDraw ["tintinnabuli", "lyricalMinimal", "aliceCascade"]
      (role, st, (-1 : ℤ), rB)
    else if position < 0.5 then
      let (role, rA) := rng.choiceDraw ["chords", "texture"]
      let (st, rB) := paletteWeightedChoice styleDistribution rA
      (role, st, 0, rB)
    else if position < 0.75 then
      let (role, rA) := rng.choiceDraw ["chords", "lead"]
      let (st, rB) := paletteWeightedChoice styleDistribution rA
      (role, st, 0, rB)
    else
      let (role, rA) := rng.choiceDraw ["lead", "texture"]
      let (st, rB) := rA.choiceDraw ["fracturedLead", "lyricalMinimal", "aliceCascade"]
      (role, st, 1, rB)
  let (density, r1) := rng1.rangeDraw 0.3 0.8
  let (complexity, r2) := r1.rangeDraw 0.3 0.7
  let (tension, r3) := r2.rangeDraw 0.2 0.6
  let (rhythmLoose, r4) := r3.rangeDraw 0.1 0.4
  let (motifVariation, r5) := r4.rangeDraw 0.2 0.5
  let (sv, r6) := r5.next
  (⟨slotId, styleId, role, density, complexity, tension, registerShift,
    rhythmLoose, motifVariation, sv * 1000000⟩, r6)

/-- Distribution randomisation (`randomizeDistribution`): draws fresh style
weights from a clock-seeded generator (`nowMs` models `Date.now()`), then
re-derives and regenerates every unlocked slot; locked slots are skipped
entirely. -/
def paletteRandomizeDistribution (gen : PaletteGen) (nowMs : ℚ)
    (pal : KeyboardGesturePalette) : KeyboardGesturePalette :=
  let availableStyles := registryStyleIds
  let rng := SeededRandom.mk' nowMs
  let (dist, total, rng1) := availableStyles.foldl
    (fun (acc : List (String × ℚ) × ℚ × SeededRandom) s =>
      let (w, r) := acc.2.2.rangeDraw 0.1 0.4
      (acc.1 ++ [(s, w)], acc.2.1 + w, r)) ([], 0, rng)
  let dist1 := dist.map (fun e => (e.1, e.2 / total))
  let pal1 := { pal with styleDistribution := dist1 }
  let totalSlots := pal.maxSlot - pal.minSlot + 1
  ((pal1.slotConfigs.map Prod.fst).foldl
    (fun (acc : KeyboardGesturePalette × SeededRandom) slotId =>
      if slotId ∈ acc.1.lockedSlots then acc
      else
        let (cfg, r) := createSlotConfig acc.1.minSlot acc.1.styleDistribution
          slotId acc.2 totalSlots
        let p1 := { acc.1 with slotConfigs := mapSet slotId cfg acc.1.slotConfigs }
        ((paletteRegenerateSlot gen slotId p1).1, r)) (pal1, rng1)).1

/-- Reference pick for evolution (`pickReferenceConfig`): stable sort by slot
distance, shortlist of up to three, random pick. -/
def pickReferenceConfig (slotId : ℤ) (references : List SlotConfig)
    (rng : SeededRandom) : SlotConfig × SeededRandom :=
  let sorted := references.mergeSort
    (fun a b => decide (|a.slotId - slotId| ≤ |b.slotId - slotId|))
  let candidates := sorted.take (max 1 (min 3 sorted.length))
  rng.choiceDraw candidates

/-- Guided blend toward a locked reference (`createEvolvedConfig`). -/
def createEvolvedConfig (baseConfig referenceConfig : SlotConfig)
    (rng : SeededRandom) : SlotConfig × SeededRandom :=
  let blend := fun (base target strength : ℚ) (r : SeededRandom) =>
    let (v, r') := r.next
    (paletteClamp (base + (target - base) * strength + (v - 0.5) * 0.15), r')
  let jitter := fun (value amount : ℚ) (r : SeededRandom) =>
    let (v, r') := r.next
    (paletteClamp (value + (v - 0.5) * amount), r')
  let (density, r1) := blend baseConfig.density referenceConfig.density 0.6 rng
  let (complexity, r2) := blend baseConfig.complexity referenceConfig.complexity 0.6 r1
  let (tension, r3) := blend baseConfig.tension referenceConfig.tension 0.4 r2
  let (rhythmLoose, r4) := jitter referenceConfig.rhythmLoose 0.1 r3
  let (motifVariation, r5) := jitter referenceConfig.motifVariation 0.2 r4
  let (sv, r6) := r5.next
  (⟨baseConfig.slotId, referenceConfig.styleId, baseConfig.role, density,
    complexity, tension, baseConfig.registerShift, rhythmLoose, motifVariation,
    sv * 1000000⟩, r6)

/-- Evolution toward locked exemplars (`evolveUnlockedSlots`); `nowMs` models
`Date.now()`.  With no locked slot it falls back to plain unlocked
regeneration; otherwise every unlocked slot is blended toward a nearby locked
reference and regenerated, while locked slots are skipped. -/
def paletteEvolveUnlockedSlots (gen : PaletteGen) (nowMs : ℚ)
    (pal : KeyboardGesturePalette) : KeyboardGesturePalette :=
  let lockedConfigs := pal.lockedSlots.filterMap
    (fun sid => mapGet sid pal.slotConfigs)
  if lockedConfigs = [] then paletteRegenerateUnlockedSlots gen pal
  else
    let rng := SeededRandom.mk' nowMs
    (pal.slotConfigs.foldl
      (fun (acc : KeyboardGesturePalette × SeededRandom) entry =>
        if entry.1 ∈ acc.1.lockedSlots then acc
        else
          let (reference, r1) := pickReferenceConfig entry.1 lockedConfigs acc.2
          let (evolvedConfig, r2) := createEvolvedConfig entry.2 reference r1
          let p1 := { acc.1 with
            slotConfigs := mapSet entry.1 evolvedConfig acc.1.slotConfigs }
          ((paletteRegenerateSlot gen entry.1 p1).1, r2)) (pal, rng)).1

/-! ## Event gesture player (`event-gesture-player.js`)

Playback state objects live in a heap keyed by an allocation id `sid`
(standing for JS object identity); the active map sends a slot id to the
`sid` of its current state, mirroring `activeGestures`.  `setTimeout` /
`setInterval` allocate timers with fresh ids into a shared pending pool;
`clearTimeout` / `clearInterval` remove them; `fireTimer` runs the callback
of a timer that is still pending (an interval timer stays pending after
firing).  The engine is observed through a call log. -/

/-- One call into the voice engine interface. -/
inductive EngineCall where
  | noteOn (note : ℤ) (vel : ℚ)
  | noteOff (note : ℤ)
  | allNotesOff
deriving DecidableEq

/-- Playback state for an active gesture (`GesturePlaybackState`). -/
structure GesturePlaybackState where
  gesture : Gesture
  slotId : ℤ
  velocity : ℚ
  startTime : ℚ
  isLooping : Bool
  loopCount : ℕ
  activeNotes : List ℤ
  timeoutIds : List ℕ
  intervalId : Option ℕ
deriving DecidableEq

/-- The callback armed on a timer: a note-on (`playEvent`), a note-off
(`stopEvent`), or a loop restart; each closure captures the state object it
was created for (`sid`) and the values closed over at arming time. -/
inductive TimerAction where
  | fire (sid : ℕ) (ev : GestureEvent) (gvel : ℚ)
  | off (sid : ℕ) (ev : GestureEvent)
  | loopTick (sid : ℕ) (msPerBeat : ℚ)
deriving DecidableEq

/-- The state object a timer's callback refers to. -/
def TimerAction.sid : TimerAction → ℕ
  | .fire sid _ _ => sid
  | .off sid _ => sid
  | .loopTick sid _ => sid

/-- A pending timer. -/
structure Timer where
  tid : ℕ
  delayMs : ℚ
  action : TimerAction
deriving DecidableEq

/-- The player together with its timer pool and engine call log. -/
structure PlayerSys where
  active : List (ℤ × ℕ)
  states : List (ℕ × GesturePlaybackState)
  timers : List Timer
  log : List EngineCall
  nextSid : ℕ
  nextTid : ℕ
deriving DecidableEq

/-- The player before any call. -/
def PlayerSys.init : PlayerSys := ⟨[], [], [], [], 0, 0⟩

/-- Mutate the heap cell of one playback state. -/
def PlayerSys.updateState (sys : PlayerSys) (sid : ℕ)
    (f : GesturePlaybackState → GesturePlaybackState) : PlayerSys :=
  { sys with states := mapUpdate sid f sys.states }

/-- Arm the note-on timer and, for a positive duration, the note-off timer of
one event (the body of the per-event loop in `scheduleGesture` and in the
loop-restart callback). -/
def scheduleOne (msPerBeat gvel : ℚ) (sid : ℕ) (sys : PlayerSys)
    (e : GestureEvent) : PlayerSys :=
  let delayMs := e.time * msPerBeat
  let durationMs := e.duration * msPerBeat
  let tid := sys.nextTid
  let sys1 := { sys with
    timers := sys.timers ++ [(⟨tid, delayMs, .fire sid e gvel⟩ : Timer)],
    nextTid := tid + 1 }
  let sys2 := sys1.updateState sid (fun st => { st with timeoutIds := st.timeoutIds ++ [tid] })
  if durationMs > 0 then
    let tid2 := sys2.nextTid
    let sys3 := { sys2 with
      timers := sys2.timers ++ [(⟨tid2, delayMs + durationMs, .off sid e⟩ : Timer)],
      nextTid := tid2 + 1 }
    sys3.updateState sid (fun st => { st with timeoutIds := st.timeoutIds ++ [tid2] })
  else sys2

/-- Schedule all events of a state's gesture and, for a looping state with a
truthy loop length, arm the loop-restart interval (`scheduleGesture`). -/
def scheduleGesture (msPerBeat : ℚ) (sid : ℕ) (st : GesturePlaybackState)
    (sys : PlayerSys) : PlayerSys :=
  let sys1 := st.gesture.events.foldl (scheduleOne msPerBeat st.velocity sid) sys
  if st.isLooping ∧ (st.gesture.loopLengthBeats.getD 0) ≠ 0 ∧
      st.gesture.loopLengthBeats.isSome then
    let loopDurationMs := (st.gesture.loopLengthBeats.getD 0) * msPerBeat
    let tid := sys1.nextTid
    let sys2 := { sys1 with
      timers := sys1.timers ++ [(⟨tid, loopDurationMs, .loopTick sid msPerBeat⟩ : Timer)],
      nextTid := tid + 1 }
    sys2.updateState sid (fun st' => { st' with intervalId := some tid })
  else sys1

/-- Release a slot (`releaseSlot`): issue note-offs for every sounding pitch,
clear the sounding set, cancel every timer recorded by the state, and remove
the slot from the active map.  Releasing an idle slot is a no-op. -/
def releaseSlot (sys : PlayerSys) (slotId : ℤ) : PlayerSys :=
  match mapGet slotId sys.active with
  | none => sys
  | some sid =>
    match mapGet sid sys.states with
    | none => sys
    | some st =>
      let sys1 := { sys with log := sys.log ++ st.activeNotes.map EngineCall.noteOff }
      let sys2 := sys1.updateState sid (fun s => { s with activeNotes := [] })
      let sys3 := { sys2 with
        timers := sys2.timers.filter (fun t =>
          !(st.timeoutIds.contains t.tid || st.intervalId == some t.tid)) }
      let sys4 := sys3.updateState sid
        (fun s => { s with timeoutIds := [], intervalId := none })
      { sys4 with active := mapDelete slotId sys4.active }

/-- Trigger a slot (`triggerSlot`): fetch the cached gesture through the
palette lookup `gp`; a missing or empty gesture reports failure and leaves
the system untouched; otherwise any prior state for the slot is released
before a fresh state is created and scheduled. -/
def triggerSlot (gp : ℤ → Option Gesture) (msPerBeat now : ℚ) (slotId : ℤ)
    (velocity : ℚ) (forceOneShot : Bool) (sys : PlayerSys) :
    PlayerSys × Option (Gesture × Bool) :=
  match gp slotId with
  | none => (sys, none)
  | some gesture =>
    if gesture.events = [] then (sys, none)
    else
      let sys1 := releaseSlot sys slotId
      let sid := sys1.nextSid
      let st : GesturePlaybackState :=
        { gesture := gesture, slotId := slotId, velocity := velocity,
          startTime := now,
          isLooping := !forceOneShot && gesture.loopLengthBeats.isSome,
          loopCount := 0, activeNotes := [], timeoutIds := [], intervalId := none }
      let sys2 := { sys1 with
        states := sys1.states ++ [(sid, st)],
        nextSid := sid + 1,
        active := mapSet slotId sid sys1.active }
      (scheduleGesture msPerBeat sid st sys2, some (gesture, st.isLooping))

/-- Tag-based velocity shaping of `playEvent`. -/
def tagVelocity (tag : Option String) (v : ℚ) : ℚ :=
  match tag with
  | some "ghost" => v * 0.4
  | some "grace" => v * 0.6
  | some "accent" => v * 1.2
  | some "pedal" => v * 0.7
  | _ => v

/-- Note-on callback (`playEvent`): a no-op when the state's slot is no
longer active; otherwise shape and clamp the velocity, call the engine and
record the pitch as sounding. -/
def playEvent (sid : ℕ) (e : GestureEvent) (gvel : ℚ) (sys : PlayerSys) :
    PlayerSys :=
  match mapGet sid sys.states with
  | none => sys
  | some st =>
    if (mapGet st.slotId sys.active).isSome then
      let velocity := e.velocity * gvel
      let finalVelocity := max 0.1 (min 1 (tagVelocity e.tag velocity))
      let sys1 := { sys with log := sys.log ++ [EngineCall.noteOn e.note finalVelocity] }
      sys1.updateState sid (fun s => { s with activeNotes := jsSetAdd e.note s.activeNotes })
    else sys

/-- Note-off callback (`stopEvent`): mirrors `playEvent`'s guard; a pitch no
longer marked sounding is a safe no-op. -/
def stopEvent (sid : ℕ) (e : GestureEvent) (sys : PlayerSys) : PlayerSys :=
  match mapGet sid sys.states with
  | none => sys
  | some st =>
    if (mapGet st.slotId sys.active).isSome then
      if e.note ∈ st.activeNotes then
        let sys1 := { sys with log := sys.log ++ [EngineCall.noteOff e.note] }
        sys1.updateState sid (fun s => { s with activeNotes := jsSetDelete e.note s.activeNotes })
      else sys
    else sys

/-- Run the callback of a pending timer.  A `fire`/`off` timeout is consumed;
a `loopTick` interval stays pending and re-schedules the state's whole event
list with the values captured when the interval was armed. -/
def fireTimer (tid : ℕ) (sys : PlayerSys) : PlayerSys :=
  match sys.timers.find? (fun t => t.tid == tid) with
  | none => sys
  | some t =>
    match t.action with
    | .fire sid e gvel =>
      playEvent sid e gvel { sys with timers := sys.timers.filter (fun u => u.tid ≠ tid) }
    | .off sid e =>
      stopEvent sid e { sys with timers := sys.timers.filter (fun u => u.tid ≠ tid) }
    | .loopTick sid msPerBeat =>
      match mapGet sid sys.states with
      | none => sys
      | some st =>
        let sys1 := sys.updateState sid (fun s => { s with loopCount := s.loopCount + 1 })
        st.gesture.events.foldl (scheduleOne msPerBeat st.velocity sid) sys1

/-- Release every active slot, then the defensive global all-notes-off
(`releaseAll`). -/
def releaseAll (sys : PlayerSys) : PlayerSys :=
  let sys1 := (sys.active.map Prod.fst).foldl releaseSlot sys
  { sys1 with log := sys1.log ++ [EngineCall.allNotesOff] }

/-- Slot activity query (`isSlotActive`). -/
def isSlotActive (sys : PlayerSys) (slotId : ℤ) : Bool :=
  (mapGet slotId sys.active).isSome

/-- One externally observable player interaction: a trigger call (with the
palette lookup and tempo read at call time), a release, a global release, or
the event loop running one pending timer callback. -/
inductive PlayerOp where
  | trigger (gp : ℤ → Option Gesture) (msPerBeat now : ℚ) (slotId : ℤ)
      (velocity : ℚ) (forceOneShot : Bool)
  | release (slotId : ℤ)
  | releaseEverything
  | fire (tid : ℕ)

/-- Apply one interaction. -/
def applyOp (sys : PlayerSys) : PlayerOp → PlayerSys
  | .trigger gp msPerBeat now slotId velocity forceOneShot =>
    (triggerSlot gp msPerBeat now slotId velocity forceOneShot sys).1
  | .release slotId => releaseSlot sys slotId
  | .releaseEverything => releaseAll sys
  | .fire tid => fireTimer tid sys

/-- Apply a sequence of interactions to the initial player. -/
def runOps (ops : List PlayerOp) : PlayerSys :=
  ops.foldl applyOp PlayerSys.init

/-- The operations a player op may perform on slot `S` short of releasing it:
anything except `releaseSlot S` and `releaseAll`. -/
def PlayerOp.keepsSlot (op : PlayerOp) (S : ℤ) : Prop :=
  match op with
  | .release slotId => slotId ≠ S
  | .releaseEverything => False
  | _ => True

/-- The timer ids a playback state has recorded as its own. -/
def ownedIds (st : GesturePlaybackState) : List ℕ :=
  st.timeoutIds ++ st.intervalId.toList

/-- The registration discipline of a pending timer with respect to the state
object its callback captured: timeouts are recorded in `timeoutIds` and carry
an event of the state's own gesture; the loop interval is recorded in
`intervalId`. -/
def timerFits (t : Timer) (st : GesturePlaybackState) : Prop :=
  match t.action with
  | .fire _ e _ => t.tid ∈ st.timeoutIds ∧ e ∈ st.gesture.events
  | .off _ e => t.tid ∈ st.timeoutIds ∧ e ∈ st.gesture.events
  | .loopTick _ _ => st.intervalId = some t.tid

/-- Structural invariant of the player, maintained by every interaction. -/
structure PInv (sys : PlayerSys) : Prop where
  activeNodup : (sys.active.map Prod.fst).Nodup
  activeSids : ∀ p ∈ sys.active, p.2 < sys.nextSid ∧
    ∃ st, mapGet p.2 sys.states = some st ∧ st.slotId = p.1
  statesLt : ∀ k (st : GesturePlaybackState), mapGet k sys.states = some st →
    k < sys.nextSid
  timersLt : ∀ t ∈ sys.timers, t.tid < sys.nextTid
  timerOwner : ∀ t ∈ sys.timers, ∃ slot, (slot, t.action.sid) ∈ sys.active
  timerRegistered : ∀ t ∈ sys.timers, ∀ st,
    mapGet t.action.sid sys.states = some st → timerFits t st
  staleClean : ∀ k st, mapGet k sys.states = some st →
    (∀ slot, (slot, k) ∉ sys.active) →
    st.timeoutIds = [] ∧ st.intervalId = none ∧ st.activeNotes = []
  soundingSubset : ∀ k st, mapGet k sys.states = some st →
    ∀ n ∈ st.activeNotes, n ∈ st.gesture.events.map GestureEvent.note

/-- The cumulative effect of the scheduling loop on the player, relative to
the state object `sid`: timers for `sid` with fresh ids are appended and
recorded in the state's `timeoutIds`; nothing else changes. -/
structure SchedDelta (sid : ℕ) (es : List GestureEvent) (a b : PlayerSys) : Prop where
  active_eq : b.active = a.active
  log_eq : b.log = a.log
  nextSid_eq : b.nextSid = a.nextSid
  nextTid_le : a.nextTid ≤ b.nextTid
  states_other : ∀ k, k ≠ sid → mapGet k b.states = mapGet k a.states
  state_sid : ∀ st, mapGet sid a.states = some st →
    ∃ added, mapGet sid b.states =
      some { st with timeoutIds := st.timeoutIds ++ added }
  state_none : mapGet sid a.states = none → b.states = a.states
  timers_ext : ∃ new, b.timers = a.timers ++ new ∧
    ∀ t ∈ new, t.action.sid = sid ∧ a.nextTid ≤ t.tid ∧ t.tid < b.nextTid ∧
      ∀ st, mapGet sid b.states = some st →
        (match t.action with
         | .fire _ e _ => t.tid ∈ st.timeoutIds ∧ e ∈ es
         | .off _ e => t.tid ∈ st.timeoutIds ∧ e ∈ es
         | .loopTick _ _ => st.intervalId = some t.tid)

/-! ## Palette operation sequences (for the lock-stability claims) -/

/-- The bulk palette operations of the lock-stability claim: bulk
regeneration, distribution randomisation and evolution, each clock-seeded
call carrying its own `Date.now()` value. -/
inductive PaletteOp where
  | regenAll (respectLocks : Bool)
  | randomize (nowMs : ℚ)
  | evolve (nowMs : ℚ)

/-- Apply one bulk palette operation using registry generation `gen`. -/
def applyPaletteOp (gen : PaletteGen) (pal : KeyboardGesturePalette) :
    PaletteOp → KeyboardGesturePalette
  | .regenAll respectLocks => paletteRegenerateAll gen respectLocks pal
  | .randomize nowMs => paletteRandomizeDistribution gen nowMs pal
  | .evolve nowMs => paletteEvolveUnlockedSlots gen nowMs pal

/-- Apply a sequence of bulk palette operations. -/
def runPaletteOps (gen : PaletteGen) (ops : List PaletteOp)
    (pal : KeyboardGesturePalette) : KeyboardGesturePalette :=
  ops.foldl (applyPaletteOp gen) pal

/-- The side condition of the tintinnabuli scan, exactly as the source tests
it: the candidate lies above the melodic note under `'above'`, not above it
under `'below'`. -/
def tintSideOk (melodicNote : ℤ) (position : String) (t : ℤ) : Prop :=
  (position = "above" ∧ t > melodicNote) ∨
  (position = "below" ∧ ¬ t > melodicNote)

instance (melodicNote : ℤ) (position : String) (t : ℤ) :
    Decidable (tintSideOk melodicNote position t) := by
  unfold tintSideOk
  infer_instance

/-- Source default field values of `GestureEvent`. -/
instance : Inhabited GestureEvent := ⟨⟨0, 60, 0.8, 0.5, none⟩⟩

/-- The lock-relevant view of a palette at slot `S`: the lock set, the cached
gesture reference and the slot configuration. -/
def palView (S : ℤ) (p : KeyboardGesturePalette) :
    List ℤ × Option GestureRef × Option SlotConfig :=
  (p.lockedSlots, mapGet S p.gestures, mapGet S p.slotConfigs)

/-!
# Theorems

First the association-list toolbox, then the claim theorems with their
supporting lemmas.
-/

section MapLemmas

variable {κ α : Type} [DecidableEq κ]

@[simp]
theorem mapGet_nil (k : κ) : mapGet k ([] : List (κ × α)) = none := rfl

theorem mapGet_cons (k : κ) (p : κ × α) (l : List (κ × α)) :
    mapGet k (p :: l) = if p.1 = k then some p.2 else mapGet k l := by
  cases p; rfl

@[simp]
theorem mapGet_mapSet_self (k : κ) (v : α) (l : List (κ × α)) :
    mapGet k (mapSet k v l) = some v := by
  induction l with
  | nil => simp [mapSet, mapGet]
  | cons p t ih =>
    cases p with
    | mk k' v' =>
      by_cases h : k' = k <;> simp [mapSet, mapGet, h, ih]

@[simp]
theorem mapGet_mapSet_ne (k k' : κ) (v : α) (l : List (κ × α)) (h : k ≠ k') :
    mapGet k' (mapSet k v l) = mapGet k' l := by
  induction l with
  | nil => simp [mapSet, mapGet, h, h.symm]
  | cons p t ih =>
    cases p with
    | mk ka va =>
      by_cases hk : ka = k
      · subst hk
        simp [mapSet, mapGet, h, h.symm, ih]
      · by_cases hk' : ka = k' <;> simp [mapSet, mapGet, hk, hk', h.symm, ih]

@[simp]
theorem mapGet_mapUpdate_self (k : κ) (f : α → α) (l : List (κ × α)) :
    mapGet k (mapUpdate k f l) = (mapGet k l).map f := by
  induction l with
  | nil => simp [mapUpdate, mapGet]
  | cons p t ih =>
    cases p with
    | mk ka va =>
      by_cases hk : ka = k <;> simp [mapUpdate, mapGet, hk, ih]

@[simp]
theorem mapGet_mapUpdate_ne (k k' : κ) (f : α → α) (l : List (κ × α)) (h : k ≠ k') :
    mapGet k' (mapUpdate k f l) = mapGet k' l := by
  induction l with
  | nil => simp [mapUpdate, mapGet]
  | cons p t ih =>
    cases p with
    | mk ka va =>
      by_cases hk : ka = k
      · subst hk
        simp [mapUpdate, mapGet, h, h.symm, ih]
      · by_cases hk' : ka = k' <;> simp [mapUpdate, mapGet, hk, hk', h.symm, ih]

theorem mapGet_eq_none_of_not_mem_keys (k : κ) (l : List (κ × α))
    (h : k ∉ l.map Prod.fst) : mapGet k l = none := by
  induction l with
  | nil => rfl
  | cons p t ih =>
    cases p with
    | mk ka va =>
      simp only [List.map_cons, List.mem_cons] at h
      push_neg at h
      simp [mapGet, h.1.symm, ih h.2]

theorem mapGet_isSome_of_mem (p : κ × α) (l : List (κ × α)) (h : p ∈ l) :
    (mapGet p.1 l).isSome := by
  induction l with
  | nil => simp at h
  | cons q t ih =>
    cases q with
    | mk ka va =>
      rcases List.mem_cons.1 h with h1 | h2
      · subst h1; simp [mapGet]
      · by_cases hk : ka = p.1 <;> simp [mapGet, hk, ih h2]

@[simp]
theorem mapGet_mapDelete_self (k : κ) (l : List (κ × α))
    (h : (l.map Prod.fst).Nodup) : mapGet k (mapDelete k l) = none := by
  induction l with
  | nil => rfl
  | cons p t ih =>
    cases p with
    | mk ka va =>
      simp only [List.map_cons, List.nodup_cons] at h
      by_cases hk : ka = k
      · subst hk
        simp only [mapDelete, if_pos rfl]
        exact mapGet_eq_none_of_not_mem_keys _ _ h.1
      · simp [mapDelete, mapGet, hk, ih h.2]

@[simp]
theorem mapGet_mapDelete_ne (k k' : κ) (l : List (κ × α)) (h : k ≠ k') :
    mapGet k' (mapDelete k l) = mapGet k' l := by
  induction l with
  | nil => rfl
  | cons p t ih =>
    cases p with
    | mk ka va =>
      by_cases hk : ka = k
      · subst hk
        simp [mapDelete, mapGet, h, ih]
      · simp only [mapDelete, hk, if_false]
        by_cases hk' : ka = k' <;> simp [mapGet, hk', ih]

theorem keys_mapUpdate (k : κ) (f : α → α) (l : List (κ × α)) :
    (mapUpdate k f l).map Prod.fst = l.map Prod.fst := by
  induction l with
  | nil => rfl
  | cons p t ih =>
    cases p with
    | mk ka va =>
      by_cases hk : ka = k <;> simp [mapUpdate, hk, ih]

theorem mem_mapUpdate {k : κ} {f : α → α} {l : List (κ × α)} {p : κ × α}
    (h : p ∈ mapUpdate k f l) :
    p ∈ l ∨ ∃ v, (k, v) ∈ l ∧ p = (k, f v) := by
  induction l with
  | nil => simp [mapUpdate] at h
  | cons q t ih =>
    cases q with
    | mk ka va =>
      by_cases hk : ka = k
      · subst hk
        simp only [mapUpdate, if_pos rfl, if_true, eq_self_iff_true,
          List.mem_cons] at h
        rcases h with h | h
        · exact Or.inr ⟨va, List.mem_cons_self _ _, h⟩
        · exact Or.inl (List.mem_cons_of_mem _ h)
      · simp only [mapUpdate, if_neg hk, List.mem_cons] at h
        rcases h with h | h
        · exact Or.inl (h ▸ List.mem_cons_self _ _)
        · rcases ih h with h1 | ⟨v, hv, he⟩
          · exact Or.inl (List.mem_cons_of_mem _ h1)
          · exact Or.inr ⟨v, List.mem_cons_of_mem _ hv, he⟩

theorem mem_of_mapGet_eq_some {k : κ} {v : α} {l : List (κ × α)}
    (h : mapGet k l = some v) : (k, v) ∈ l := by
  induction l with
  | nil => simp [mapGet] at h
  | cons q t ih =>
    cases q with
    | mk ka va =>
      by_cases hk : ka = k
      · subst hk
        simp only [mapGet, if_pos rfl, if_true, eq_self_iff_true,
          Option.some.injEq] at h
        subst h
        exact List.mem_cons_self _ _
      · simp only [mapGet, if_neg hk] at h
        exact List.mem_cons_of_mem _ (ih h)

theorem mapGet_eq_some_of_mem_nodup {l : List (κ × α)} {p : κ × α}
    (hn : (l.map Prod.fst).Nodup) (h : p ∈ l) : mapGet p.1 l = some p.2 := by
  induction l with
  | nil => simp at h
  | cons q t ih =>
    cases q with
    | mk ka va =>
      simp only [List.map_cons, List.nodup_cons] at hn
      rcases List.mem_cons.1 h with h1 | h2
      · subst h1; simp [mapGet]
      · have hk : ka ≠ p.1 := by
          intro he
          exact hn.1 (he ▸ List.mem_map_of_mem Prod.fst h2)
        simp [mapGet, hk, ih hn.2 h2]

end MapLemmas

/-! ## C2: generator determinism -/

/-- Claim C2: for every registered style generator (the registry dispatch over
all four registered styles), a fixed `SlotConfig` (including its seed), a
fixed `HarmonicContext` and `PerformanceContext`, two invocations return
Gestures with identical event lists — and identical gestures altogether —
whatever ambient entropy the environment offers on each invocation, since a
fresh `SeededRandom` built from `slotConfig.seed` is the only randomness
source any generator reads. -/
theorem registry_generate_deterministic (jm : JsMath) (amb1 amb2 : ℕ → ℚ)
    (cfg : SlotConfig) (hc : HarmonicContext) (pc : PerformanceContext) :
    (styleRegistryGenerate jm amb1 cfg hc pc).events =
      (styleRegistryGenerate jm amb2 cfg hc pc).events ∧
    styleRegistryGenerate jm amb1 cfg hc pc =
      styleRegistryGenerate jm amb2 cfg hc pc :=
  ⟨rfl, rfl⟩

/-! ## C5: trigger failure semantics -/

/-- Claim C5: when the palette has no cached gesture for the slot, or the
cached gesture has zero events, `triggerSlot` reports failure (`none`, and
being a total function it throws nothing), creates no playback state, and
returns the player exactly as it was — any existing playback state for the
slot, its armed timers and its sounding set included. -/
theorem triggerSlot_missing_or_empty_noop (gp : ℤ → Option Gesture)
    (msPerBeat now : ℚ) (slotId : ℤ) (velocity : ℚ) (forceOneShot : Bool)
    (sys : PlayerSys)
    (h : gp slotId = none ∨ ∃ g, gp slotId = some g ∧ g.events = []) :
    triggerSlot gp msPerBeat now slotId velocity forceOneShot sys = (sys, none) := by
  rcases h with h | ⟨g, hg, he⟩
  · simp [triggerSlot, h]
  · simp [triggerSlot, hg, he]

/-- Witness for C5 at a concrete input: an empty palette lookup on the fresh
player reports failure and changes nothing. -/
theorem triggerSlot_missing_or_empty_noop_witness :
    triggerSlot (fun _ => none) 500 0 60 1 false PlayerSys.init =
      (PlayerSys.init, none) :=
  triggerSlot_missing_or_empty_noop (fun _ => none) 500 0 60 1 false
    PlayerSys.init (Or.inl rfl)

/-! ## C10: lock toggling -/

/-- Claim C10: `toggleSlotLock(S)` flips exactly `S`'s membership in the
locked-slot set and returns `true` exactly when `S` is locked after the call
(so a subsequent `isSlotLocked(S)` agrees); toggling twice restores the
locked-slot set (as a set) to its original value; and neither call touches
`slotConfigs` or the gesture cache.  The `Nodup` hypothesis is the JS `Set`
representation invariant. -/
theorem toggleSlotLock_spec (pal : KeyboardGesturePalette) (S : ℤ)
    (hn : pal.lockedSlots.Nodup) :
    ((paletteToggleSlotLock pal S).2 = true ↔
      S ∈ (paletteToggleSlotLock pal S).1.lockedSlots) ∧
    paletteIsSlotLocked (paletteToggleSlotLock pal S).1 S =
      (paletteToggleSlotLock pal S).2 ∧
    (S ∈ (paletteToggleSlotLock pal S).1.lockedSlots ↔ S ∉ pal.lockedSlots) ∧
    (∀ x, x ≠ S → (x ∈ (paletteToggleSlotLock pal S).1.lockedSlots ↔
      x ∈ pal.lockedSlots)) ∧
    (∀ x, x ∈ (paletteToggleSlotLock (paletteToggleSlotLock pal S).1 S).1.lockedSlots
      ↔ x ∈ pal.lockedSlots) ∧
    (paletteToggleSlotLock pal S).1.slotConfigs = pal.slotConfigs ∧
    (paletteToggleSlotLock pal S).1.gestures = pal.gestures ∧
    (paletteToggleSlotLock (paletteToggleSlotLock pal S).1 S).1.slotConfigs =
      pal.slotConfigs ∧
    (paletteToggleSlotLock (paletteToggleSlotLock pal S).1 S).1.gestures =
      pal.gestures := by
  by_cases h : S ∈ pal.lockedSlots
  · have herase : S ∉ pal.lockedSlots.erase S := by
      intro hmem
      exact absurd (hn.mem_erase_iff.1 hmem).1 (by simp)
    simp only [paletteToggleSlotLock, if_pos h, paletteIsSlotLocked,
      if_neg herase]
    refine ⟨by simp [herase], by simpa using herase, by simp [herase, h],
      ?_, ?_, trivial, trivial, trivial, trivial⟩
    · intro x hx
      exact hn.mem_erase_iff.trans (by simp [hx])
    · intro x
      by_cases hxS : x = S
      · subst hxS
        simp [h]
      · rw [List.mem_append]
        simp only [List.mem_singleton, hxS, or_false]
        exact hn.mem_erase_iff.trans (by simp [hxS])
  · have hmem : S ∈ pal.lockedSlots ++ [S] := by simp
    have hnn : (pal.lockedSlots ++ [S]).Nodup :=
      List.Nodup.append hn (by simp) (by simpa using h)
    simp only [paletteToggleSlotLock, if_neg h, paletteIsSlotLocked,
      if_pos hmem]
    refine ⟨by simp, by simp, by simpa using h, ?_, ?_, trivial, trivial,
      trivial, trivial⟩
    · intro x hx
      simp [hx]
    · intro x
      by_cases hxS : x = S
      · subst hxS
        refine ⟨fun hx => absurd (hnn.mem_erase_iff.1 hx).1 (by simp),
          fun hx => absurd hx h⟩
      · rw [hnn.mem_erase_iff]
        simp [hxS]

/-- Witness for C10 at a concrete input: a palette with slot 60 locked and 61
unlocked. -/
theorem toggleSlotLock_spec_witness :
    ((paletteToggleSlotLock
      ⟨36, 96, "C", "major", 120, [], [], [60], ⟨"C", "major", []⟩, ⟨120⟩, [], 0⟩
      60).2 = true ↔
      (60 : ℤ) ∈ (paletteToggleSlotLock
      ⟨36, 96, "C", "major", 120, [], [], [60], ⟨"C", "major", []⟩, ⟨120⟩, [], 0⟩
      60).1.lockedSlots) ∧
    ((61 : ℤ) ∈ (paletteToggleSlotLock
      ⟨36, 96, "C", "major", 120, [], [], [60], ⟨"C", "major", []⟩, ⟨120⟩, [], 0⟩
      60).1.lockedSlots ↔ (61 : ℤ) ∈ ([60] : List ℤ)) := by
  have h := toggleSlotLock_spec
    ⟨36, 96, "C", "major", 120, [], [], [60], ⟨"C", "major", []⟩, ⟨120⟩, [], 0⟩
    60 (by simp)
  exact ⟨h.1, h.2.2.2.1 61 (by decide)⟩

/-! ## C8: scale quantization -/

theorem circDist_lt_twelve (a b : ℤ) : circDist a b < 12 := by
  unfold circDist
  by_cases h : |a - b| > 6
  · simp only [if_pos h]
    omega
  · simp only [if_neg h]
    omega

theorem scales_table_bounds :
    ∀ l ∈ SCALES.map Prod.snd, l ≠ [] ∧ ∀ i ∈ l, 0 ≤ i ∧ i ≤ 11 := by
  decide

theorem scaleIntervalsFor_sound (s : String) :
    scaleIntervalsFor s ≠ [] ∧ ∀ i ∈ scaleIntervalsFor s, 0 ≤ i ∧ i ≤ 11 := by
  unfold scaleIntervalsFor
  rcases h : mapGet s SCALES with _ | l
  · exact ⟨by decide, by decide⟩
  · have hmem : l ∈ SCALES.map Prod.snd :=
      List.mem_map_of_mem Prod.snd (mem_of_mapGet_eq_some h)
    exact scales_table_bounds l hmem

/-- The nearest-degree scan of `quantizeToScale` computes, over any interval
list, either no improvement on the accumulator or the minimal circular
distance together with a pitch-class achieving it. -/
theorem quantizeStep_foldl_spec (nc ri : ℤ) :
    ∀ (l : List ℤ) (acc : ℤ × ℤ),
      (l.foldl (quantizeStep nc ri) acc = acc ∧
        ∀ i ∈ l, acc.1 ≤ circDist nc ((ri + i).tmod 12)) ∨
      (∃ i ∈ l,
        (l.foldl (quantizeStep nc ri) acc).2 = (ri + i).tmod 12 ∧
        (l.foldl (quantizeStep nc ri) acc).1 = circDist nc ((ri + i).tmod 12) ∧
        (l.foldl (quantizeStep nc ri) acc).1 < acc.1 ∧
        ∀ j ∈ l, (l.foldl (quantizeStep nc ri) acc).1 ≤
          circDist nc ((ri + j).tmod 12)) := by
  intro l
  induction l with
  | nil => exact fun acc => Or.inl ⟨rfl, by simp⟩
  | cons i t ih =>
    intro acc
    by_cases hd : circDist nc ((ri + i).tmod 12) < acc.1
    · have hstep : quantizeStep nc ri acc i =
          (circDist nc ((ri + i).tmod 12), (ri + i).tmod 12) := by
        simp [quantizeStep, hd]
      rw [List.foldl_cons, hstep]
      rcases ih (circDist nc ((ri + i).tmod 12), (ri + i).tmod 12) with
        ⟨heq, hall⟩ | ⟨i', hi', hcls, hdst, hlt, hall⟩
      · refine Or.inr ⟨i, List.mem_cons_self _ _, by rw [heq], by rw [heq], ?_, ?_⟩
        · rw [heq]; exact hd
        · intro j hj
          rcases List.mem_cons.1 hj with rfl | hj
          · rw [heq]
          · rw [heq]; exact hall j hj
      · refine Or.inr ⟨i', List.mem_cons_of_mem _ hi', hcls, hdst, ?_, ?_⟩
        · exact hlt.trans hd
        · intro j hj
          rcases List.mem_cons.1 hj with rfl | hj
          · exact le_of_lt hlt
          · exact hall j hj
    · have hstep : quantizeStep nc ri acc i = acc := by
        simp [quantizeStep, hd]
      rw [List.foldl_cons, hstep]
      rcases ih acc with ⟨heq, hall⟩ | ⟨i', hi', hcls, hdst, hlt, hall⟩
      · refine Or.inl ⟨heq, ?_⟩
        intro j hj
        rcases List.mem_cons.1 hj with rfl | hj
        · exact le_of_not_lt hd
        · exact hall j hj
      · refine Or.inr ⟨i', List.mem_cons_of_mem _ hi', hcls, hdst, hlt, ?_⟩
        intro j hj
        rcases List.mem_cons.1 hj with rfl | hj
        · exact le_of_lt (hlt.trans_le (le_of_not_lt hd))
        · exact hall j hj

/-- Claim C8, amended: for every nonnegative MIDI note, valid root name and
scale name, `quantizeToScale` returns the pitch `⌊note/12⌋·12 + c` where `c`
is a scale pitch-class minimising the circular semitone distance to the
note's pitch-class — so the result's pitch-class is a nearest scale class and
the result stays within 11 semitones of the input — but it rebuilds the pitch
inside the input's own numeric octave rather than choosing the closest pitch
of that class, so it does not preserve octave proximity at wrap-around (see
the counterexample). -/
theorem quantizeToScale_nearest_class (midiNote : ℤ) (root scaleName : String)
    (hnote : 0 ≤ midiNote) (hroot : 0 ≤ jsIndexOf NOTE_NAMES root) :
    ∃ c, c ∈ (scaleIntervalsFor scaleName).map
        (fun i => (jsIndexOf NOTE_NAMES root + i).tmod 12) ∧
      quantizeToScale midiNote root scaleName = midiNote.fdiv 12 * 12 + c ∧
      quantizeToScale midiNote root scaleName % 12 = c ∧
      (∀ c' ∈ (scaleIntervalsFor scaleName).map
        (fun i => (jsIndexOf NOTE_NAMES root + i).tmod 12),
        circDist (midiNote.tmod 12) c ≤ circDist (midiNote.tmod 12) c') ∧
      |quantizeToScale midiNote root scaleName - midiNote| ≤ 11 := by
  obtain ⟨hne, hbounds⟩ := scaleIntervalsFor_sound scaleName
  rcases quantizeStep_foldl_spec (midiNote.tmod 12) (jsIndexOf NOTE_NAMES root)
      (scaleIntervalsFor scaleName) (12, 0) with ⟨_, hall⟩ | h
  · obtain ⟨i0, hi0⟩ := List.exists_mem_of_ne_nil _ hne
    exact absurd (hall i0 hi0)
      (not_le.2 (circDist_lt_twelve _ _))
  · obtain ⟨i, hi, hcls, _, _, hall⟩ := h
    refine ⟨(jsIndexOf NOTE_NAMES root + i).tmod 12,
      List.mem_map_of_mem _ hi, ?_, ?_, ?_, ?_⟩
    · simp only [quantizeToScale]
      rw [hcls]
    · simp only [quantizeToScale]
      rw [hcls]
      have h0 : 0 ≤ (jsIndexOf NOTE_NAMES root + i).tmod 12 :=
        Int.tmod_nonneg _ (by have := hbounds i hi; omega)
      have h1 : (jsIndexOf NOTE_NAMES root + i).tmod 12 < 12 :=
        Int.tmod_lt_of_pos _ (by norm_num)
      rw [Int.fdiv_eq_ediv _ (by norm_num : (0:ℤ) ≤ 12),
        show midiNote / 12 * 12 + (jsIndexOf NOTE_NAMES root + i).tmod 12 =
          (jsIndexOf NOTE_NAMES root + i).tmod 12 + 12 * (midiNote / 12) from by
            ring,
        Int.add_mul_emod_self_left, Int.emod_eq_of_lt h0 h1]
    · intro c' hc'
      obtain ⟨j, hj, rfl⟩ := List.mem_map.1 hc'
      have := hall j hj
      rcases quantizeStep_foldl_spec (midiNote.tmod 12)
          (jsIndexOf NOTE_NAMES root) (scaleIntervalsFor scaleName) (12, 0) with
        ⟨heq', hall'⟩ | h'
      · obtain ⟨i0, hi0⟩ := List.exists_mem_of_ne_nil _ hne
        exact absurd (hall' i0 hi0) (not_le.2 (circDist_lt_twelve _ _))
      · obtain ⟨i2, hi2, hcls2, hdst2, _, hall2⟩ := h'
        calc circDist (midiNote.tmod 12) ((jsIndexOf NOTE_NAMES root + i).tmod 12)
            = circDist (midiNote.tmod 12)
              (((scaleIntervalsFor scaleName).foldl
                (quantizeStep (midiNote.tmod 12) (jsIndexOf NOTE_NAMES root))
                (12, 0)).2) := by rw [hcls]
          _ = ((scaleIntervalsFor scaleName).foldl
                (quantizeStep (midiNote.tmod 12) (jsIndexOf NOTE_NAMES root))
                (12, 0)).1 := by rw [hcls2, hdst2]
          _ ≤ _ := hall2 j hj
    · have h0 : 0 ≤ (jsIndexOf NOTE_NAMES root + i).tmod 12 :=
        Int.tmod_nonneg _ (by have := hbounds i hi; omega)
      have h1 : (jsIndexOf NOTE_NAMES root + i).tmod 12 < 12 :=
        Int.tmod_lt_of_pos _ (by norm_num)
      have hres : quantizeToScale midiNote root scaleName =
          midiNote.fdiv 12 * 12 + (jsIndexOf NOTE_NAMES root + i).tmod 12 := by
        simp only [quantizeToScale]
        rw [hcls]
      rw [hres, Int.fdiv_eq_ediv _ (by norm_num : (0:ℤ) ≤ 12), abs_le]
      have hm0 : 0 ≤ midiNote.emod 12 := Int.emod_nonneg _ (by norm_num)
      have hm1 : midiNote.emod 12 < 12 := Int.emod_lt_of_pos _ (by norm_num)
      omega

/-- Counterexample to claim C8 as stated: MIDI note 71 in C pentatonic major
quantizes to 60, a full 11 semitones below the input, although the pitch 72
has the very same (nearest) pitch-class and lies 1 semitone away — the code
does not return the closest pitch of the chosen class and can move a note by
more than 6 semitones. -/
theorem quantizeToScale_wraps_at_octave_boundary :
    quantizeToScale 71 "C" "pentatonicMajor" = 60 ∧
    ¬ |quantizeToScale 71 "C" "pentatonicMajor" - 71| ≤ 6 ∧
    (72 : ℤ) % 12 = quantizeToScale 71 "C" "pentatonicMajor" % 12 ∧
    |(72 : ℤ) - 71| < |quantizeToScale 71 "C" "pentatonicMajor" - 71| := by
  refine ⟨by decide, ?_, by decide, by decide⟩
  decide

/-- Witness for the amended C8 theorem at a concrete input: note 71, root C,
C pentatonic major — the nearest class is 0 and the result 60 stays within 11
semitones. -/
theorem quantizeToScale_nearest_class_witness :
    (0 : ℤ) ≤ 71 ∧ (0 : ℤ) ≤ jsIndexOf NOTE_NAMES "C" ∧
    ∃ c, c ∈ (scaleIntervalsFor "pentatonicMajor").map
        (fun i => (jsIndexOf NOTE_NAMES "C" + i).tmod 12) ∧
      quantizeToScale 71 "C" "pentatonicMajor" = (71 : ℤ).fdiv 12 * 12 + c ∧
      quantizeToScale 71 "C" "pentatonicMajor" % 12 = c ∧
      (∀ c' ∈ (scaleIntervalsFor "pentatonicMajor").map
        (fun i => (jsIndexOf NOTE_NAMES "C" + i).tmod 12),
        circDist ((71 : ℤ).tmod 12) c ≤ circDist ((71 : ℤ).tmod 12) c') ∧
      |quantizeToScale 71 "C" "pentatonicMajor" - 71| ≤ 11 :=
  ⟨by decide, by decide,
    quantizeToScale_nearest_class 71 "C" "pentatonicMajor" (by decide) (by decide)⟩

/-! ## C7: tintinnabuli second-voice selection -/

/-- The closest-chord-tone scan over any candidate list: either no candidate
improves on the accumulator, or the final state is a side-correct candidate
of positive distance that is minimal among all side-correct candidates of
positive distance. -/
theorem tintSelectStep_foldl_spec (M : ℤ) (pos : String) :
    ∀ (l : List ℤ) (acc : ℤ × ℤ),
      (l.foldl (tintSelectStep M pos) acc = acc ∧
        ∀ t ∈ l, tintSideOk M pos t → 0 < |M - t| → acc.2 ≤ |M - t|) ∨
      (∃ t ∈ l, tintSideOk M pos t ∧ 0 < |M - t| ∧
        l.foldl (tintSelectStep M pos) acc = (t, |M - t|) ∧ |M - t| < acc.2 ∧
        ∀ u ∈ l, tintSideOk M pos u → 0 < |M - u| → |M - t| ≤ |M - u|) := by
  intro l
  induction l with
  | nil => exact fun acc => Or.inl ⟨rfl, by simp⟩
  | cons t0 tl ih =>
    intro acc
    by_cases hcond : |M - t0| < acc.2 ∧ |M - t0| > 0
    · by_cases hside : tintSideOk M pos t0
      · have hstep : tintSelectStep M pos acc t0 = (t0, |M - t0|) := by
          simp only [tintSelectStep, tintSideOk] at *
          rw [if_pos hcond, if_pos hside]
        rw [List.foldl_cons, hstep]
        rcases ih (t0, |M - t0|) with ⟨heq, hall⟩ | ⟨u, hu, hus, hud, heq, hlt, hall⟩
        · refine Or.inr ⟨t0, List.mem_cons_self _ _, hside, hcond.2, by rw [heq],
            hcond.1, ?_⟩
          intro u hu hus hud
          rcases List.mem_cons.1 hu with rfl | hu
          · exact le_refl _
          · exact hall u hu hus hud
        · refine Or.inr ⟨u, List.mem_cons_of_mem _ hu, hus, hud, heq,
            hlt.trans hcond.1, ?_⟩
          intro w hw hws hwd
          rcases List.mem_cons.1 hw with rfl | hw
          · exact le_of_lt hlt
          · exact hall w hw hws hwd
      · have hstep : tintSelectStep M pos acc t0 = acc := by
          simp only [tintSelectStep, tintSideOk] at *
          rw [if_pos hcond, if_neg hside]
        rw [List.foldl_cons, hstep]
        rcases ih acc with ⟨heq, hall⟩ | ⟨u, hu, hus, hud, heq, hlt, hall⟩
        · refine Or.inl ⟨heq, ?_⟩
          intro w hw hws hwd
          rcases List.mem_cons.1 hw with rfl | hw
          · exact absurd hws hside
          · exact hall w hw hws hwd
        · refine Or.inr ⟨u, List.mem_cons_of_mem _ hu, hus, hud, heq, hlt, ?_⟩
          intro w hw hws hwd
          rcases List.mem_cons.1 hw with rfl | hw
          · exact absurd hws hside
          · exact hall w hw hws hwd
    · have hstep : tintSelectStep M pos acc t0 = acc := by
        simp only [tintSelectStep]
        rw [if_neg ?_]
        intro hc
        exact hcond ⟨hc.1, hc.2⟩
      rw [List.foldl_cons, hstep]
      rcases ih acc with ⟨heq, hall⟩ | ⟨u, hu, hus, hud, heq, hlt, hall⟩
      · refine Or.inl ⟨heq, ?_⟩
        intro w hw hws hwd
        rcases List.mem_cons.1 hw with rfl | hw
        · exact le_of_not_lt (fun hl => hcond ⟨hl, hwd⟩)
        · exact hall w hw hws hwd
      · refine Or.inr ⟨u, List.mem_cons_of_mem _ hu, hus, hud, heq, hlt, ?_⟩
        intro w hw hws hwd
        rcases List.mem_cons.1 hw with rfl | hw
        · exact le_of_lt (hlt.trans_le (le_of_not_lt (fun hl => hcond ⟨hl, hwd⟩)))
        · exact hall w hw hws hwd

/-- Characterisation of the per-note selection: when some side-correct tone
lies strictly closer than the lowest triad tone, the closest such tone is
chosen; otherwise the scan's initial candidate `tonicTriad[0]` survives
whatever its side. -/
theorem tintSelect_spec (M : ℤ) (triad : List ℤ) (pos : String) :
    ((∃ t ∈ triad, tintSideOk M pos t ∧ 0 < |M - t| ∧
        |M - t| < |M - jsGet triad 0 0|) →
      (tintSelect M triad pos ∈ triad ∧ tintSideOk M pos (tintSelect M triad pos) ∧
        ∀ u ∈ triad, tintSideOk M pos u → 0 < |M - u| →
          |M - tintSelect M triad pos| ≤ |M - u|)) ∧
    ((∀ t ∈ triad, tintSideOk M pos t → 0 < |M - t| →
        |M - jsGet triad 0 0| ≤ |M - t|) →
      tintSelect M triad pos = jsGet triad 0 0) := by
  constructor
  · rintro ⟨t, ht, hts, htd, htlt⟩
    rcases tintSelectStep_foldl_spec M pos triad (jsGet triad 0 0, |M - jsGet triad 0 0|)
      with ⟨_, hall⟩ | ⟨u, hu, hus, hud, heq, _, hall⟩
    · exact absurd htlt (not_lt.2 (hall t ht hts htd))
    · have hsel : tintSelect M triad pos = u := by
        show (List.foldl (tintSelectStep M pos)
          (jsGet triad 0 0, |M - jsGet triad 0 0|) triad).1 = u
        rw [heq]
      rw [hsel]
      exact ⟨hu, hus, fun w hw hws hwd => by
        have := hall w hw hws hwd
        calc |M - u| ≤ |M - w| := this⟩
  · intro hall0
    rcases tintSelectStep_foldl_spec M pos triad (jsGet triad 0 0, |M - jsGet triad 0 0|)
      with ⟨heq, _⟩ | ⟨u, hu, hus, hud, heq, hlt, _⟩
    · show (List.foldl (tintSelectStep M pos)
        (jsGet triad 0 0, |M - jsGet triad 0 0|) triad).1 = jsGet triad 0 0
      rw [heq]
    · exact absurd hlt (not_lt.2 (hall0 u hu hus hud))

/-- Claim C7, amended: every second-voice event of
`generateTintinnabuliVoice` accompanies a melodic event (same time and
duration, velocity scaled by 0.7) and carries the note selected by the scan;
that note is the *closest configured-side triad tone* whenever some
configured-side tone at positive distance lies strictly closer to the
melodic note than the lowest triad tone does — but when no such tone beats
the lowest triad tone, the lowest triad tone itself is emitted even if it
lies on the wrong side (see the counterexample). -/
theorem tintinnabuli_second_voice_selection (mv : List GestureEvent)
    (triad : List ℤ) (pos : String) (hc : HarmonicContext) :
    ∀ ev ∈ generateTintinnabuliVoice mv triad pos hc,
      ∃ me ∈ mv, ev.time = me.time ∧ ev.duration = me.duration ∧
        ev.velocity = me.velocity * 0.7 ∧ ev.tag = some "tintinnabuli" ∧
        ev.note = tintSelect me.note triad pos ∧
        ((∃ t ∈ triad, tintSideOk me.note pos t ∧ 0 < |me.note - t| ∧
            |me.note - t| < |me.note - jsGet triad 0 0|) →
          (tintSideOk me.note pos ev.note ∧ ev.note ∈ triad ∧
            ∀ u ∈ triad, tintSideOk me.note pos u → 0 < |me.note - u| →
              |me.note - ev.note| ≤ |me.note - u|)) ∧
        ((∀ t ∈ triad, tintSideOk me.note pos t → 0 < |me.note - t| →
            |me.note - jsGet triad 0 0| ≤ |me.note - t|) →
          ev.note = jsGet triad 0 0) := by
  intro ev hev
  obtain ⟨me, hme, rfl⟩ := List.mem_map.1 hev
  refine ⟨me, hme, rfl, rfl, rfl, rfl, rfl, ?_, ?_⟩
  · intro hex
    obtain ⟨h1, h2, h3⟩ := (tintSelect_spec me.note triad pos).1 hex
    exact ⟨h2, h1, h3⟩
  · exact (tintSelect_spec me.note triad pos).2

/-- Witness for the amended C7 theorem at a concrete input: a single melodic
note 60 against the triad `[48, 72]` in `'above'` position. -/
theorem tintinnabuli_second_voice_selection_witness :
    ∃ me ∈ [GestureEvent.mk 0 60 0.8 1 none],
      (GestureEvent.mk 0 (tintSelect 60 [48, 72] "above") (0.8 * 0.7) 1
        (some "tintinnabuli")).time = me.time ∧
      (GestureEvent.mk 0 (tintSelect 60 [48, 72] "above") (0.8 * 0.7) 1
        (some "tintinnabuli")).duration = me.duration ∧
      (GestureEvent.mk 0 (tintSelect 60 [48, 72] "above") (0.8 * 0.7) 1
        (some "tintinnabuli")).velocity = me.velocity * 0.7 ∧
      (GestureEvent.mk 0 (tintSelect 60 [48, 72] "above") (0.8 * 0.7) 1
        (some "tintinnabuli")).tag = some "tintinnabuli" ∧
      (GestureEvent.mk 0 (tintSelect 60 [48, 72] "above") (0.8 * 0.7) 1
        (some "tintinnabuli")).note = tintSelect me.note [48, 72] "above" ∧
      ((∃ t ∈ [(48 : ℤ), 72], tintSideOk me.note "above" t ∧ 0 < |me.note - t| ∧
          |me.note - t| < |me.note - jsGet [(48 : ℤ), 72] 0 0|) →
        (tintSideOk me.note "above"
            (GestureEvent.mk 0 (tintSelect 60 [48, 72] "above") (0.8 * 0.7) 1
              (some "tintinnabuli")).note ∧
          (GestureEvent.mk 0 (tintSelect 60 [48, 72] "above") (0.8 * 0.7) 1
            (some "tintinnabuli")).note ∈ [(48 : ℤ), 72] ∧
          ∀ u ∈ [(48 : ℤ), 72], tintSideOk me.note "above" u → 0 < |me.note - u| →
            |me.note - (GestureEvent.mk 0 (tintSelect 60 [48, 72] "above")
              (0.8 * 0.7) 1 (some "tintinnabuli")).note| ≤ |me.note - u|)) ∧
      ((∀ t ∈ [(48 : ℤ), 72], tintSideOk me.note "above" t → 0 < |me.note - t| →
          |me.note - jsGet [(48 : ℤ), 72] 0 0| ≤ |me.note - t|) →
        (GestureEvent.mk 0 (tintSelect 60 [48, 72] "above") (0.8 * 0.7) 1
          (some "tintinnabuli")).note = jsGet [(48 : ℤ), 72] 0 0) :=
  tintinnabuli_second_voice_selection [GestureEvent.mk 0 60 0.8 1 none]
    [48, 72] "above" ⟨"C", "major", []⟩ _
    (List.mem_map_of_mem _ (List.mem_singleton.2 rfl))

/-! ## Concrete-trace evaluation toolbox for the seeded generator -/

theorem SR_mk_eval (s : ℚ) (h1 : 0 < s) (h2 : s < 2147483647) :
    SeededRandom.mk' s = ⟨s⟩ := by
  unfold SeededRandom.mk' jsRem jsTrunc
  have hnn : ¬ s / 2147483647 < 0 := by
    refine not_lt.2 (div_nonneg h1.le (by norm_num))
  rw [if_neg hnn]
  have hfl : ⌊s / 2147483647⌋ = 0 := by
    refine Int.floor_eq_iff.2 ⟨?_, ?_⟩
    · push_cast
      exact div_nonneg h1.le (by norm_num)
    · push_cast
      rw [zero_add, div_lt_one (by norm_num : (0:ℚ) < 2147483647)]
      linarith
  rw [hfl]
  norm_num [not_le.2 h1]

theorem SR_next_eval (s sNew : ℚ) (q : ℤ)
    (h0 : 0 ≤ s * 16807 / 2147483647)
    (hq1 : (q : ℚ) ≤ s * 16807 / 2147483647)
    (hq2 : s * 16807 / 2147483647 < q + 1)
    (hNew : s * 16807 - 2147483647 * (q : ℚ) = sNew) :
    SeededRandom.next ⟨s⟩ = ((sNew - 1) / 2147483646, ⟨sNew⟩) := by
  unfold SeededRandom.next jsRem jsTrunc
  rw [if_neg (not_lt.2 h0)]
  rw [Int.floor_eq_iff.2 ⟨hq1, hq2⟩, hNew]

theorem SR_intDraw_eval (r r' : SeededRandom) (lo hi : ℤ) (v : ℚ) (k : ℤ)
    (hnext : r.next = (v, r'))
    (hk1 : (k : ℚ) ≤ (lo : ℚ) + v * ((hi : ℚ) + 1 - (lo : ℚ)))
    (hk2 : (lo : ℚ) + v * ((hi : ℚ) + 1 - (lo : ℚ)) < k + 1) :
    r.intDraw lo hi = (k, r') := by
  unfold SeededRandom.intDraw SeededRandom.rangeDraw
  rw [hnext]
  have hfl : ⌊(lo : ℚ) + v * ((hi : ℚ) + 1 - (lo : ℚ))⌋ = k :=
    Int.floor_eq_iff.2 ⟨hk1, hk2⟩
  simp only [Int.cast_add, Int.cast_one]
  rw [hfl]

theorem SR_choiceDraw_eval {α : Type} [Inhabited α] (r r' : SeededRandom)
    (l : List α) (v : ℚ) (k : ℤ) (x : α)
    (hnext : r.next = (v, r'))
    (hk1 : (k : ℚ) ≤ v * l.length) (hk2 : v * l.length < k + 1)
    (hx : jsGet l k default = x) :
    r.choiceDraw l = (x, r') := by
  unfold SeededRandom.choiceDraw
  rw [SR_intDraw_eval r r' 0 ((l.length : ℤ) - 1) v k hnext (by push_cast; linarith)
    (by push_cast; linarith)]
  show (jsGet l k default, r') = (x, r')
  rw [hx]

theorem microtimingPass_zero (l : List GestureEvent) (rng : SeededRandom) :
    microtimingPass 0 l rng = (l, rng) := by
  induction l with
  | nil => rfl
  | cons e t ih =>
    simp [microtimingPass, applyMicrotiming, ih]

theorem rangeDraw_eval (r r' : SeededRandom) (lo hi v : ℚ)
    (hnext : r.next = (v, r')) :
    r.rangeDraw lo hi = (lo + v * (hi - lo), r') := by
  unfold SeededRandom.rangeDraw
  rw [hnext]

set_option maxHeartbeats 1600000 in
/-- Counterexample to claim C7 as stated: with seed 1, density 0,
complexity 1 (position `'above'`) and rhythmLoose 0 over the harmonic
context with scale notes `[60, 61, 84, 85, 108]`, the generated third
melodic note is 60 and its second-voice partner is 48 — *below* the
melodic note — although the triad tone 72 lies above it: a wrong-side
second-voice note is emitted while a configured-side tone exists. -/
theorem tintinnabuli_wrong_side_counterexample :
    ((tintinnabuliGenerate (fun _ => 0)
        ⟨60, "tintinnabuli", "lead", 0, 1, 0.3, 0, 0, 0.3, 1⟩
        ⟨"C", "major", [60, 61, 84, 85, 108]⟩ ⟨120⟩).events.getD 2
        default).note = 60 ∧
    ((tintinnabuliGenerate (fun _ => 0)
        ⟨60, "tintinnabuli", "lead", 0, 1, 0.3, 0, 0, 0.3, 1⟩
        ⟨"C", "major", [60, 61, 84, 85, 108]⟩ ⟨120⟩).events.getD 6
        default).note = 48 ∧
    ((tintinnabuliGenerate (fun _ => 0)
        ⟨60, "tintinnabuli", "lead", 0, 1, 0.3, 0, 0, 0.3, 1⟩
        ⟨"C", "major", [60, 61, 84, 85, 108]⟩ ⟨120⟩).events.getD 6
        default).tag = some "tintinnabuli" ∧
    ((tintinnabuliGenerate (fun _ => 0)
        ⟨60, "tintinnabuli", "lead", 0, 1, 0.3, 0, 0, 0.3, 1⟩
        ⟨"C", "major", [60, 61, 84, 85, 108]⟩ ⟨120⟩).events.getD 6
        default).time =
    ((tintinnabuliGenerate (fun _ => 0)
        ⟨60, "tintinnabuli", "lead", 0, 1, 0.3, 0, 0, 0.3, 1⟩
        ⟨"C", "major", [60, 61, 84, 85, 108]⟩ ⟨120⟩).events.getD 2
        default).time ∧
    (48 : ℤ) < 60 ∧
    (72 : ℤ) ∈ getTonicTriad ⟨"C", "major", [60, 61, 84, 85, 108]⟩ ∧
    (60 : ℤ) < 72 ∧ ((1 : ℚ) > 0.5) := by
  have hmk : SeededRandom.mk' 1 = ⟨1⟩ :=
    SR_mk_eval 1 (by norm_num) (by norm_num)
  have n1 : SeededRandom.next ⟨1⟩ =
      (((16807 : ℚ) - 1) / 2147483646, ⟨16807⟩) :=
    SR_next_eval 1 16807 0 (by norm_num) (by norm_num)
      (by norm_num) (by norm_num)
  have n2 : SeededRandom.next ⟨16807⟩ =
      (((282475249 : ℚ) - 1) / 2147483646, ⟨282475249⟩) :=
    SR_next_eval 16807 282475249 0 (by norm_num) (by norm_num)
      (by norm_num) (by norm_num)
  have n3 : SeededRandom.next ⟨282475249⟩ =
      (((1622650073 : ℚ) - 1) / 2147483646, ⟨1622650073⟩) :=
    SR_next_eval 282475249 1622650073 2210 (by norm_num) (by norm_num)
      (by norm_num) (by norm_num)
  have n4 : SeededRandom.next ⟨1622650073⟩ =
      (((984943658 : ℚ) - 1) / 2147483646, ⟨984943658⟩) :=
    SR_next_eval 1622650073 984943658 12699 (by norm_num) (by norm_num)
      (by norm_num) (by norm_num)
  have n5 : SeededRandom.next ⟨984943658⟩ =
      (((1144108930 : ℚ) - 1) / 2147483646, ⟨1144108930⟩) :=
    SR_next_eval 984943658 1144108930 7708 (by norm_num) (by norm_num)
      (by norm_num) (by norm_num)
  have n6 : SeededRandom.next ⟨1144108930⟩ =
      (((470211272 : ℚ) - 1) / 2147483646, ⟨470211272⟩) :=
    SR_next_eval 1144108930 470211272 8954 (by norm_num) (by norm_num)
      (by norm_num) (by norm_num)
  have n7 : SeededRandom.next ⟨470211272⟩ =
      (((101027544 : ℚ) - 1) / 2147483646, ⟨101027544⟩) :=
    SR_next_eval 470211272 101027544 3680 (by norm_num) (by norm_num)
      (by norm_num) (by norm_num)
  have n8 : SeededRandom.next ⟨101027544⟩ =
      (((1457850878 : ℚ) - 1) / 2147483646, ⟨1457850878⟩) :=
    SR_next_eval 101027544 1457850878 790 (by norm_num) (by norm_num)
      (by norm_num) (by norm_num)
  have n9 : SeededRandom.next ⟨1457850878⟩ =
      (((1458777923 : ℚ) - 1) / 2147483646, ⟨1458777923⟩) :=
    SR_next_eval 1457850878 1458777923 11409 (by norm_num) (by norm_num)
      (by norm_num) (by norm_num)
  have n10 : SeededRandom.next ⟨1458777923⟩ =
      (((2007237709 : ℚ) - 1) / 2147483646, ⟨2007237709⟩) :=
    SR_next_eval 1458777923 2007237709 11416 (by norm_num) (by norm_num)
      (by norm_num) (by norm_num)
  have n11 : SeededRandom.next ⟨2007237709⟩ =
      (((823564440 : ℚ) - 1) / 2147483646, ⟨823564440⟩) :=
    SR_next_eval 2007237709 823564440 15709 (by norm_num) (by norm_num)
      (by norm_num) (by norm_num)
  have n12 : SeededRandom.next ⟨823564440⟩ =
      (((1115438165 : ℚ) - 1) / 2147483646, ⟨1115438165⟩) :=
    SR_next_eval 823564440 1115438165 6445 (by norm_num) (by norm_num)
      (by norm_num) (by norm_num)
  have n13 : SeededRandom.next ⟨1115438165⟩ =
      (((1784484492 : ℚ) - 1) / 2147483646, ⟨1784484492⟩) :=
    SR_next_eval 1115438165 1784484492 8729 (by norm_num) (by norm_num)
      (by norm_num) (by norm_num)
  have n14 : SeededRandom.next ⟨1784484492⟩ =
      (((74243042 : ℚ) - 1) / 2147483646, ⟨74243042⟩) :=
    SR_next_eval 1784484492 74243042 13966 (by norm_num) (by norm_num)
      (by norm_num) (by norm_num)
  have n15 : SeededRandom.next ⟨74243042⟩ =
      (((114807987 : ℚ) - 1) / 2147483646, ⟨114807987⟩) :=
    SR_next_eval 74243042 114807987 581 (by norm_num) (by norm_num)
      (by norm_num) (by norm_num)
  have n16 : SeededRandom.next ⟨114807987⟩ =
      (((1137522503 : ℚ) - 1) / 2147483646, ⟨1137522503⟩) :=
    SR_next_eval 114807987 1137522503 898 (by norm_num) (by norm_num)
      (by norm_num) (by norm_num)
  have n17 : SeededRandom.next ⟨1137522503⟩ =
      (((1441282327 : ℚ) - 1) / 2147483646, ⟨1441282327⟩) :=
    SR_next_eval 1137522503 1441282327 8902 (by norm_num) (by norm_num)
      (by norm_num) (by norm_num)
  have n18 : SeededRandom.next ⟨1441282327⟩ =
      (((16531729 : ℚ) - 1) / 2147483646, ⟨16531729⟩) :=
    SR_next_eval 1441282327 16531729 11280 (by norm_num) (by norm_num)
      (by norm_num) (by norm_num)
  have n19 : SeededRandom.next ⟨16531729⟩ =
      (((823378840 : ℚ) - 1) / 2147483646, ⟨823378840⟩) :=
    SR_next_eval 16531729 823378840 129 (by norm_num) (by norm_num)
      (by norm_num) (by norm_num)
  have n20 : SeededRandom.next ⟨823378840⟩ =
      (((143542612 : ℚ) - 1) / 2147483646, ⟨143542612⟩) :=
    SR_next_eval 823378840 143542612 6444 (by norm_num) (by norm_num)
      (by norm_num) (by norm_num)
  have c1 : SeededRandom.choiceDraw ⟨1⟩ [(1.0 : ℚ), 1.0, 0.5, 0.5, 2.0, 0.75, 0.25] =
      ((1.0 : ℚ), ⟨16807⟩) :=
    SR_choiceDraw_eval ⟨1⟩ ⟨16807⟩ _ _ 0 _ n1
      (by norm_num) (by norm_num) rfl
  have c2 : SeededRandom.choiceDraw ⟨1144108930⟩ [(1.0 : ℚ), 1.0, 0.5, 0.5, 2.0, 0.75, 0.25] =
      ((1.0 : ℚ), ⟨470211272⟩) :=
    SR_choiceDraw_eval ⟨1144108930⟩ ⟨470211272⟩ _ _ 1 _ n6
      (by norm_num) (by norm_num) rfl
  have c3 : SeededRandom.choiceDraw ⟨2007237709⟩ [(1.0 : ℚ), 1.0, 0.5, 0.5, 2.0, 0.75, 0.25] =
      ((0.5 : ℚ), ⟨823564440⟩) :=
    SR_choiceDraw_eval ⟨2007237709⟩ ⟨823564440⟩ _ _ 2 _ n11
      (by norm_num) (by norm_num) rfl
  have c4 : SeededRandom.choiceDraw ⟨114807987⟩ [(1.0 : ℚ), 1.0, 0.5, 0.5, 2.0, 0.75, 0.25] =
      ((0.5 : ℚ), ⟨1137522503⟩) :=
    SR_choiceDraw_eval ⟨114807987⟩ ⟨1137522503⟩ _ _ 3 _ n16
      (by norm_num) (by norm_num) rfl
  have htriad : getTonicTriad ⟨"C", "major", [60, 61, 84, 85, 108]⟩ =
      [48, 60, 72, 72, 84, 84, 96, 96, 108, 108, 120, 132] := by
    have h0 : getTonicTriad ⟨"C", "major", [60, 61, 84, 85, 108]⟩ =
        ([48, 72, 96, 60, 84, 108, 72, 96, 120, 84, 108, 132] :
          List ℤ).mergeSort (fun a b => decide (a ≤ b)) := by
      norm_num [getTonicTriad, jsGet, List.range_succ,
        show Int.toNat 2 = 2 from rfl, show Int.toNat 4 = 4 from rfl]
    rw [h0]
    simp [List.mergeSort]
  have m4 : tintMelodicLoop [60, 61] 1 4 1 (0) ⟨1⟩ =
      ([GestureEvent.mk (0 : ℚ) 61 (145276329/216917540 : ℚ) (9/10 : ℚ) none,
       GestureEvent.mk (1 : ℚ) 61 (303444839/461824440 : ℚ) (9/10 : ℚ) none,
       GestureEvent.mk (2 : ℚ) 60 (1042120063/1431655764 : ℚ) (9/20 : ℚ) none,
       GestureEvent.mk (5/2 : ℚ) 61 (40708503/54229385 : ℚ) (9/20 : ℚ) none], ⟨143542612⟩) := by
    simp only [tintMelodicLoop, jsGet, c1, c2, c3, c4, n2, n3, n4, n5,
      n7, n8, n9, n10, n12, n13, n14, n15, n17, n18, n19, n20]
    norm_num
  have hmv : generateMelodicVoice [60, 61] 4 ⟨1⟩
      ⟨60, "tintinnabuli", "lead", 0, 1, 3/10, 0, 0, 3/10, 1⟩ =
      ([GestureEvent.mk (0 : ℚ) 61 (145276329/216917540 : ℚ) (9/10 : ℚ) none,
       GestureEvent.mk (1 : ℚ) 61 (303444839/461824440 : ℚ) (9/10 : ℚ) none,
       GestureEvent.mk (2 : ℚ) 60 (1042120063/1431655764 : ℚ) (9/20 : ℚ) none,
       GestureEvent.mk (5/2 : ℚ) 61 (40708503/54229385 : ℚ) (9/20 : ℚ) none], ⟨143542612⟩) := by
    simp only [generateMelodicVoice]
    norm_num [show ((2 : ℤ).fdiv 2) = 1 from by decide, m4]
  have htv : generateTintinnabuliVoice
      [GestureEvent.mk (0 : ℚ) 61 (145276329/216917540 : ℚ) (9/10 : ℚ) none,
       GestureEvent.mk (1 : ℚ) 61 (303444839/461824440 : ℚ) (9/10 : ℚ) none,
       GestureEvent.mk (2 : ℚ) 60 (1042120063/1431655764 : ℚ) (9/20 : ℚ) none,
       GestureEvent.mk (5/2 : ℚ) 61 (40708503/54229385 : ℚ) (9/20 : ℚ) none]
      [48, 60, 72, 72, 84, 84, 96, 96, 108, 108, 120, 132] "above"
      ⟨"C", "major", [60, 61, 84, 85, 108]⟩ =
      [GestureEvent.mk (0 : ℚ) 72 (145276329/309882200 : ℚ) (9/10 : ℚ) (some "tintinnabuli"),
       GestureEvent.mk (1 : ℚ) 72 (303444839/659749200 : ℚ) (9/10 : ℚ) (some "tintinnabuli"),
       GestureEvent.mk (2 : ℚ) 48 (1042120063/2045222520 : ℚ) (9/20 : ℚ) (some "tintinnabuli"),
       GestureEvent.mk (5/2 : ℚ) 72 (40708503/77470550 : ℚ) (9/20 : ℚ) (some "tintinnabuli")] := by
    norm_num [generateTintinnabuliVoice, tintSelect, tintSelectStep, jsGet,
      show ("above" : String) ≠ "below" from by decide]
  have heval : (tintinnabuliGenerate (fun _ => 0)
      ⟨60, "tintinnabuli", "lead", 0, 1, 0.3, 0, 0, 0.3, 1⟩
      ⟨"C", "major", [60, 61, 84, 85, 108]⟩ ⟨120⟩).events =
      [GestureEvent.mk (0 : ℚ) 61 (145276329/216917540 : ℚ) (9/10 : ℚ) none,
       GestureEvent.mk (1 : ℚ) 61 (303444839/461824440 : ℚ) (9/10 : ℚ) none,
       GestureEvent.mk (2 : ℚ) 60 (1042120063/1431655764 : ℚ) (9/20 : ℚ) none,
       GestureEvent.mk (5/2 : ℚ) 61 (40708503/54229385 : ℚ) (9/20 : ℚ) none,
       GestureEvent.mk (0 : ℚ) 72 (145276329/309882200 : ℚ) (9/10 : ℚ) (some "tintinnabuli"),
       GestureEvent.mk (1 : ℚ) 72 (303444839/659749200 : ℚ) (9/10 : ℚ) (some "tintinnabuli"),
       GestureEvent.mk (2 : ℚ) 48 (1042120063/2045222520 : ℚ) (9/20 : ℚ) (some "tintinnabuli"),
       GestureEvent.mk (5/2 : ℚ) 72 (40708503/77470550 : ℚ) (9/20 : ℚ) (some "tintinnabuli")] := by
    norm_num [tintinnabuliGenerate, htriad, getScaleNotesInRegister, hmk,
      hmv, htv, microtimingPass_zero, show Int.toNat 4 = 4 from rfl,
      show ([60, 61] : List ℤ) ≠ [] from by decide]
  refine ⟨?_, ?_, ?_, ?_, by norm_num, by rw [htriad]; decide, by norm_num,
    by norm_num⟩ <;> simp [heval]

set_option maxHeartbeats 800000 in
/-- Claim C9: with a two-note pool (density < 0.5) and the drawn rhythm
pattern `[0, 1, 2, 3]`, the lyrical-minimal simple cell emits exactly four
events at beat offsets 0, 1, 2, 3 (before microtiming), each of duration
0.8 beats, whose pitches follow the documented index formula
`floor((time / 4) * poolSize) % poolSize` over the two pool pitches
(`scaleNotes` at the clamped indexes `center - 2` and `center`); and for a
non-empty register pool the generated gesture's `loopLengthBeats` is 2 when
the events' total duration is at most 2.5 beats and 4 otherwise. -/
theorem lyrical_simple_cell_spec
    (scaleNotes : List ℤ) (rng rng1 : SeededRandom) (config : SlotConfig)
    (ambientEntropy : ℕ → ℚ) (hc : HarmonicContext) (pc : PerformanceContext)
    (hd : config.density < 0.5)
    (hdraw : rng.choiceDraw
        [[(0 : ℚ), 1, 2, 3], [0, 1, 2], [0, 0.5, 1, 1.5, 2], [0, 1.5, 3]] =
      ([(0 : ℚ), 1, 2, 3], rng1)) :
    ((generateSimpleCell scaleNotes rng config).1.map
        (fun e => (e.time, e.duration)) =
      [((0 : ℚ), (0.8 : ℚ)), (1, 0.8), (2, 0.8), (3, 0.8)]) ∧
    ((generateSimpleCell scaleNotes rng config).1.map (fun e => e.note) =
      [jsGet scaleNotes (max 0 (min ((scaleNotes.length : ℤ) - 1)
          ((scaleNotes.length : ℤ).fdiv 2 - 2))) 0,
        jsGet scaleNotes (max 0 (min ((scaleNotes.length : ℤ) - 1)
          ((scaleNotes.length : ℤ).fdiv 2 - 2))) 0,
        jsGet scaleNotes (max 0 (min ((scaleNotes.length : ℤ) - 1)
          ((scaleNotes.length : ℤ).fdiv 2))) 0,
        jsGet scaleNotes (max 0 (min ((scaleNotes.length : ℤ) - 1)
          ((scaleNotes.length : ℤ).fdiv 2))) 0]) ∧
    ((generateSimpleCell scaleNotes rng config).1.map (fun e => e.note) =
      ([(0 : ℚ), 1, 2, 3]).map (fun t =>
        jsGet [jsGet scaleNotes (max 0 (min ((scaleNotes.length : ℤ) - 1)
            ((scaleNotes.length : ℤ).fdiv 2 - 2))) 0,
          jsGet scaleNotes (max 0 (min ((scaleNotes.length : ℤ) - 1)
            ((scaleNotes.length : ℤ).fdiv 2))) 0]
          ((⌊t / 4 * 2⌋).tmod 2) 0)) ∧
    ((lyricalGenerate ambientEntropy config hc pc).events ≠ [] →
      (lyricalGenerate ambientEntropy config hc pc).loopLengthBeats =
        some (if jsMaxList ((lyricalGenerate ambientEntropy config hc pc).events.map
            (fun e => e.time + e.duration)) ≤ 2.5 then 2 else 4)) := by
  rcases h1 : rng1.next with ⟨v1, s1⟩
  rcases h2 : s1.next with ⟨v2, s2⟩
  rcases h3 : s2.next with ⟨v3, s3⟩
  rcases h4 : s3.next with ⟨v4, s4⟩
  have hf0 : (⌊(0 : ℚ) / 4 * 2⌋ : ℤ) = 0 := by rw [Int.floor_eq_iff]; norm_num
  have hf1 : (⌊(1 : ℚ) / 4 * 2⌋ : ℤ) = 0 := by rw [Int.floor_eq_iff]; norm_num
  have hf2 : (⌊(2 : ℚ) / 4 * 2⌋ : ℤ) = 1 := by rw [Int.floor_eq_iff]; norm_num
  have hf3 : (⌊(3 : ℚ) / 4 * 2⌋ : ℤ) = 1 := by rw [Int.floor_eq_iff]; norm_num
  refine ⟨?_, ?_, ?_, ?_⟩
  · simp only [generateSimpleCell, hdraw, hd, if_true, if_pos hd, lmSimpleLoop,
      h1, h2, h3, h4]
    norm_num [lmSimpleLoop, h2, h3, h4, show Int.toNat 2 = 2 from rfl,
      List.range_succ, hf0, hf1, hf2, hf3, jsGet,
      show Int.tmod 0 2 = 0 from rfl, show Int.tmod 1 2 = 1 from rfl,
      sub_eq_add_neg]
  · simp only [generateSimpleCell, hdraw, hd, if_true, if_pos hd, lmSimpleLoop,
      h1, h2, h3, h4]
    norm_num [lmSimpleLoop, h2, h3, h4, List.range_succ, jsGet, hf0, hf1,
      hf2, hf3, show Int.toNat 2 = 2 from rfl,
      show Int.tmod 0 2 = 0 from rfl, show Int.tmod 1 2 = 1 from rfl,
      sub_eq_add_neg]
  · simp only [generateSimpleCell, hdraw, hd, if_true, if_pos hd, lmSimpleLoop,
      h1, h2, h3, h4]
    norm_num [lmSimpleLoop, h2, h3, h4, List.range_succ, jsGet, hf0, hf1,
      hf2, hf3, show Int.toNat 2 = 2 from rfl,
      show Int.tmod 0 2 = 0 from rfl, show Int.tmod 1 2 = 1 from rfl,
      sub_eq_add_neg]
  · intro hne
    simp only [lyricalGenerate] at hne ⊢
    by_cases hsc : getScaleNotesInRegister hc
        (60 + (((4 + config.registerShift : ℤ) : ℚ) - 4) * 12) 1.5 = []
    · rw [if_pos hsc] at hne
      exact absurd rfl hne
    · rw [if_neg hsc]

/-- Witness for `lyrical_simple_cell_spec`: pool `[60, 62]`, raw seed state
42 (first draw value ≈ 0.00033 selects the quarter-note pattern), density 0. -/
theorem lyrical_simple_cell_spec_witness :
    ((generateSimpleCell [60, 62] ⟨42⟩
        ⟨0, "lyricalMinimal", "lead", 0, 0, 0, 0, 0, 0, 42⟩).1.map
        (fun e => (e.time, e.duration)) =
      [((0 : ℚ), (0.8 : ℚ)), (1, 0.8), (2, 0.8), (3, 0.8)]) ∧
    ((generateSimpleCell [60, 62] ⟨42⟩
        ⟨0, "lyricalMinimal", "lead", 0, 0, 0, 0, 0, 0, 42⟩).1.map
        (fun e => e.note) = [60, 60, 62, 62]) := by
  obtain ⟨hA, hB, -, -⟩ := lyrical_simple_cell_spec [60, 62] ⟨42⟩ ⟨705894⟩
    ⟨0, "lyricalMinimal", "lead", 0, 0, 0, 0, 0, 0, 42⟩ (fun _ => 0)
    ⟨"C", "major", [60]⟩ ⟨120⟩ (by norm_num)
    (SR_choiceDraw_eval ⟨42⟩ ⟨705894⟩ _ _ 0 _
      (SR_next_eval 42 705894 0 (by norm_num) (by norm_num)
        (by norm_num) (by norm_num))
      (by norm_num) (by norm_num) rfl)
  refine ⟨hA, ?_⟩
  rw [hB]
  decide
set_option maxRecDepth 8000 in
set_option maxHeartbeats 1600000 in
/-- Claim C6 evaluation witnessing the chromatic-grace bug: with seed 1,
complexity 0, density 0, tension 0.75, rhythmLoose 0 and the two scale
notes 60 and 62, the Fractured Lead generator emits, as its very first
event, a grace note at time `-0.05 < 0`: `mutateMotif` arms the chromatic
approach tone `0.05` beats before a motif event that starts at time 0 and
`applyMicrotiming` returns early when the looseness amount is 0, so the
negative time survives to the returned gesture. -/
theorem fractured_negative_grace_time :
    ((fracturedGenerate (fun _ => 0) ⟨0, "fracturedLead", "lead", 0, 0, 0.75, 0, 0, 0, 1⟩
        ⟨"C", "major", [60, 62]⟩ ⟨120⟩).events.getD 0 default).time = -(1/20) ∧
    ((fracturedGenerate (fun _ => 0) ⟨0, "fracturedLead", "lead", 0, 0, 0.75, 0, 0, 0, 1⟩
        ⟨"C", "major", [60, 62]⟩ ⟨120⟩).events.getD 0 default).tag = some "grace" ∧
    ((fracturedGenerate (fun _ => 0) ⟨0, "fracturedLead", "lead", 0, 0, 0.75, 0, 0, 0, 1⟩
        ⟨"C", "major", [60, 62]⟩ ⟨120⟩).events.getD 0 default).time < 0 := by
  have hmk : SeededRandom.mk' 1 = ⟨1⟩ :=
    SR_mk_eval 1 (by norm_num) (by norm_num)
  have n1 : SeededRandom.next ⟨1⟩ =
      (((16807 : ℚ) - 1) / 2147483646, ⟨16807⟩) :=
    SR_next_eval 1 16807 0 (by norm_num) (by norm_num)
      (by norm_num) (by norm_num)
  have n2 : SeededRandom.next ⟨16807⟩ =
      (((282475249 : ℚ) - 1) / 2147483646, ⟨282475249⟩) :=
    SR_next_eval 16807 282475249 0 (by norm_num) (by norm_num)
      (by norm_num) (by norm_num)
  have n3 : SeededRandom.next ⟨282475249⟩ =
      (((1622650073 : ℚ) - 1) / 2147483646, ⟨1622650073⟩) :=
    SR_next_eval 282475249 1622650073 2210 (by norm_num) (by norm_num)
      (by norm_num) (by norm_num)
  have n4 : SeededRandom.next ⟨1622650073⟩ =
      (((984943658 : ℚ) - 1) / 2147483646, ⟨984943658⟩) :=
    SR_next_eval 1622650073 984943658 12699 (by norm_num) (by norm_num)
      (by norm_num) (by norm_num)
  have n5 : SeededRandom.next ⟨984943658⟩ =
      (((1144108930 : ℚ) - 1) / 2147483646, ⟨1144108930⟩) :=
    SR_next_eval 984943658 1144108930 7708 (by norm_num) (by norm_num)
      (by norm_num) (by norm_num)
  have n6 : SeededRandom.next ⟨1144108930⟩ =
      (((470211272 : ℚ) - 1) / 2147483646, ⟨470211272⟩) :=
    SR_next_eval 1144108930 470211272 8954 (by norm_num) (by norm_num)
      (by norm_num) (by norm_num)
  have n7 : SeededRandom.next ⟨470211272⟩ =
      (((101027544 : ℚ) - 1) / 2147483646, ⟨101027544⟩) :=
    SR_next_eval 470211272 101027544 3680 (by norm_num) (by norm_num)
      (by norm_num) (by norm_num)
  have n8 : SeededRandom.next ⟨101027544⟩ =
      (((1457850878 : ℚ) - 1) / 2147483646, ⟨1457850878⟩) :=
    SR_next_eval 101027544 1457850878 790 (by norm_num) (by norm_num)
      (by norm_num) (by norm_num)
  have n9 : SeededRandom.next ⟨1457850878⟩ =
      (((1458777923 : ℚ) - 1) / 2147483646, ⟨1458777923⟩) :=
    SR_next_eval 1457850878 1458777923 11409 (by norm_num) (by norm_num)
      (by norm_num) (by norm_num)
  have n10 : SeededRandom.next ⟨1458777923⟩ =
      (((2007237709 : ℚ) - 1) / 2147483646, ⟨2007237709⟩) :=
    SR_next_eval 1458777923 2007237709 11416 (by norm_num) (by norm_num)
      (by norm_num) (by norm_num)
  have n11 : SeededRandom.next ⟨2007237709⟩ =
      (((823564440 : ℚ) - 1) / 2147483646, ⟨823564440⟩) :=
    SR_next_eval 2007237709 823564440 15709 (by norm_num) (by norm_num)
      (by norm_num) (by norm_num)
  have n12 : SeededRandom.next ⟨823564440⟩ =
      (((1115438165 : ℚ) - 1) / 2147483646, ⟨1115438165⟩) :=
    SR_next_eval 823564440 1115438165 6445 (by norm_num) (by norm_num)
      (by norm_num) (by norm_num)
  have n13 : SeededRandom.next ⟨1115438165⟩ =
      (((1784484492 : ℚ) - 1) / 2147483646, ⟨1784484492⟩) :=
    SR_next_eval 1115438165 1784484492 8729 (by norm_num) (by norm_num)
      (by norm_num) (by norm_num)
  have n14 : SeededRandom.next ⟨1784484492⟩ =
      (((74243042 : ℚ) - 1) / 2147483646, ⟨74243042⟩) :=
    SR_next_eval 1784484492 74243042 13966 (by norm_num) (by norm_num)
      (by norm_num) (by norm_num)
  have n15 : SeededRandom.next ⟨74243042⟩ =
      (((114807987 : ℚ) - 1) / 2147483646, ⟨114807987⟩) :=
    SR_next_eval 74243042 114807987 581 (by norm_num) (by norm_num)
      (by norm_num) (by norm_num)
  have n16 : SeededRandom.next ⟨114807987⟩ =
      (((1137522503 : ℚ) - 1) / 2147483646, ⟨1137522503⟩) :=
    SR_next_eval 114807987 1137522503 898 (by norm_num) (by norm_num)
      (by norm_num) (by norm_num)
  have n17 : SeededRandom.next ⟨1137522503⟩ =
      (((1441282327 : ℚ) - 1) / 2147483646, ⟨1441282327⟩) :=
    SR_next_eval 1137522503 1441282327 8902 (by norm_num) (by norm_num)
      (by norm_num) (by norm_num)
  have n18 : SeededRandom.next ⟨1441282327⟩ =
      (((16531729 : ℚ) - 1) / 2147483646, ⟨16531729⟩) :=
    SR_next_eval 1441282327 16531729 11280 (by norm_num) (by norm_num)
      (by norm_num) (by norm_num)
  have n19 : SeededRandom.next ⟨16531729⟩ =
      (((823378840 : ℚ) - 1) / 2147483646, ⟨823378840⟩) :=
    SR_next_eval 16531729 823378840 129 (by norm_num) (by norm_num)
      (by norm_num) (by norm_num)
  have n20 : SeededRandom.next ⟨823378840⟩ =
      (((143542612 : ℚ) - 1) / 2147483646, ⟨143542612⟩) :=
    SR_next_eval 823378840 143542612 6444 (by norm_num) (by norm_num)
      (by norm_num) (by norm_num)
  have n21 : SeededRandom.next ⟨143542612⟩ =
      (((896544303 : ℚ) - 1) / 2147483646, ⟨896544303⟩) :=
    SR_next_eval 143542612 896544303 1123 (by norm_num) (by norm_num)
      (by norm_num) (by norm_num)
  have n22 : SeededRandom.next ⟨896544303⟩ =
      (((1474833169 : ℚ) - 1) / 2147483646, ⟨1474833169⟩) :=
    SR_next_eval 896544303 1474833169 7016 (by norm_num) (by norm_num)
      (by norm_num) (by norm_num)
  have n23 : SeededRandom.next ⟨1474833169⟩ =
      (((1264817709 : ℚ) - 1) / 2147483646, ⟨1264817709⟩) :=
    SR_next_eval 1474833169 1264817709 11542 (by norm_num) (by norm_num)
      (by norm_num) (by norm_num)
  have n24 : SeededRandom.next ⟨1264817709⟩ =
      (((1998097157 : ℚ) - 1) / 2147483646, ⟨1998097157⟩) :=
    SR_next_eval 1264817709 1998097157 9898 (by norm_num) (by norm_num)
      (by norm_num) (by norm_num)
  have n25 : SeededRandom.next ⟨1998097157⟩ =
      (((1817129560 : ℚ) - 1) / 2147483646, ⟨1817129560⟩) :=
    SR_next_eval 1998097157 1817129560 15637 (by norm_num) (by norm_num)
      (by norm_num) (by norm_num)
  have n26 : SeededRandom.next ⟨1817129560⟩ =
      (((1131570933 : ℚ) - 1) / 2147483646, ⟨1131570933⟩) :=
    SR_next_eval 1817129560 1131570933 14221 (by norm_num) (by norm_num)
      (by norm_num) (by norm_num)
  have n27 : SeededRandom.next ⟨1131570933⟩ =
      (((197493099 : ℚ) - 1) / 2147483646, ⟨197493099⟩) :=
    SR_next_eval 1131570933 197493099 8856 (by norm_num) (by norm_num)
      (by norm_num) (by norm_num)
  have n28 : SeededRandom.next ⟨197493099⟩ =
      (((1404280278 : ℚ) - 1) / 2147483646, ⟨1404280278⟩) :=
    SR_next_eval 197493099 1404280278 1545 (by norm_num) (by norm_num)
      (by norm_num) (by norm_num)
  have n29 : SeededRandom.next ⟨1404280278⟩ =
      (((893351816 : ℚ) - 1) / 2147483646, ⟨893351816⟩) :=
    SR_next_eval 1404280278 893351816 10990 (by norm_num) (by norm_num)
      (by norm_num) (by norm_num)
  have n30 : SeededRandom.next ⟨893351816⟩ =
      (((1505795335 : ℚ) - 1) / 2147483646, ⟨1505795335⟩) :=
    SR_next_eval 893351816 1505795335 6991 (by norm_num) (by norm_num)
      (by norm_num) (by norm_num)
  have n31 : SeededRandom.next ⟨1505795335⟩ =
      (((1954899097 : ℚ) - 1) / 2147483646, ⟨1954899097⟩) :=
    SR_next_eval 1505795335 1954899097 11784 (by norm_num) (by norm_num)
      (by norm_num) (by norm_num)
  have n32 : SeededRandom.next ⟨1954899097⟩ =
      (((1636807826 : ℚ) - 1) / 2147483646, ⟨1636807826⟩) :=
    SR_next_eval 1954899097 1636807826 15299 (by norm_num) (by norm_num)
      (by norm_num) (by norm_num)
  have n33 : SeededRandom.next ⟨1636807826⟩ =
      (((563613512 : ℚ) - 1) / 2147483646, ⟨563613512⟩) :=
    SR_next_eval 1636807826 563613512 12810 (by norm_num) (by norm_num)
      (by norm_num) (by norm_num)
  have n34 : SeededRandom.next ⟨563613512⟩ =
      (((101929267 : ℚ) - 1) / 2147483646, ⟨101929267⟩) :=
    SR_next_eval 563613512 101929267 4411 (by norm_num) (by norm_num)
      (by norm_num) (by norm_num)
  have n35 : SeededRandom.next ⟨101929267⟩ =
      (((1580723810 : ℚ) - 1) / 2147483646, ⟨1580723810⟩) :=
    SR_next_eval 101929267 1580723810 797 (by norm_num) (by norm_num)
      (by norm_num) (by norm_num)
  have n36 : SeededRandom.next ⟨1580723810⟩ =
      (((704877633 : ℚ) - 1) / 2147483646, ⟨704877633⟩) :=
    SR_next_eval 1580723810 704877633 12371 (by norm_num) (by norm_num)
      (by norm_num) (by norm_num)
  have n37 : SeededRandom.next ⟨704877633⟩ =
      (((1358580979 : ℚ) - 1) / 2147483646, ⟨1358580979⟩) :=
    SR_next_eval 704877633 1358580979 5516 (by norm_num) (by norm_num)
      (by norm_num) (by norm_num)
  have n38 : SeededRandom.next ⟨1358580979⟩ =
      (((1624379149 : ℚ) - 1) / 2147483646, ⟨1624379149⟩) :=
    SR_next_eval 1358580979 1624379149 10632 (by norm_num) (by norm_num)
      (by norm_num) (by norm_num)
  have n39 : SeededRandom.next ⟨1624379149⟩ =
      (((2128236579 : ℚ) - 1) / 2147483646, ⟨2128236579⟩) :=
    SR_next_eval 1624379149 2128236579 12712 (by norm_num) (by norm_num)
      (by norm_num) (by norm_num)
  have n40 : SeededRandom.next ⟨2128236579⟩ =
      (((784558821 : ℚ) - 1) / 2147483646, ⟨784558821⟩) :=
    SR_next_eval 2128236579 784558821 16656 (by norm_num) (by norm_num)
      (by norm_num) (by norm_num)
  have n41 : SeededRandom.next ⟨784558821⟩ =
      (((530511967 : ℚ) - 1) / 2147483646, ⟨530511967⟩) :=
    SR_next_eval 784558821 530511967 6140 (by norm_num) (by norm_num)
      (by norm_num) (by norm_num)
  have n42 : SeededRandom.next ⟨530511967⟩ =
      (((2110010672 : ℚ) - 1) / 2147483646, ⟨2110010672⟩) :=
    SR_next_eval 530511967 2110010672 4151 (by norm_num) (by norm_num)
      (by norm_num) (by norm_num)
  have n43 : SeededRandom.next ⟨2110010672⟩ =
      (((1551901393 : ℚ) - 1) / 2147483646, ⟨1551901393⟩) :=
    SR_next_eval 2110010672 1551901393 16513 (by norm_num) (by norm_num)
      (by norm_num) (by norm_num)
  have n44 : SeededRandom.next ⟨1551901393⟩ =
      (((1617819336 : ℚ) - 1) / 2147483646, ⟨1617819336⟩) :=
    SR_next_eval 1551901393 1617819336 12145 (by norm_num) (by norm_num)
      (by norm_num) (by norm_num)
  have n45 : SeededRandom.next ⟨1617819336⟩ =
      (((1399125485 : ℚ) - 1) / 2147483646, ⟨1399125485⟩) :=
    SR_next_eval 1617819336 1399125485 12661 (by norm_num) (by norm_num)
      (by norm_num) (by norm_num)
  have cr : SeededRandom.choiceDraw ⟨1⟩
      [[(0.333 : ℚ), 0.333, 0.334], [0.25, 0.25, 0.5], [0.2, 0.2, 0.2, 0.2, 0.2],
       [0.14, 0.14, 0.14, 0.14, 0.14, 0.14, 0.15], [0.125, 0.375, 0.5],
       [0.5, 0.25, 0.25]] = ([(0.333 : ℚ), 0.333, 0.334], ⟨16807⟩) :=
    SR_choiceDraw_eval ⟨1⟩ ⟨16807⟩ _ _ 0 _ n1 (by norm_num) (by norm_num) rfl
  have cm1 : SeededRandom.choiceDraw ⟨984943658⟩ [(-1 : ℤ), 1, -2, 2] =
      ((-2 : ℤ), ⟨1144108930⟩) :=
    SR_choiceDraw_eval ⟨984943658⟩ ⟨1144108930⟩ _ _ 2 _ n5
      (by norm_num) (by norm_num) rfl
  have cm2 : SeededRandom.choiceDraw ⟨1457850878⟩ [(-1 : ℤ), 1, -2, 2] =
      ((-2 : ℤ), ⟨1458777923⟩) :=
    SR_choiceDraw_eval ⟨1457850878⟩ ⟨1458777923⟩ _ _ 2 _ n9
      (by norm_num) (by norm_num) rfl
  have cm3 : SeededRandom.choiceDraw ⟨1115438165⟩ [(-1 : ℤ), 1, -2, 2] =
      ((2 : ℤ), ⟨1784484492⟩) :=
    SR_choiceDraw_eval ⟨1115438165⟩ ⟨1784484492⟩ _ _ 3 _ n13
      (by norm_num) (by norm_num) rfl
  have cpm : SeededRandom.choiceDraw ⟨16531729⟩ [(-1 : ℤ), 1] =
      ((-1 : ℤ), ⟨823378840⟩) :=
    SR_choiceDraw_eval ⟨16531729⟩ ⟨823378840⟩ _ _ 0 _ n19
      (by norm_num) (by norm_num) rfl
  have hmot : fracturedMotifLoop [60, 62] [(333/1000 : ℚ), 333/1000, 167/500] 3 0 1 0 ⟨16807⟩ =
      ([GestureEvent.mk (0 : ℚ) 62 (80201067/108458770 : ℚ) (2331/10000 : ℚ) none,
       GestureEvent.mk (333/1000 : ℚ) 60 (1096201289/3579139410 : ℚ) (2331/10000 : ℚ) (some "ghost"),
       GestureEvent.mk (333/500 : ℚ) 60 (167096021/170435210 : ℚ) (1169/5000 : ℚ) none], ⟨1784484492⟩) := by
    norm_num [fracturedMotifLoop, jsGet, n2, n3, n4, n5, n6, n7, n8, n9, n10,
      n11, n12, n13, cm1, cm2, cm3]
  have hgm : generateMotif [60, 62] 3 ⟨1⟩ ⟨0, "fracturedLead", "lead", 0, 0, 3/4, 0, 0, 0, 1⟩ =
      ([GestureEvent.mk (0 : ℚ) 62 (80201067/108458770 : ℚ) (2331/10000 : ℚ) none,
       GestureEvent.mk (333/1000 : ℚ) 60 (1096201289/3579139410 : ℚ) (2331/10000 : ℚ) (some "ghost"),
       GestureEvent.mk (333/500 : ℚ) 60 (167096021/170435210 : ℚ) (1169/5000 : ℚ) none], ⟨1784484492⟩) := by
    simp only [generateMotif, cr]
    norm_num [hmot]
  have mu02 : mutateMotifLoop 0 [60, 62] ⟨0, "fracturedLead", "lead", 0, 0, 3/4, 0, 0, 0, 1⟩
      [GestureEvent.mk (333/500 : ℚ) 60 (167096021/170435210 : ℚ) (1169/5000 : ℚ) none] ⟨1998097157⟩ =
      ([GestureEvent.mk (333/500 : ℚ) 60 (167096021/170435210 : ℚ) (1169/5000 : ℚ) none], ⟨893351816⟩) := by
    norm_num [mutateMotifLoop, jsGet, n25, n26, n27, n28, n29]
  have mu01 : mutateMotifLoop 0 [60, 62] ⟨0, "fracturedLead", "lead", 0, 0, 3/4, 0, 0, 0, 1⟩
      [GestureEvent.mk (333/1000 : ℚ) 60 (1096201289/3579139410 : ℚ) (2331/10000 : ℚ) (some "ghost"),
       GestureEvent.mk (333/500 : ℚ) 60 (167096021/170435210 : ℚ) (1169/5000 : ℚ) none] ⟨823378840⟩ =
      ([GestureEvent.mk (333/1000 : ℚ) 60 (1096201289/3579139410 : ℚ) (2331/10000 : ℚ) (some "ghost"),
       GestureEvent.mk (333/500 : ℚ) 60 (167096021/170435210 : ℚ) (1169/5000 : ℚ) none], ⟨893351816⟩) := by
    rw [mutateMotifLoop]
    norm_num [jsGet, n20, n21, n22, n23, n24, mu02]
  have hmut0 : mutateMotifLoop 0 [60, 62] ⟨0, "fracturedLead", "lead", 0, 0, 3/4, 0, 0, 0, 1⟩
      [GestureEvent.mk (0 : ℚ) 62 (80201067/108458770 : ℚ) (2331/10000 : ℚ) none,
       GestureEvent.mk (333/1000 : ℚ) 60 (1096201289/3579139410 : ℚ) (2331/10000 : ℚ) (some "ghost"),
       GestureEvent.mk (333/500 : ℚ) 60 (167096021/170435210 : ℚ) (1169/5000 : ℚ) none] ⟨1784484492⟩ =
      ([GestureEvent.mk (-(1/20) : ℚ) 61 (240603201/542293850 : ℚ) (1/20 : ℚ) (some "grace"),
       GestureEvent.mk (0 : ℚ) 62 (80201067/108458770 : ℚ) (2331/10000 : ℚ) none,
       GestureEvent.mk (333/1000 : ℚ) 60 (1096201289/3579139410 : ℚ) (2331/10000 : ℚ) (some "ghost"),
       GestureEvent.mk (333/500 : ℚ) 60 (167096021/170435210 : ℚ) (1169/5000 : ℚ) none], ⟨893351816⟩) := by
    rw [mutateMotifLoop]
    norm_num [jsGet, cpm, n14, n15, n16, n17, n18, n19, mu01]
  have hgap : SeededRandom.rangeDraw ⟨893351816⟩ (1/10) (1/2) = ((1361777497/3579139410 : ℚ), ⟨1505795335⟩) := by
    norm_num [SeededRandom.rangeDraw, n30]
  have mu12 : mutateMotifLoop 0 [60, 62] ⟨0, "fracturedLead", "lead", 0, 0, 3/4, 0, 0, 0, 1⟩
      [GestureEvent.mk (333/500 : ℚ) 60 (167096021/170435210 : ℚ) (1169/5000 : ℚ) none] ⟨784558821⟩ =
      ([GestureEvent.mk (333/500 : ℚ) 60 (167096021/170435210 : ℚ) (1169/5000 : ℚ) none], ⟨1399125485⟩) := by
    norm_num [mutateMotifLoop, jsGet, n41, n42, n43, n44, n45]
  have mu11 : mutateMotifLoop 0 [60, 62] ⟨0, "fracturedLead", "lead", 0, 0, 3/4, 0, 0, 0, 1⟩
      [GestureEvent.mk (333/1000 : ℚ) 60 (1096201289/3579139410 : ℚ) (2331/10000 : ℚ) (some "ghost"),
       GestureEvent.mk (333/500 : ℚ) 60 (167096021/170435210 : ℚ) (1169/5000 : ℚ) none] ⟨1580723810⟩ =
      ([GestureEvent.mk (333/1000 : ℚ) 60 (1096201289/3579139410 : ℚ) (2331/10000 : ℚ) (some "ghost"),
       GestureEvent.mk (333/500 : ℚ) 60 (167096021/170435210 : ℚ) (1169/5000 : ℚ) none], ⟨1399125485⟩) := by
    rw [mutateMotifLoop]
    norm_num [jsGet, n36, n37, n38, n39, n40, mu12]
  have hmut1 : mutateMotifLoop 0 [60, 62] ⟨0, "fracturedLead", "lead", 0, 0, 3/4, 0, 0, 0, 1⟩
      [GestureEvent.mk (0 : ℚ) 62 (80201067/108458770 : ℚ) (2331/10000 : ℚ) none,
       GestureEvent.mk (333/1000 : ℚ) 60 (1096201289/3579139410 : ℚ) (2331/10000 : ℚ) (some "ghost"),
       GestureEvent.mk (333/500 : ℚ) 60 (167096021/170435210 : ℚ) (1169/5000 : ℚ) none] ⟨1505795335⟩ =
      ([GestureEvent.mk (0 : ℚ) 62 (80201067/108458770 : ℚ) (2331/10000 : ℚ) none,
       GestureEvent.mk (333/1000 : ℚ) 60 (1096201289/3579139410 : ℚ) (2331/10000 : ℚ) (some "ghost"),
       GestureEvent.mk (333/500 : ℚ) 60 (167096021/170435210 : ℚ) (1169/5000 : ℚ) none], ⟨1399125485⟩) := by
    rw [mutateMotifLoop]
    norm_num [jsGet, n31, n32, n33, n34, n35, mu11]
  have hrep : fracturedRepLoop
      [GestureEvent.mk (0 : ℚ) 62 (80201067/108458770 : ℚ) (2331/10000 : ℚ) none,
       GestureEvent.mk (333/1000 : ℚ) 60 (1096201289/3579139410 : ℚ) (2331/10000 : ℚ) (some "ghost"),
       GestureEvent.mk (333/500 : ℚ) 60 (167096021/170435210 : ℚ) (1169/5000 : ℚ) none]
      [60, 62] ⟨0, "fracturedLead", "lead", 0, 0, 3/4, 0, 0, 0, 1⟩ 2 2 0 ⟨1784484492⟩ =
      ([GestureEvent.mk (-(1/20) : ℚ) 61 (240603201/542293850 : ℚ) (1/20 : ℚ) (some "grace"),
       GestureEvent.mk (0 : ℚ) 62 (80201067/108458770 : ℚ) (2331/10000 : ℚ) none,
       GestureEvent.mk (333/1000 : ℚ) 60 (1096201289/3579139410 : ℚ) (2331/10000 : ℚ) (some "ghost"),
       GestureEvent.mk (333/500 : ℚ) 60 (167096021/170435210 : ℚ) (1169/5000 : ℚ) none,
       GestureEvent.mk (2291143569059/1789569705000 : ℚ) 62 (80201067/108458770 : ℚ) (2331/10000 : ℚ) none,
       GestureEvent.mk (360883785103/223696213125 : ℚ) 60 (1096201289/3579139410 : ℚ) (2331/10000 : ℚ) (some "ghost"),
       GestureEvent.mk (3482996992589/1789569705000 : ℚ) 60 (167096021/170435210 : ℚ) (1169/5000 : ℚ) none], ⟨1399125485⟩) := by
    norm_num [fracturedRepLoop, jsMaxList, max_def, hmut0, hmut1, hgap]
  have hpool : getScaleNotesInRegister ⟨"C", "major", [60, 62]⟩ 72 2 = [60, 62] := by
    norm_num [getScaleNotesInRegister, List.filter]
  have heval : (fracturedGenerate (fun _ => 0) ⟨0, "fracturedLead", "lead", 0, 0, 0.75, 0, 0, 0, 1⟩
      ⟨"C", "major", [60, 62]⟩ ⟨120⟩).events =
      [GestureEvent.mk (-(1/20) : ℚ) 61 (240603201/542293850 : ℚ) (1/20 : ℚ) (some "grace"),
       GestureEvent.mk (0 : ℚ) 62 (80201067/108458770 : ℚ) (2331/10000 : ℚ) none,
       GestureEvent.mk (333/1000 : ℚ) 60 (1096201289/3579139410 : ℚ) (2331/10000 : ℚ) (some "ghost"),
       GestureEvent.mk (333/500 : ℚ) 60 (167096021/170435210 : ℚ) (1169/5000 : ℚ) none,
       GestureEvent.mk (2291143569059/1789569705000 : ℚ) 62 (80201067/108458770 : ℚ) (2331/10000 : ℚ) none,
       GestureEvent.mk (360883785103/223696213125 : ℚ) 60 (1096201289/3579139410 : ℚ) (2331/10000 : ℚ) (some "ghost"),
       GestureEvent.mk (3482996992589/1789569705000 : ℚ) 60 (167096021/170435210 : ℚ) (1169/5000 : ℚ) none] := by
    norm_num [fracturedGenerate, hmk, hpool, hgm, hrep, microtimingPass_zero,
      Int.floor_zero, show Int.toNat 3 = 3 from rfl, show Int.toNat 2 = 2 from rfl,
      show ([60, 62] : List ℤ) ≠ [] from by decide]
  refine ⟨?_, ?_, ?_⟩ <;> simp [heval] <;> norm_num

theorem palView_locked {S : ℤ} {p q : KeyboardGesturePalette}
    (h : palView S q = palView S p) :
    q.lockedSlots = p.lockedSlots ∧ mapGet S q.gestures = mapGet S p.gestures ∧
      mapGet S q.slotConfigs = mapGet S p.slotConfigs := by
  refine ⟨congrArg Prod.fst h, ?_, ?_⟩
  · exact congrArg (fun v => v.2.1) h
  · exact congrArg (fun v => v.2.2) h

theorem foldl_palView {α β : Type} (S : ℤ) (π : α → KeyboardGesturePalette)
    (f : α → β → α)
    (hstep : ∀ a x, S ∈ (π a).lockedSlots → (mapGet S (π a).gestures).isSome →
      palView S (π (f a x)) = palView S (π a))
    (l : List β) (a : α)
    (hmem : S ∈ (π a).lockedSlots) (hsome : (mapGet S (π a).gestures).isSome) :
    palView S (π (l.foldl f a)) = palView S (π a) := by
  induction l generalizing a with
  | nil => rfl
  | cons x t ih =>
    have h1 := hstep a x hmem hsome
    obtain ⟨hl, hg, _⟩ := palView_locked h1
    have hmem' : S ∈ (π (f a x)).lockedSlots := hl ▸ hmem
    have hsome' : (mapGet S (π (f a x)).gestures).isSome = true := by
      rw [hg]; exact hsome
    calc palView S (π (List.foldl f (f a x) t))
        = palView S (π (f a x)) := ih (f a x) hmem' hsome'
      _ = palView S (π a) := h1

theorem regenSlot_palView (gen : PaletteGen) (S sid : ℤ)
    (p : KeyboardGesturePalette) (h : sid ≠ S) :
    palView S ((paletteRegenerateSlot gen sid p).1) = palView S p := by
  unfold paletteRegenerateSlot
  cases hc : mapGet sid p.slotConfigs with
  | none => rfl
  | some cfg =>
    by_cases hl : sid ∈ p.lockedSlots ∧ (mapGet sid p.gestures).isSome
    · simp [hl]
    · simp only [if_neg hl, palView]
      rw [mapGet_mapSet_ne _ _ _ _ h]

theorem regenAll_true_palView (gen : PaletteGen) (S : ℤ)
    (pal : KeyboardGesturePalette)
    (hmem : S ∈ pal.lockedSlots) (hsome : (mapGet S pal.gestures).isSome) :
    palView S (paletteRegenerateAll gen true pal) = palView S pal := by
  unfold paletteRegenerateAll
  simp only [if_pos rfl]
  refine foldl_palView S id _ ?_ pal.slotConfigs pal hmem hsome
  intro p entry hm hs
  simp only [id_eq] at hm hs ⊢
  by_cases hES : entry.1 = S
  · subst hES
    simp [hm, hs]
  · by_cases hcond : True ∧ entry.1 ∈ p.lockedSlots ∧
        (mapGet entry.1 p.gestures).isSome
    · simp [hcond]
    · simp only [id, if_neg hcond, palView]
      rw [mapGet_mapSet_ne _ _ _ _ hES]

theorem regenUnlocked_palView (gen : PaletteGen) (S : ℤ)
    (pal : KeyboardGesturePalette)
    (hmem : S ∈ pal.lockedSlots) (hsome : (mapGet S pal.gestures).isSome) :
    palView S (paletteRegenerateUnlockedSlots gen pal) = palView S pal := by
  unfold paletteRegenerateUnlockedSlots
  refine foldl_palView S id _ ?_ _ pal hmem hsome
  intro p sid hm hs
  simp only [id_eq] at hm hs ⊢
  by_cases hL : sid ∈ p.lockedSlots
  · simp [hL]
  · have hne : sid ≠ S := fun hs' => hL (hs' ▸ hm)
    simp only [id, if_neg hL]
    exact regenSlot_palView gen S sid p hne

theorem randomize_palView (gen : PaletteGen) (nowMs : ℚ) (S : ℤ)
    (pal : KeyboardGesturePalette)
    (hmem : S ∈ pal.lockedSlots) (hsome : (mapGet S pal.gestures).isSome) :
    palView S (paletteRandomizeDistribution gen nowMs pal) = palView S pal := by
  unfold paletteRandomizeDistribution
  refine Eq.trans (foldl_palView S Prod.fst _ ?_ _ _ hmem hsome) rfl
  intro a sid hm hs
  by_cases hL : sid ∈ a.1.lockedSlots
  · simp [hL]
  · have hne : sid ≠ S := fun hs' => hL (hs' ▸ hm)
    simp only [if_neg hL]
    refine Eq.trans (regenSlot_palView gen S sid _ hne) ?_
    simp only [palView]
    rw [mapGet_mapSet_ne _ _ _ _ hne]

theorem evolve_palView (gen : PaletteGen) (nowMs : ℚ) (S : ℤ)
    (pal : KeyboardGesturePalette)
    (hmem : S ∈ pal.lockedSlots) (hsome : (mapGet S pal.gestures).isSome) :
    palView S (paletteEvolveUnlockedSlots gen nowMs pal) = palView S pal := by
  unfold paletteEvolveUnlockedSlots
  by_cases hlc : pal.lockedSlots.filterMap (fun sid => mapGet sid pal.slotConfigs) = []
  · simp only [if_pos hlc]
    exact regenUnlocked_palView gen S pal hmem hsome
  · simp only [if_neg hlc]
    refine Eq.trans (foldl_palView S Prod.fst _ ?_ _ _ hmem hsome) rfl
    intro a entry hm hs
    by_cases hL : entry.1 ∈ a.1.lockedSlots
    · simp [hL]
    · have hne : entry.1 ≠ S := fun hs' => hL (hs' ▸ hm)
      simp only [if_neg hL]
      refine Eq.trans (regenSlot_palView gen S entry.1 _ hne) ?_
      simp only [palView]
      rw [mapGet_mapSet_ne _ _ _ _ hne]

theorem applyPaletteOp_palView (gen : PaletteGen) (S : ℤ)
    (pal : KeyboardGesturePalette) (op : PaletteOp)
    (hop : op ≠ PaletteOp.regenAll false)
    (hmem : S ∈ pal.lockedSlots) (hsome : (mapGet S pal.gestures).isSome) :
    palView S (applyPaletteOp gen pal op) = palView S pal := by
  cases op with
  | regenAll b =>
    cases b with
    | false => exact absurd rfl hop
    | true => exact regenAll_true_palView gen S pal hmem hsome
  | randomize nowMs => exact randomize_palView gen nowMs S pal hmem hsome
  | evolve nowMs => exact evolve_palView gen nowMs S pal hmem hsome

theorem runPaletteOps_palView (gen : PaletteGen) (S : ℤ) (ops : List PaletteOp) :
    ∀ pal : KeyboardGesturePalette, PaletteOp.regenAll false ∉ ops →
    S ∈ pal.lockedSlots → (mapGet S pal.gestures).isSome →
    palView S (runPaletteOps gen ops pal) = palView S pal := by
  induction ops with
  | nil =>
    intro pal _ _ _
    rfl
  | cons op t ih =>
    intro pal hsafe hmem hsome
    have hop : op ≠ PaletteOp.regenAll false := by
      intro h
      exact hsafe (h ▸ List.mem_cons_self op t)
    have h1 := applyPaletteOp_palView gen S pal op hop hmem hsome
    obtain ⟨hl, hgE, -⟩ := palView_locked h1
    have hmem2 : S ∈ (applyPaletteOp gen pal op).lockedSlots := hl ▸ hmem
    have hsome2 : (mapGet S (applyPaletteOp gen pal op).gestures).isSome = true := by
      rw [hgE]
      exact hsome
    have hsafe2 : PaletteOp.regenAll false ∉ t := fun hmem3 =>
      hsafe (List.mem_cons_of_mem op hmem3)
    have hstep : runPaletteOps gen (op :: t) pal =
        runPaletteOps gen t (applyPaletteOp gen pal op) := rfl
    rw [hstep, ih (applyPaletteOp gen pal op) hsafe2 hmem2 hsome2]
    exact h1

/-- Claim C4, amended: a locked slot `S` with a cached gesture reference `G`
keeps the very same reference (`getGesture(S) === G`, modelled by the
allocation id `gid`), its lock set membership and its `SlotConfig` across any
sequence of `regenerateAll({respectLocks: true})`, `randomizeDistribution()`
and `evolveUnlockedSlots()` calls.  A bare `regenerateAll()` call — the
source default `respectLocks = false` — is excluded: it clears the cache and
regenerates locked slots too (see the counterexample). -/
theorem locked_slot_stable_under_lock_respecting_ops (gen : PaletteGen)
    (ops : List PaletteOp) (pal : KeyboardGesturePalette) (S : ℤ)
    (G : GestureRef)
    (hsafe : PaletteOp.regenAll false ∉ ops)
    (hmem : S ∈ pal.lockedSlots)
    (hg : paletteGetGesture pal S = some G) :
    paletteGetGesture (runPaletteOps gen ops pal) S = some G ∧
    S ∈ (runPaletteOps gen ops pal).lockedSlots ∧
    mapGet S (runPaletteOps gen ops pal).slotConfigs =
      mapGet S pal.slotConfigs := by
  have hsome : (mapGet S pal.gestures).isSome := by
    unfold paletteGetGesture at hg
    rw [hg]
    rfl
  have main := runPaletteOps_palView gen S ops pal hsafe hmem hsome
  obtain ⟨hl, hgE, hcE⟩ := palView_locked main
  refine ⟨?_, hl ▸ hmem, hcE⟩
  unfold paletteGetGesture at hg ⊢
  rw [hgE, hg]

/-- Witness for `locked_slot_stable_under_lock_respecting_ops`: a one-slot
palette with slot 60 locked and cached, under a lock-respecting regeneration,
a randomisation and an evolution. -/
theorem locked_slot_stable_witness :
    paletteGetGesture
      (runPaletteOps (fun cfg _ _ => ⟨"empty", cfg.slotId, cfg.role, [], none, "Empty"⟩)
        [PaletteOp.regenAll true, PaletteOp.randomize 5, PaletteOp.evolve 7]
        ⟨36, 96, "C", "major", 120, [(60, default)],
          [(60, ⟨0, ⟨"empty", 60, "chords", [], none, "Empty"⟩⟩)], [60],
          ⟨"C", "major", []⟩, ⟨120⟩, [], 1⟩) 60 =
      some ⟨0, ⟨"empty", 60, "chords", [], none, "Empty"⟩⟩ :=
  (locked_slot_stable_under_lock_respecting_ops
    (fun cfg _ _ => ⟨"empty", cfg.slotId, cfg.role, [], none, "Empty"⟩)
    [PaletteOp.regenAll true, PaletteOp.randomize 5, PaletteOp.evolve 7]
    ⟨36, 96, "C", "major", 120, [(60, default)],
      [(60, ⟨0, ⟨"empty", 60, "chords", [], none, "Empty"⟩⟩)], [60],
      ⟨"C", "major", []⟩, ⟨120⟩, [], 1⟩ 60
    ⟨0, ⟨"empty", 60, "chords", [], none, "Empty"⟩⟩
    (by simp) (by simp) rfl).1

/-- Counterexample to claim C4 as stated: the source default
`regenerateAll()` runs with `respectLocks = false`, clears the gesture cache
and regenerates the locked slot 60 too, so the cached reference changes
object identity (allocation id 0 becomes 1) even though the slot is locked —
whatever `Math` interpretation the registry generators see. -/
theorem regenerateAll_default_breaks_locked_reference :
    (60 : ℤ) ∈ ([60] : List ℤ) ∧
    (paletteGetGesture
      ⟨36, 96, "C", "major", 120,
        [(60, ⟨60, "unknownStyle", "chords", 0.5, 0.5, 0.3, 0, 0.2, 0.3, 1⟩)],
        [(60, ⟨0, ⟨"empty", 60, "chords", [], none, "Empty"⟩⟩)], [60],
        ⟨"C", "major", []⟩, ⟨120⟩, [], 1⟩ 60).map GestureRef.gid = some 0 ∧
    (paletteGetGesture
      (paletteRegenerateAll (styleRegistryGenerate ⟨0, fun _ => 0⟩ (fun _ => 0)) false
        ⟨36, 96, "C", "major", 120,
          [(60, ⟨60, "unknownStyle", "chords", 0.5, 0.5, 0.3, 0, 0.2, 0.3, 1⟩)],
          [(60, ⟨0, ⟨"empty", 60, "chords", [], none, "Empty"⟩⟩)], [60],
          ⟨"C", "major", []⟩, ⟨120⟩, [], 1⟩) 60).map GestureRef.gid = some 1 := by
  refine ⟨by decide, rfl, ?_⟩
  simp [paletteRegenerateAll, paletteGetGesture, mapGet, mapSet]


/-! ## C1/C3: player state invariant and release postconditions -/

section MapLemmas2

variable {κ α : Type} [DecidableEq κ]

theorem mapGet_append_left {k : κ} {v : α} {l1 : List (κ × α)} (l2 : List (κ × α))
    (h : mapGet k l1 = some v) : mapGet k (l1 ++ l2) = some v := by
  induction l1 with
  | nil => simp [mapGet] at h
  | cons p t ih =>
    cases p with
    | mk ka va =>
      by_cases hk : ka = k
      · subst hk
        simp only [mapGet, if_pos rfl] at h ⊢
        exact h
      · simp only [mapGet, if_neg hk] at h ⊢
        exact ih h

theorem mapGet_append_right {k : κ} {l1 : List (κ × α)} (l2 : List (κ × α))
    (h : mapGet k l1 = none) : mapGet k (l1 ++ l2) = mapGet k l2 := by
  induction l1 with
  | nil => rfl
  | cons p t ih =>
    cases p with
    | mk ka va =>
      by_cases hk : ka = k
      · subst hk
        simp [mapGet] at h
      · simp only [mapGet, if_neg hk] at h ⊢
        exact ih h

theorem mapGet_append_cases {k : κ} {v : α} {l1 l2 : List (κ × α)}
    (h : mapGet k (l1 ++ l2) = some v) :
    mapGet k l1 = some v ∨ (mapGet k l1 = none ∧ mapGet k l2 = some v) := by
  cases hg : mapGet k l1 with
  | none => exact Or.inr ⟨rfl, by rwa [mapGet_append_right l2 hg] at h⟩
  | some w => exact Or.inl (by rwa [mapGet_append_left l2 hg] at h)

theorem isSome_of_mem_keys {k : κ} {l : List (κ × α)}
    (h : k ∈ l.map Prod.fst) : (mapGet k l).isSome := by
  rcases List.mem_map.1 h with ⟨p, hp, he⟩
  exact he ▸ mapGet_isSome_of_mem p l hp

theorem mem_keys_of_mapGet_isSome {k : κ} {l : List (κ × α)}
    (h : (mapGet k l).isSome) : k ∈ l.map Prod.fst := by
  by_contra hmem
  rw [mapGet_eq_none_of_not_mem_keys k l hmem] at h
  simp at h

theorem mapDelete_sublist (k : κ) (l : List (κ × α)) :
    (mapDelete k l).Sublist l := by
  induction l with
  | nil => simp [mapDelete]
  | cons p t ih =>
    cases p with
    | mk ka va =>
      by_cases hk : ka = k
      · simp only [mapDelete, if_pos hk]
        exact (List.sublist_cons_self _ _)
      · simp only [mapDelete, if_neg hk]
        exact ih.cons₂ _

theorem mem_mapDelete_of_ne {k : κ} {p : κ × α} {l : List (κ × α)}
    (hp : p ∈ l) (h : p.1 ≠ k) : p ∈ mapDelete k l := by
  induction l with
  | nil => simp at hp
  | cons q t ih =>
    cases q with
    | mk ka va =>
      rcases List.mem_cons.1 hp with h1 | h2
      · have hk : ka ≠ k := by
          rw [h1] at h
          exact h
        simp only [mapDelete, if_neg hk]
        exact h1 ▸ List.mem_cons_self _ _
      · by_cases hk : ka = k
        · simp only [mapDelete, if_pos hk]
          exact h2
        · simp only [mapDelete, if_neg hk]
          exact List.mem_cons_of_mem _ (ih h2)

theorem mem_mapSet {k : κ} {v : α} {l : List (κ × α)} {p : κ × α}
    (h : p ∈ mapSet k v l) : p = (k, v) ∨ p ∈ l := by
  induction l with
  | nil =>
    simp only [mapSet, List.mem_singleton] at h
    exact Or.inl h
  | cons q t ih =>
    cases q with
    | mk ka va =>
      by_cases hk : ka = k
      · subst hk
        rcases List.mem_cons.1 (by simpa [mapSet] using h) with h1 | h2
        · exact Or.inl h1
        · exact Or.inr (List.mem_cons_of_mem _ h2)
      · rcases List.mem_cons.1 (by simpa [mapSet, hk] using h) with h1 | h2
        · exact Or.inr (h1 ▸ List.mem_cons_self _ _)
        · rcases ih h2 with h3 | h4
          · exact Or.inl h3
          · exact Or.inr (List.mem_cons_of_mem _ h4)

theorem keys_mapSet_nodup (k : κ) (v : α) {l : List (κ × α)}
    (h : (l.map Prod.fst).Nodup) : ((mapSet k v l).map Prod.fst).Nodup := by
  induction l with
  | nil => simp [mapSet]
  | cons p t ih =>
    cases p with
    | mk ka va =>
      simp only [List.map_cons, List.nodup_cons] at h
      by_cases hk : ka = k
      · subst hk
        simpa [mapSet] using h
      · simp only [mapSet, if_neg hk, List.map_cons, List.nodup_cons]
        refine ⟨?_, ih h.2⟩
        intro hmem
        rcases List.mem_map.1 hmem with ⟨q, hq, he⟩
        rcases mem_mapSet hq with h1 | h2
        · exact hk (he ▸ h1 ▸ rfl)
        · exact h.1 (he ▸ List.mem_map_of_mem Prod.fst h2)

theorem mapGet_mapUpdate_isSome {k j : κ} {f : α → α} {l : List (κ × α)} {v : α}
    (h : mapGet k (mapUpdate j f l) = some v) : ∃ w, mapGet k l = some w := by
  by_cases hk : j = k
  · subst hk
    rw [mapGet_mapUpdate_self] at h
    cases hg : mapGet j l with
    | none => rw [hg] at h; simp at h
    | some w => exact ⟨w, rfl⟩
  · rw [mapGet_mapUpdate_ne _ _ _ _ hk] at h
    exact ⟨v, h⟩

end MapLemmas2

theorem SchedDelta.refl (sid : ℕ) (es : List GestureEvent) (a : PlayerSys) :
    SchedDelta sid es a a := by
  refine ⟨rfl, rfl, rfl, le_refl _, fun _ _ => rfl, ?_, fun _ => rfl,
    ⟨[], by simp, by simp⟩⟩
  intro st hst
  exact ⟨[], by simpa using hst⟩

theorem SchedDelta.trans {sid : ℕ} {es : List GestureEvent} {a b c : PlayerSys}
    (hab : SchedDelta sid es a b) (hbc : SchedDelta sid es b c) :
    SchedDelta sid es a c := by
  obtain ⟨new1, hnew1, hprop1⟩ := hab.timers_ext
  obtain ⟨new2, hnew2, hprop2⟩ := hbc.timers_ext
  refine ⟨hbc.active_eq.trans hab.active_eq, hbc.log_eq.trans hab.log_eq,
    hbc.nextSid_eq.trans hab.nextSid_eq, le_trans hab.nextTid_le hbc.nextTid_le,
    ?_, ?_, ?_, ?_⟩
  · intro k hk
    exact (hbc.states_other k hk).trans (hab.states_other k hk)
  · intro st hst
    obtain ⟨ad1, h1⟩ := hab.state_sid st hst
    obtain ⟨ad2, h2⟩ := hbc.state_sid _ h1
    exact ⟨ad1 ++ ad2, by simpa [List.append_assoc] using h2⟩
  · intro hst
    rw [hbc.state_none (hab.state_none hst ▸ hst), hab.state_none hst]
  · refine ⟨new1 ++ new2, by rw [hnew2, hnew1, List.append_assoc], ?_⟩
    intro t ht
    rcases List.mem_append.1 ht with h1 | h2
    · obtain ⟨hsid, hlo, hhi, hreg⟩ := hprop1 t h1
      refine ⟨hsid, hlo, lt_of_lt_of_le hhi hbc.nextTid_le, ?_⟩
      intro st hst
      cases hb : mapGet sid b.states with
      | none =>
        rw [hbc.state_none hb, hb] at hst
        exact absurd hst (by simp)
      | some stb =>
        have hr := hreg stb hb
        obtain ⟨ad2, h2⟩ := hbc.state_sid stb hb
        rw [h2] at hst
        cases hst
        cases hta : t.action with
        | fire s e g =>
          rw [hta] at hr
          exact ⟨List.mem_append.2 (Or.inl hr.1), hr.2⟩
        | off s e =>
          rw [hta] at hr
          exact ⟨List.mem_append.2 (Or.inl hr.1), hr.2⟩
        | loopTick s m =>
          rw [hta] at hr
          exact hr
    · obtain ⟨hsid, hlo, hhi, hreg⟩ := hprop2 t h2
      exact ⟨hsid, le_trans hab.nextTid_le hlo, hhi, hreg⟩

theorem mapUpdate_of_mapGet_none {κ α : Type} [DecidableEq κ] {k : κ}
    {f : α → α} {l : List (κ × α)} (h : mapGet k l = none) :
    mapUpdate k f l = l := by
  induction l with
  | nil => rfl
  | cons p t ih =>
    cases p with
    | mk ka va =>
      by_cases hk : ka = k
      · subst hk
        simp [mapGet] at h
      · simp only [mapGet, if_neg hk] at h
        simp [mapUpdate, hk, ih h]

theorem scheduleOne_delta (msPerBeat gvel : ℚ) (sid : ℕ) (sys : PlayerSys)
    (e : GestureEvent) (es : List GestureEvent) (he : e ∈ es) :
    SchedDelta sid es sys (scheduleOne msPerBeat gvel sid sys e) := by
  unfold scheduleOne PlayerSys.updateState
  by_cases hd : e.duration * msPerBeat > 0
  · simp only [if_pos hd]
    refine ⟨rfl, rfl, rfl, by simp; omega, ?_, ?_, ?_, ?_⟩
    · intro k hk
      simp only [mapGet_mapUpdate_ne sid k _ _ (fun h => hk h.symm)]
    · intro st hst
      refine ⟨[sys.nextTid, sys.nextTid + 1], ?_⟩
      simp only [mapGet_mapUpdate_self, hst, Option.map_some]
      simp [List.append_assoc]
    · intro hst
      rw [mapUpdate_of_mapGet_none (by rw [mapUpdate_of_mapGet_none hst]; exact hst),
        mapUpdate_of_mapGet_none hst]
    · refine ⟨[(⟨sys.nextTid, e.time * msPerBeat, .fire sid e gvel⟩ : Timer),
        (⟨sys.nextTid + 1, e.time * msPerBeat + e.duration * msPerBeat,
          .off sid e⟩ : Timer)], by simp, ?_⟩
      intro t ht
      rcases List.mem_cons.1 ht with h1 | h2
      · subst h1
        refine ⟨rfl, le_refl _,
          by show sys.nextTid < sys.nextTid + 1 + 1; omega, ?_⟩
        intro st hst
        cases hpre : mapGet sid sys.states with
        | none =>
          rw [mapUpdate_of_mapGet_none (by rw [mapUpdate_of_mapGet_none hpre]; exact hpre),
            mapUpdate_of_mapGet_none hpre, hpre] at hst
          exact absurd hst (by simp)
        | some st0 =>
          simp only [mapGet_mapUpdate_self, hpre, Option.map_some] at hst
          cases hst
          simp only [TimerAction.sid]
          exact ⟨by simp, he⟩
      · rcases List.mem_singleton.1 h2 with h1
        subst h1
        refine ⟨rfl, by simp, by simp, ?_⟩
        intro st hst
        cases hpre : mapGet sid sys.states with
        | none =>
          rw [mapUpdate_of_mapGet_none (by rw [mapUpdate_of_mapGet_none hpre]; exact hpre),
            mapUpdate_of_mapGet_none hpre, hpre] at hst
          exact absurd hst (by simp)
        | some st0 =>
          simp only [mapGet_mapUpdate_self, hpre, Option.map_some] at hst
          cases hst
          simp only [TimerAction.sid]
          exact ⟨by simp, he⟩
  · simp only [if_neg hd]
    refine ⟨rfl, rfl, rfl, by simp, ?_, ?_, ?_, ?_⟩
    · intro k hk
      simp only [mapGet_mapUpdate_ne sid k _ _ (fun h => hk h.symm)]
    · intro st hst
      refine ⟨[sys.nextTid], ?_⟩
      simp [mapGet_mapUpdate_self, hst]
    · intro hst
      rw [mapUpdate_of_mapGet_none hst]
    · refine ⟨[(⟨sys.nextTid, e.time * msPerBeat, .fire sid e gvel⟩ : Timer)],
        by simp, ?_⟩
      intro t ht
      rcases List.mem_singleton.1 ht with h1
      subst h1
      refine ⟨rfl, le_refl _, by simp, ?_⟩
      intro st hst
      cases hpre : mapGet sid sys.states with
      | none =>
        rw [mapUpdate_of_mapGet_none hpre, hpre] at hst
        exact absurd hst (by simp)
      | some st0 =>
        simp only [mapGet_mapUpdate_self, hpre, Option.map_some] at hst
        cases hst
        simp only [TimerAction.sid]
        exact ⟨by simp, he⟩

theorem foldl_scheduleOne_delta (msPerBeat gvel : ℚ) (sid : ℕ)
    (es : List GestureEvent) (l : List GestureEvent) (hsub : ∀ x ∈ l, x ∈ es) :
    ∀ sys : PlayerSys, SchedDelta sid es sys
      (l.foldl (scheduleOne msPerBeat gvel sid) sys) := by
  induction l with
  | nil => exact fun sys => SchedDelta.refl sid es sys
  | cons e t ih =>
    intro sys
    have h1 := scheduleOne_delta msPerBeat gvel sid sys e es
      (hsub e (List.mem_cons_self _ _))
    have h2 := ih (fun x hx => hsub x (List.mem_cons_of_mem _ hx))
      (scheduleOne msPerBeat gvel sid sys e)
    exact SchedDelta.trans h1 h2

theorem PInv_of_schedDelta {sid : ℕ} {es : List GestureEvent} {a b : PlayerSys}
    (hinv : PInv a) (hd : SchedDelta sid es a b)
    (hown : ∃ slot, (slot, sid) ∈ a.active)
    (hes : ∀ st, mapGet sid a.states = some st → es = st.gesture.events) :
    PInv b := by
  obtain ⟨new, hnew, hprop⟩ := hd.timers_ext
  refine ⟨?_, ?_, ?_, ?_, ?_, ?_, ?_, ?_⟩
  · rw [hd.active_eq]
    exact hinv.activeNodup
  · intro p hp
    rw [hd.active_eq] at hp
    obtain ⟨hlt, st, hst, hsl⟩ := hinv.activeSids p hp
    refine ⟨hd.nextSid_eq ▸ hlt, ?_⟩
    by_cases hk : p.2 = sid
    · subst hk
      obtain ⟨added, hadd⟩ := hd.state_sid st hst
      exact ⟨_, hadd, hsl⟩
    · exact ⟨st, (hd.states_other p.2 hk).symm ▸ hst, hsl⟩
  · intro k st' hst'
    rw [hd.nextSid_eq]
    by_cases hk : k = sid
    · subst hk
      cases hpre : mapGet k a.states with
      | none =>
        rw [hd.state_none hpre, hpre] at hst'
        exact absurd hst' (by simp)
      | some st => exact hinv.statesLt k st hpre
    · rw [hd.states_other k hk] at hst'
      exact hinv.statesLt k st' hst'
  · intro t ht
    rw [hnew] at ht
    rcases List.mem_append.1 ht with h1 | h2
    · exact lt_of_lt_of_le (hinv.timersLt t h1) hd.nextTid_le
    · exact (hprop t h2).2.2.1
  · intro t ht
    rw [hnew] at ht
    rw [hd.active_eq]
    rcases List.mem_append.1 ht with h1 | h2
    · exact hinv.timerOwner t h1
    · obtain ⟨hsid, -, -, -⟩ := hprop t h2
      rw [hsid]
      exact hown
  · intro t ht st' hst'
    rw [hnew] at ht
    rcases List.mem_append.1 ht with h1 | h2
    · by_cases hk : t.action.sid = sid
      · rw [hk] at hst'
        cases hpre : mapGet sid a.states with
        | none =>
          rw [hd.state_none hpre, hpre] at hst'
          exact absurd hst' (by simp)
        | some st =>
          obtain ⟨added, hadd⟩ := hd.state_sid st hpre
          rw [hadd] at hst'
          cases hst'
          have hfit := hinv.timerRegistered t h1 st (hk ▸ hpre)
          unfold timerFits at hfit ⊢
          cases hta : t.action with
          | fire s e g =>
            rw [hta] at hfit
            exact ⟨List.mem_append.2 (Or.inl hfit.1), hfit.2⟩
          | off s e =>
            rw [hta] at hfit
            exact ⟨List.mem_append.2 (Or.inl hfit.1), hfit.2⟩
          | loopTick s m =>
            rw [hta] at hfit
            exact hfit
      · rw [hd.states_other _ hk] at hst'
        exact hinv.timerRegistered t h1 st' hst'
    · obtain ⟨hsid, -, -, hreg⟩ := hprop t h2
      rw [hsid] at hst'
      have hr := hreg st' hst'
      unfold timerFits
      cases hpre : mapGet sid a.states with
      | none =>
        rw [hd.state_none hpre, hpre] at hst'
        exact absurd hst' (by simp)
      | some st =>
        have hesv := hes st hpre
        obtain ⟨added, hadd⟩ := hd.state_sid st hpre
        rw [hadd] at hst'
        cases hst'
        cases hta : t.action with
        | fire s e g =>
          rw [hta] at hr
          exact ⟨hr.1, by simpa [hesv] using hr.2⟩
        | off s e =>
          rw [hta] at hr
          exact ⟨hr.1, by simpa [hesv] using hr.2⟩
        | loopTick s m =>
          rw [hta] at hr
          exact hr
  · intro k st' hst' hstale
    rw [hd.active_eq] at hstale
    by_cases hk : k = sid
    · subst hk
      obtain ⟨slot, hslot⟩ := hown
      exact absurd hslot (hstale slot)
    · rw [hd.states_other k hk] at hst'
      exact hinv.staleClean k st' hst' hstale
  · intro k st' hst' n hn
    by_cases hk : k = sid
    · subst hk
      cases hpre : mapGet k a.states with
      | none =>
        rw [hd.state_none hpre, hpre] at hst'
        exact absurd hst' (by simp)
      | some st =>
        obtain ⟨added, hadd⟩ := hd.state_sid st hpre
        rw [hadd] at hst'
        cases hst'
        exact hinv.soundingSubset k st hpre n hn
    · rw [hd.states_other k hk] at hst'
      exact hinv.soundingSubset k st' hst' n hn

theorem mapUpdate_mapUpdate {κ α : Type} [DecidableEq κ] (k : κ) (f g : α → α)
    (l : List (κ × α)) :
    mapUpdate k f (mapUpdate k g l) = mapUpdate k (fun v => f (g v)) l := by
  induction l with
  | nil => rfl
  | cons p t ih =>
    cases p with
    | mk ka va =>
      by_cases hk : ka = k
      · subst hk
        simp [mapUpdate]
      · simp [mapUpdate, hk, ih]

theorem releaseSlot_eq (sys : PlayerSys) (S : ℤ) (sid : ℕ)
    (st : GesturePlaybackState)
    (ha : mapGet S sys.active = some sid)
    (hs : mapGet sid sys.states = some st) :
    releaseSlot sys S =
      { active := mapDelete S sys.active,
        states := mapUpdate sid
          (fun s =>
            { s with activeNotes := [], timeoutIds := [], intervalId := none })
          sys.states,
        timers := sys.timers.filter (fun t =>
          !(st.timeoutIds.contains t.tid || st.intervalId == some t.tid)),
        log := sys.log ++ st.activeNotes.map EngineCall.noteOff,
        nextSid := sys.nextSid, nextTid := sys.nextTid } := by
  unfold releaseSlot PlayerSys.updateState
  simp only [ha, hs]
  rw [mapUpdate_mapUpdate]

theorem surviving_timer_not_released {sys : PlayerSys} {S : ℤ} {sid : ℕ}
    {st : GesturePlaybackState} {t : Timer}
    (hinv : PInv sys)
    (ha : mapGet S sys.active = some sid)
    (hs : mapGet sid sys.states = some st)
    (ht : t ∈ sys.timers)
    (hsurv : t.tid ∉ st.timeoutIds ∧ st.intervalId ≠ some t.tid) :
    t.action.sid ≠ sid := by
  intro hEq
  have hfit := hinv.timerRegistered t ht st (hEq ▸ hs)
  unfold timerFits at hfit
  cases hta : t.action with
  | fire s e g =>
    rw [hta] at hfit
    exact hsurv.1 hfit.1
  | off s e =>
    rw [hta] at hfit
    exact hsurv.1 hfit.1
  | loopTick s m =>
    rw [hta] at hfit
    exact hsurv.2 hfit

theorem PInv_releaseSlot {sys : PlayerSys} (S : ℤ) (hinv : PInv sys) :
    PInv (releaseSlot sys S) := by
  cases ha : mapGet S sys.active with
  | none =>
    unfold releaseSlot
    rw [ha]
    exact hinv
  | some sid =>
    cases hs : mapGet sid sys.states with
    | none =>
      unfold releaseSlot
      simp only [ha, hs]
      exact hinv
    | some st =>
      rw [releaseSlot_eq sys S sid st ha hs]
      have hsurv : ∀ t ∈ sys.timers.filter (fun t =>
          !(st.timeoutIds.contains t.tid || st.intervalId == some t.tid)),
          t ∈ sys.timers ∧ t.tid ∉ st.timeoutIds ∧ st.intervalId ≠ some t.tid := by
        intro t ht
        have := List.mem_filter.1 ht
        refine ⟨this.1, ?_, ?_⟩
        · intro hmem
          simp [hmem] at this
        · intro hEq
          simp [hEq] at this
      refine ⟨?_, ?_, ?_, ?_, ?_, ?_, ?_, ?_⟩
      · exact hinv.activeNodup.sublist ((mapDelete_sublist S sys.active).map _)
      · intro p hp
        have hp0 := (mapDelete_sublist S sys.active).mem hp
        obtain ⟨hlt, st', hst', hsl⟩ := hinv.activeSids p hp0
        refine ⟨hlt, ?_⟩
        by_cases hk : p.2 = sid
        · subst hk
          have : st' = st := by
            rw [hst'] at hs
            exact Option.some.inj hs
          subst this
          rw [mapGet_mapUpdate_self, hst']
          exact ⟨_, rfl, hsl⟩
        · rw [mapGet_mapUpdate_ne _ _ _ _ (fun h => hk h.symm)]
          exact ⟨st', hst', hsl⟩
      · intro k st'' hst''
        obtain ⟨w, hw⟩ := mapGet_mapUpdate_isSome hst''
        exact hinv.statesLt k w hw
      · intro t ht
        exact hinv.timersLt t (hsurv t ht).1
      · intro t ht
        obtain ⟨ht0, hcond⟩ := hsurv t ht
        have hne := surviving_timer_not_released hinv ha hs ht0 hcond
        obtain ⟨slot, hslot⟩ := hinv.timerOwner t ht0
        have hslotS : slot ≠ S := by
          intro hEq
          subst hEq
          have := mapGet_eq_some_of_mem_nodup hinv.activeNodup hslot
          rw [ha] at this
          exact hne (Option.some.inj this).symm
        exact ⟨slot, mem_mapDelete_of_ne hslot hslotS⟩
      · intro t ht st'' hst''
        obtain ⟨ht0, hcond⟩ := hsurv t ht
        have hne := surviving_timer_not_released hinv ha hs ht0 hcond
        rw [mapGet_mapUpdate_ne _ _ _ _ (fun h => hne h.symm)] at hst''
        exact hinv.timerRegistered t ht0 st'' hst''
      · intro k st'' hst'' hstale
        by_cases hk : k = sid
        · subst hk
          rw [mapGet_mapUpdate_self, hs] at hst''
          cases hst''
          exact ⟨rfl, rfl, rfl⟩
        · rw [mapGet_mapUpdate_ne _ _ _ _ (fun h => hk h.symm)] at hst''
          refine hinv.staleClean k st'' hst'' ?_
          intro slot hslot
          by_cases hsS : slot = S
          · subst hsS
            have := mapGet_eq_some_of_mem_nodup hinv.activeNodup hslot
            rw [ha] at this
            exact hk (Option.some.inj this).symm
          · exact hstale slot (mem_mapDelete_of_ne hslot hsS)
      · intro k st'' hst'' n hn
        by_cases hk : k = sid
        · subst hk
          rw [mapGet_mapUpdate_self, hs] at hst''
          cases hst''
          simp at hn
        · rw [mapGet_mapUpdate_ne _ _ _ _ (fun h => hk h.symm)] at hst''
          exact hinv.soundingSubset k st'' hst'' n hn

theorem mapSet_of_mapGet_none {κ α : Type} [DecidableEq κ] {k : κ} (v : α)
    {l : List (κ × α)} (h : mapGet k l = none) : mapSet k v l = l ++ [(k, v)] := by
  induction l with
  | nil => rfl
  | cons p t ih =>
    cases p with
    | mk ka va =>
      by_cases hk : ka = k
      · subst hk
        simp [mapGet] at h
      · simp only [mapGet, if_neg hk] at h
        simp [mapSet, hk, ih h]

theorem mapGet_singleton_eq {κ α : Type} [DecidableEq κ] {k n : κ} {st v : α}
    (h : mapGet k [(n, st)] = some v) : n = k ∧ st = v := by
  by_cases hk : n = k
  · subst hk
    simp only [mapGet, if_pos rfl] at h
    exact ⟨rfl, Option.some.inj h⟩
  · simp [mapGet, hk] at h

theorem PInv_trigger_insert (sys1 : PlayerSys) (S : ℤ)
    (st : GesturePlaybackState)
    (hinv : PInv sys1) (hno : mapGet S sys1.active = none)
    (hsl : st.slotId = S) (htid : st.timeoutIds = [])
    (hint : st.intervalId = none) (hnotes : st.activeNotes = []) :
    PInv { sys1 with
            states := sys1.states ++ [(sys1.nextSid, st)],
            nextSid := sys1.nextSid + 1,
            active := mapSet S sys1.nextSid sys1.active } := by
  have hfresh : mapGet sys1.nextSid sys1.states = none := by
    cases hg : mapGet sys1.nextSid sys1.states with
    | none => rfl
    | some w => exact absurd (hinv.statesLt _ w hg) (lt_irrefl _)
  have hset : mapSet S sys1.nextSid sys1.active =
      sys1.active ++ [(S, sys1.nextSid)] := mapSet_of_mapGet_none _ hno
  refine ⟨?_, ?_, ?_, ?_, ?_, ?_, ?_, ?_⟩
  · exact keys_mapSet_nodup S sys1.nextSid hinv.activeNodup
  · intro p hp
    rcases mem_mapSet hp with h1 | h2
    · subst h1
      refine ⟨by show sys1.nextSid < sys1.nextSid + 1; omega, ?_⟩
      rw [mapGet_append_right _ hfresh]
      exact ⟨st, by simp [mapGet], hsl⟩
    · obtain ⟨hlt, st', hst', hbl⟩ := hinv.activeSids p h2
      exact ⟨by show p.2 < sys1.nextSid + 1; omega, st',
        mapGet_append_left _ hst', hbl⟩
  · intro k st'' hst''
    rcases mapGet_append_cases hst'' with h1 | ⟨h1, h2⟩
    · have := hinv.statesLt k st'' h1
      show k < sys1.nextSid + 1
      omega
    · obtain ⟨he, -⟩ := mapGet_singleton_eq h2
      show k < sys1.nextSid + 1
      omega
  · exact hinv.timersLt
  · intro t ht
    obtain ⟨slot, hslot⟩ := hinv.timerOwner t ht
    refine ⟨slot, ?_⟩
    rw [hset]
    exact List.mem_append.2 (Or.inl hslot)
  · intro t ht st'' hst''
    have hsid : (mapGet t.action.sid sys1.states).isSome := by
      obtain ⟨slot, hslot⟩ := hinv.timerOwner t ht
      obtain ⟨-, st', hst', -⟩ := hinv.activeSids _ hslot
      simp [hst']
    cases hg : mapGet t.action.sid sys1.states with
    | none => rw [hg] at hsid; simp at hsid
    | some w =>
      rw [mapGet_append_left _ hg] at hst''
      obtain rfl : w = st'' := Option.some.inj hst''
      exact hinv.timerRegistered t ht _ hg
  · intro k st'' hst'' hstale
    rcases mapGet_append_cases hst'' with h1 | ⟨h1, h2⟩
    · refine hinv.staleClean k st'' h1 ?_
      intro slot hslot
      refine hstale slot ?_
      rw [hset]
      exact List.mem_append.2 (Or.inl hslot)
    · obtain ⟨he, hv⟩ := mapGet_singleton_eq h2
      exfalso
      refine hstale S ?_
      rw [hset, ← he]
      exact List.mem_append.2 (Or.inr (List.mem_singleton_self _))
  · intro k st'' hst'' n hn
    rcases mapGet_append_cases hst'' with h1 | ⟨h1, h2⟩
    · exact hinv.soundingSubset k st'' h1 n hn
    · obtain ⟨he, hv⟩ := mapGet_singleton_eq h2
      subst hv
      rw [hnotes] at hn
      simp at hn

theorem PInv_loop_arm (sys3 : PlayerSys) (sid : ℕ) (d : ℚ) (m : ℚ)
    (hinv : PInv sys3)
    (hown : ∃ slot, (slot, sid) ∈ sys3.active)
    (hint : ∀ st, mapGet sid sys3.states = some st → st.intervalId = none) :
    PInv ((({ sys3 with
      timers := sys3.timers ++ [(⟨sys3.nextTid, d, .loopTick sid m⟩ : Timer)],
      nextTid := sys3.nextTid + 1 } : PlayerSys)).updateState sid
        (fun st' => { st' with intervalId := some sys3.nextTid })) := by
  unfold PlayerSys.updateState
  refine ⟨hinv.activeNodup, ?_, ?_, ?_, ?_, ?_, ?_, ?_⟩
  · intro p hp
    obtain ⟨hlt, st', hst', hbl⟩ := hinv.activeSids p hp
    refine ⟨hlt, ?_⟩
    by_cases hk : p.2 = sid
    · subst hk
      rw [mapGet_mapUpdate_self, hst']
      exact ⟨_, rfl, hbl⟩
    · rw [mapGet_mapUpdate_ne _ _ _ _ (fun h => hk h.symm)]
      exact ⟨st', hst', hbl⟩
  · intro k st'' hst''
    obtain ⟨w, hw⟩ := mapGet_mapUpdate_isSome hst''
    exact hinv.statesLt k w hw
  · intro t ht
    rcases List.mem_append.1 ht with h1 | h2
    · have := hinv.timersLt t h1
      show t.tid < sys3.nextTid + 1
      omega
    · rcases List.mem_singleton.1 h2 with h
      subst h
      show sys3.nextTid < sys3.nextTid + 1
      omega
  · intro t ht
    rcases List.mem_append.1 ht with h1 | h2
    · exact hinv.timerOwner t h1
    · rcases List.mem_singleton.1 h2 with h
      subst h
      exact hown
  · intro t ht st'' hst''
    rcases List.mem_append.1 ht with h1 | h2
    · by_cases hk : t.action.sid = sid
      · rw [hk, mapGet_mapUpdate_self] at hst''
        cases hg : mapGet sid sys3.states with
        | none =>
          rw [hg] at hst''
          simp at hst''
        | some w =>
          rw [hg] at hst''
          simp only [Option.map] at hst''
          cases hst''
          have hfit := hinv.timerRegistered t h1 w (hk ▸ hg)
          unfold timerFits at hfit ⊢
          cases hta : t.action with
          | fire s e g =>
            rw [hta] at hfit
            exact hfit
          | off s e =>
            rw [hta] at hfit
            exact hfit
          | loopTick s mm =>
            rw [hta] at hfit
            rw [hint w hg] at hfit
            exact absurd hfit (by simp)
      · rw [mapGet_mapUpdate_ne _ _ _ _ (fun h => hk h.symm)] at hst''
        exact hinv.timerRegistered t h1 st'' hst''
    · rcases List.mem_singleton.1 h2 with h
      subst h
      simp only [TimerAction.sid] at hst''
      rw [mapGet_mapUpdate_self] at hst''
      cases hg : mapGet sid sys3.states with
      | none =>
        rw [hg] at hst''
        simp at hst''
      | some w =>
        rw [hg] at hst''
        simp only [Option.map] at hst''
        cases hst''
        unfold timerFits
        simp
  · intro k st'' hst'' hstale
    by_cases hk : k = sid
    · subst hk
      obtain ⟨slot, hslot⟩ := hown
      exact absurd hslot (hstale slot)
    · rw [mapGet_mapUpdate_ne _ _ _ _ (fun h => hk h.symm)] at hst''
      exact hinv.staleClean k st'' hst'' hstale
  · intro k st'' hst'' n hn
    by_cases hk : k = sid
    · subst hk
      rw [mapGet_mapUpdate_self] at hst''
      cases hg : mapGet k sys3.states with
      | none =>
        rw [hg] at hst''
        simp at hst''
      | some w =>
        rw [hg] at hst''
        simp only [Option.map] at hst''
        cases hst''
        exact hinv.soundingSubset k w hg n hn
    · rw [mapGet_mapUpdate_ne _ _ _ _ (fun h => hk h.symm)] at hst''
      exact hinv.soundingSubset k st'' hst'' n hn

theorem jsSetAdd_mem {α : Type} [DecidableEq α] {x n : α} {l : List α}
    (h : n ∈ jsSetAdd x l) : n ∈ l ∨ n = x := by
  unfold jsSetAdd at h
  by_cases hx : x ∈ l
  · rw [if_pos hx] at h
    exact Or.inl h
  · rw [if_neg hx] at h
    rcases List.mem_append.1 h with h1 | h2
    · exact Or.inl h1
    · exact Or.inr (List.mem_singleton.1 h2)

theorem jsSetDelete_subset {α : Type} [DecidableEq α] {x n : α} {l : List α}
    (h : n ∈ jsSetDelete x l) : n ∈ l := by
  unfold jsSetDelete at h
  exact List.mem_of_mem_erase h

theorem PInv_timers_sublist {sys : PlayerSys} (hinv : PInv sys)
    (l : List Timer) (hsub : ∀ t ∈ l, t ∈ sys.timers) :
    PInv { sys with timers := l } := by
  refine ⟨hinv.activeNodup, hinv.activeSids, hinv.statesLt, ?_, ?_, ?_,
    hinv.staleClean, hinv.soundingSubset⟩
  · intro t ht
    exact hinv.timersLt t (hsub t ht)
  · intro t ht
    exact hinv.timerOwner t (hsub t ht)
  · intro t ht
    exact hinv.timerRegistered t (hsub t ht)

theorem PInv_log {sys : PlayerSys} (hinv : PInv sys) (L : List EngineCall) :
    PInv { sys with log := L } :=
  ⟨hinv.activeNodup, hinv.activeSids, hinv.statesLt, hinv.timersLt,
    hinv.timerOwner, hinv.timerRegistered, hinv.staleClean, hinv.soundingSubset⟩

theorem PInv_updateState_benign {sys : PlayerSys} (hinv : PInv sys) (sid : ℕ)
    (f : GesturePlaybackState → GesturePlaybackState)
    (hf : ∀ s, (f s).gesture = s.gesture ∧ (f s).slotId = s.slotId ∧
      (f s).activeNotes = s.activeNotes ∧ (f s).timeoutIds = s.timeoutIds ∧
      (f s).intervalId = s.intervalId) :
    PInv (sys.updateState sid f) := by
  unfold PlayerSys.updateState
  refine ⟨hinv.activeNodup, ?_, ?_, hinv.timersLt, hinv.timerOwner, ?_, ?_, ?_⟩
  · intro p hp
    obtain ⟨hlt, st', hst', hbl⟩ := hinv.activeSids p hp
    refine ⟨hlt, ?_⟩
    by_cases hk : p.2 = sid
    · subst hk
      rw [mapGet_mapUpdate_self, hst']
      exact ⟨f st', rfl, (hf st').2.1.trans hbl⟩
    · rw [mapGet_mapUpdate_ne _ _ _ _ (fun h => hk h.symm)]
      exact ⟨st', hst', hbl⟩
  · intro k st'' hst''
    obtain ⟨w, hw⟩ := mapGet_mapUpdate_isSome hst''
    exact hinv.statesLt k w hw
  · intro t ht st'' hst''
    by_cases hk : t.action.sid = sid
    · rw [hk, mapGet_mapUpdate_self] at hst''
      cases hg : mapGet sid sys.states with
      | none =>
        rw [hg] at hst''
        simp at hst''
      | some w =>
        rw [hg] at hst''
        simp only [Option.map] at hst''
        cases hst''
        have hfit := hinv.timerRegistered t ht w (hk ▸ hg)
        unfold timerFits at hfit ⊢
        obtain ⟨hg', hs', hn', ht', hi'⟩ := hf w
        cases hta : t.action with
        | fire s e g =>
          rw [hta] at hfit
          rw [ht', hg']
          exact hfit
        | off s e =>
          rw [hta] at hfit
          rw [ht', hg']
          exact hfit
        | loopTick s mm =>
          rw [hta] at hfit
          rw [hi']
          exact hfit
    · rw [mapGet_mapUpdate_ne _ _ _ _ (fun h => hk h.symm)] at hst''
      exact hinv.timerRegistered t ht st'' hst''
  · intro k st'' hst'' hstale
    by_cases hk : k = sid
    · subst hk
      rw [mapGet_mapUpdate_self] at hst''
      cases hg : mapGet k sys.states with
      | none =>
        rw [hg] at hst''
        simp at hst''
      | some w =>
        rw [hg] at hst''
        simp only [Option.map] at hst''
        cases hst''
        obtain ⟨hg', hs', hn', ht', hi'⟩ := hf w
        obtain ⟨h1, h2, h3⟩ := hinv.staleClean k w hg hstale
        exact ⟨ht'.trans h1, hi'.trans h2, hn'.trans h3⟩
    · rw [mapGet_mapUpdate_ne _ _ _ _ (fun h => hk h.symm)] at hst''
      exact hinv.staleClean k st'' hst'' hstale
  · intro k st'' hst'' n hn
    by_cases hk : k = sid
    · subst hk
      rw [mapGet_mapUpdate_self] at hst''
      cases hg : mapGet k sys.states with
      | none =>
        rw [hg] at hst''
        simp at hst''
      | some w =>
        rw [hg] at hst''
        simp only [Option.map] at hst''
        cases hst''
        obtain ⟨hg', hs', hn', ht', hi'⟩ := hf w
        rw [hn'] at hn
        rw [hg']
        exact hinv.soundingSubset k w hg n hn
    · rw [mapGet_mapUpdate_ne _ _ _ _ (fun h => hk h.symm)] at hst''
      exact hinv.soundingSubset k st'' hst'' n hn

theorem PInv_playEvent (sid : ℕ) (e : GestureEvent) (gvel : ℚ)
    {sys : PlayerSys} (hinv : PInv sys)
    (hown : ∃ slot, (slot, sid) ∈ sys.active)
    (he : ∀ st, mapGet sid sys.states = some st → e ∈ st.gesture.events) :
    PInv (playEvent sid e gvel sys) := by
  unfold playEvent
  cases hg : mapGet sid sys.states with
  | none => exact hinv
  | some st =>
    by_cases hac : (mapGet st.slotId sys.active).isSome
    · simp only [if_pos hac]
      have hlog := PInv_log hinv
        (sys.log ++ [EngineCall.noteOn e.note
          (max 0.1 (min 1 (tagVelocity e.tag (e.velocity * gvel))))])
      unfold PlayerSys.updateState
      refine ⟨hlog.activeNodup, ?_, ?_, hlog.timersLt, hlog.timerOwner, ?_, ?_, ?_⟩
      · intro p hp
        obtain ⟨hlt, st', hst', hbl⟩ := hinv.activeSids p hp
        refine ⟨hlt, ?_⟩
        by_cases hk : p.2 = sid
        · subst hk
          rw [mapGet_mapUpdate_self]
          show ∃ st2, (mapGet p.2 sys.states).map
            (fun s => { s with activeNotes := jsSetAdd e.note s.activeNotes }) =
              some st2 ∧ st2.slotId = p.1
          rw [hst']
          exact ⟨_, rfl, hbl⟩
        · rw [mapGet_mapUpdate_ne _ _ _ _ (fun h => hk h.symm)]
          exact ⟨st', hst', hbl⟩
      · intro k st'' hst''
        obtain ⟨w, hw⟩ := mapGet_mapUpdate_isSome hst''
        exact hinv.statesLt k w hw
      · intro t ht st'' hst''
        by_cases hk : t.action.sid = sid
        · rw [hk, mapGet_mapUpdate_self] at hst''
          cases hg2 : mapGet sid sys.states with
          | none =>
            rw [hg2] at hst''
            simp at hst''
          | some w =>
            rw [hg2] at hst''
            simp only [Option.map] at hst''
            cases hst''
            have hfit := hinv.timerRegistered t ht w (hk ▸ hg2)
            unfold timerFits at hfit ⊢
            cases hta : t.action with
            | fire s e2 g => rw [hta] at hfit; exact hfit
            | off s e2 => rw [hta] at hfit; exact hfit
            | loopTick s mm => rw [hta] at hfit; exact hfit
        · rw [mapGet_mapUpdate_ne _ _ _ _ (fun h => hk h.symm)] at hst''
          exact hinv.timerRegistered t ht st'' hst''
      · intro k st'' hst'' hstale
        by_cases hk : k = sid
        · subst hk
          obtain ⟨slot, hslot⟩ := hown
          exact absurd hslot (hstale slot)
        · rw [mapGet_mapUpdate_ne _ _ _ _ (fun h => hk h.symm)] at hst''
          exact hinv.staleClean k st'' hst'' hstale
      · intro k st'' hst'' n hn
        by_cases hk : k = sid
        · subst hk
          rw [mapGet_mapUpdate_self] at hst''
          cases hg2 : mapGet k sys.states with
          | none =>
            rw [hg2] at hst''
            simp at hst''
          | some w =>
            rw [hg2] at hst''
            simp only [Option.map] at hst''
            cases hst''
            simp only [] at hn
            rcases jsSetAdd_mem hn with h1 | h2
            · exact hinv.soundingSubset k w hg2 n h1
            · subst h2
              have hw : w = st := by
                rw [hg2] at hg
                exact Option.some.inj hg
              subst hw
              exact List.mem_map_of_mem GestureEvent.note (he w hg2)
        · rw [mapGet_mapUpdate_ne _ _ _ _ (fun h => hk h.symm)] at hst''
          exact hinv.soundingSubset k st'' hst'' n hn
    · simp only [if_neg hac]
      exact hinv

theorem PInv_stopEvent (sid : ℕ) (e : GestureEvent)
    {sys : PlayerSys} (hinv : PInv sys)
    (hown : ∃ slot, (slot, sid) ∈ sys.active) :
    PInv (stopEvent sid e sys) := by
  unfold stopEvent
  cases hg : mapGet sid sys.states with
  | none => exact hinv
  | some st =>
    by_cases hac : (mapGet st.slotId sys.active).isSome
    · simp only [if_pos hac]
      by_cases hmem : e.note ∈ st.activeNotes
      · simp only [if_pos hmem]
        have hlog := PInv_log hinv (sys.log ++ [EngineCall.noteOff e.note])
        unfold PlayerSys.updateState
        refine ⟨hlog.activeNodup, ?_, ?_, hlog.timersLt, hlog.timerOwner,
          ?_, ?_, ?_⟩
        · intro p hp
          obtain ⟨hlt, st', hst', hbl⟩ := hinv.activeSids p hp
          refine ⟨hlt, ?_⟩
          by_cases hk : p.2 = sid
          · subst hk
            rw [mapGet_mapUpdate_self]
            show ∃ st2, (mapGet p.2 sys.states).map
              (fun s => { s with activeNotes := jsSetDelete e.note s.activeNotes }) =
                some st2 ∧ st2.slotId = p.1
            rw [hst']
            exact ⟨_, rfl, hbl⟩
          · rw [mapGet_mapUpdate_ne _ _ _ _ (fun h => hk h.symm)]
            exact ⟨st', hst', hbl⟩
        · intro k st'' hst''
          obtain ⟨w, hw⟩ := mapGet_mapUpdate_isSome hst''
          exact hinv.statesLt k w hw
        · intro t ht st'' hst''
          by_cases hk : t.action.sid = sid
          · rw [hk, mapGet_mapUpdate_self] at hst''
            cases hg2 : mapGet sid sys.states with
            | none =>
              rw [hg2] at hst''
              simp at hst''
            | some w =>
              rw [hg2] at hst''
              simp only [Option.map] at hst''
              cases hst''
              have hfit := hinv.timerRegistered t ht w (hk ▸ hg2)
              unfold timerFits at hfit ⊢
              cases hta : t.action with
              | fire s e2 g => rw [hta] at hfit; exact hfit
              | off s e2 => rw [hta] at hfit; exact hfit
              | loopTick s mm => rw [hta] at hfit; exact hfit
          · rw [mapGet_mapUpdate_ne _ _ _ _ (fun h => hk h.symm)] at hst''
            exact hinv.timerRegistered t ht st'' hst''
        · intro k st'' hst'' hstale
          by_cases hk : k = sid
          · subst hk
            obtain ⟨slot, hslot⟩ := hown
            exact absurd hslot (hstale slot)
          · rw [mapGet_mapUpdate_ne _ _ _ _ (fun h => hk h.symm)] at hst''
            exact hinv.staleClean k st'' hst'' hstale
        · intro k st'' hst'' n hn
          by_cases hk : k = sid
          · subst hk
            rw [mapGet_mapUpdate_self] at hst''
            cases hg2 : mapGet k sys.states with
            | none =>
              rw [hg2] at hst''
              simp at hst''
            | some w =>
              rw [hg2] at hst''
              simp only [Option.map] at hst''
              cases hst''
              simp only [] at hn
              exact hinv.soundingSubset k w hg2 n (jsSetDelete_subset hn)
          · rw [mapGet_mapUpdate_ne _ _ _ _ (fun h => hk h.symm)] at hst''
            exact hinv.soundingSubset k st'' hst'' n hn
      · simp only [if_neg hmem]
        exact hinv
    · simp only [if_neg hac]
      exact hinv

theorem releaseSlot_active_self {sys : PlayerSys} (S : ℤ) (hinv : PInv sys) :
    mapGet S (releaseSlot sys S).active = none := by
  cases ha : mapGet S sys.active with
  | none =>
    unfold releaseSlot
    rw [ha]
    exact ha
  | some sid =>
    have hmem := mem_of_mapGet_eq_some ha
    obtain ⟨-, st, hst, -⟩ := hinv.activeSids _ hmem
    rw [releaseSlot_eq sys S sid st ha hst]
    exact mapGet_mapDelete_self S sys.active hinv.activeNodup

theorem releaseSlot_counters (sys : PlayerSys) (S : ℤ) :
    (releaseSlot sys S).nextSid = sys.nextSid ∧
    (releaseSlot sys S).nextTid = sys.nextTid := by
  unfold releaseSlot PlayerSys.updateState
  cases ha : mapGet S sys.active with
  | none => exact ⟨rfl, rfl⟩
  | some sid =>
    cases hs : mapGet sid sys.states with
    | none =>
      simp only [ha, hs]
      exact ⟨trivial, trivial⟩
    | some st =>
      simp only [ha, hs]
      exact ⟨trivial, trivial⟩

theorem PInv_scheduleGesture {sys2 : PlayerSys} (m : ℚ) (sid : ℕ)
    (st : GesturePlaybackState) (hinv : PInv sys2)
    (hown : ∃ slot, (slot, sid) ∈ sys2.active)
    (hes : ∀ st0, mapGet sid sys2.states = some st0 →
      st.gesture.events = st0.gesture.events)
    (hint : ∀ st0, mapGet sid sys2.states = some st0 → st0.intervalId = none) :
    PInv (scheduleGesture m sid st sys2) := by
  unfold scheduleGesture
  have hdelta := foldl_scheduleOne_delta m st.velocity sid st.gesture.events
    st.gesture.events (fun x hx => hx) sys2
  have hinv3 := PInv_of_schedDelta hinv hdelta hown hes
  by_cases hloop : st.isLooping ∧ (st.gesture.loopLengthBeats.getD 0) ≠ 0 ∧
      st.gesture.loopLengthBeats.isSome
  · simp only [if_pos hloop]
    refine PInv_loop_arm _ sid _ m hinv3 ?_ ?_
    · rw [hdelta.active_eq]
      exact hown
    · intro st3 hst3
      cases hpre : mapGet sid sys2.states with
      | none =>
        rw [hdelta.state_none hpre, hpre] at hst3
        exact absurd hst3 (by simp)
      | some st0 =>
        obtain ⟨added, hadd⟩ := hdelta.state_sid st0 hpre
        rw [hadd] at hst3
        cases hst3
        exact hint st0 hpre
  · simp only [if_neg hloop]
    exact hinv3

theorem mapGet_append_fresh {κ α : Type} [DecidableEq κ] {k : κ}
    {l : List (κ × α)} (v : α) (h : mapGet k l = none) :
    mapGet k (l ++ [(k, v)]) = some v := by
  rw [mapGet_append_right _ h]
  simp [mapGet]

theorem PInv_triggerSlot (gp : ℤ → Option Gesture) (m now : ℚ) (S : ℤ)
    (v : ℚ) (f : Bool) {sys : PlayerSys} (hinv : PInv sys) :
    PInv (triggerSlot gp m now S v f sys).1 := by
  unfold triggerSlot
  cases gp S with
  | none => exact hinv
  | some g =>
    by_cases hev : g.events = []
    · simp only [if_pos hev]
      exact hinv
    · simp only [if_neg hev]
      have hinv1 := PInv_releaseSlot S hinv
      have hno := releaseSlot_active_self S hinv
      have hinv2 := PInv_trigger_insert (releaseSlot sys S) S
        { gesture := g, slotId := S, velocity := v, startTime := now,
          isLooping := !f && g.loopLengthBeats.isSome, loopCount := 0,
          activeNotes := [], timeoutIds := [], intervalId := none }
        hinv1 hno rfl rfl rfl rfl
      have hfresh : mapGet (releaseSlot sys S).nextSid
          (releaseSlot sys S).states = none := by
        cases hg : mapGet (releaseSlot sys S).nextSid (releaseSlot sys S).states with
        | none => rfl
        | some w => exact absurd (hinv1.statesLt _ w hg) (lt_irrefl _)
      have hget : mapGet (releaseSlot sys S).nextSid
          ((releaseSlot sys S).states ++ [((releaseSlot sys S).nextSid,
            ({ gesture := g, slotId := S, velocity := v, startTime := now,
               isLooping := !f && g.loopLengthBeats.isSome, loopCount := 0,
               activeNotes := [], timeoutIds := [],
               intervalId := none } : GesturePlaybackState))]) =
          some { gesture := g, slotId := S, velocity := v, startTime := now,
                 isLooping := !f && g.loopLengthBeats.isSome, loopCount := 0,
                 activeNotes := [], timeoutIds := [], intervalId := none } :=
        mapGet_append_fresh _ hfresh
      refine PInv_scheduleGesture m _ _ hinv2 ?_ ?_ ?_
      · refine ⟨S, ?_⟩
        show (S, (releaseSlot sys S).nextSid) ∈
          mapSet S (releaseSlot sys S).nextSid (releaseSlot sys S).active
        exact mem_of_mapGet_eq_some (mapGet_mapSet_self _ _ _)
      · intro st0 hst0
        have hst1 : some
            ({ gesture := g, slotId := S, velocity := v, startTime := now,
               isLooping := !f && g.loopLengthBeats.isSome, loopCount := 0,
               activeNotes := [], timeoutIds := [],
               intervalId := none } : GesturePlaybackState) = some st0 :=
          hget.symm.trans hst0
        rw [← Option.some.inj hst1]
      · intro st0 hst0
        have hst1 : some
            ({ gesture := g, slotId := S, velocity := v, startTime := now,
               isLooping := !f && g.loopLengthBeats.isSome, loopCount := 0,
               activeNotes := [], timeoutIds := [],
               intervalId := none } : GesturePlaybackState) = some st0 :=
          hget.symm.trans hst0
        rw [← Option.some.inj hst1]

theorem PInv_fireTimer (tid : ℕ) {sys : PlayerSys} (hinv : PInv sys) :
    PInv (fireTimer tid sys) := by
  unfold fireTimer
  cases hf : sys.timers.find? (fun t => t.tid == tid) with
  | none => exact hinv
  | some t =>
    have ht : t ∈ sys.timers := List.mem_of_find?_eq_some hf
    have hfilter := PInv_timers_sublist hinv
      (sys.timers.filter (fun u => u.tid ≠ tid))
      (fun u hu => List.mem_of_mem_filter hu)
    simp only [hf]
    cases hta : t.action with
    | fire sid e gvel =>
      refine PInv_playEvent sid e gvel hfilter ?_ ?_
      · have := hinv.timerOwner t ht
        rw [hta] at this
        exact this
      · intro st hst
        have hfit := hinv.timerRegistered t ht st (by rw [hta]; exact hst)
        unfold timerFits at hfit
        rw [hta] at hfit
        exact hfit.2
    | off sid e =>
      refine PInv_stopEvent sid e hfilter ?_
      have := hinv.timerOwner t ht
      rw [hta] at this
      exact this
    | loopTick sid m =>
      cases hg : mapGet sid sys.states with
      | none =>
        simp only [hg]
        exact hinv
      | some st =>
        simp only [hg]
        have hbenign := PInv_updateState_benign hinv sid
          (fun s => { s with loopCount := s.loopCount + 1 })
          (fun s => ⟨rfl, rfl, rfl, rfl, rfl⟩)
        have hdelta := foldl_scheduleOne_delta m st.velocity sid
          st.gesture.events st.gesture.events (fun x hx => hx)
          (sys.updateState sid (fun s => { s with loopCount := s.loopCount + 1 }))
        show PInv (st.gesture.events.foldl (scheduleOne m st.velocity sid)
          (sys.updateState sid (fun s => { s with loopCount := s.loopCount + 1 })))
        refine PInv_of_schedDelta hbenign hdelta ?_ ?_
        · have := hinv.timerOwner t ht
          rw [hta] at this
          show ∃ slot, (slot, sid) ∈ sys.active
          exact this
        · intro st1 hst1
          unfold PlayerSys.updateState at hst1
          rw [mapGet_mapUpdate_self, hg] at hst1
          simp only [Option.map] at hst1
          cases hst1
          rfl

theorem PInv_releaseAll {sys : PlayerSys} (hinv : PInv sys) :
    PInv (releaseAll sys) := by
  unfold releaseAll
  refine PInv_log ?_ _
  have : ∀ (keys : List ℤ) (s : PlayerSys), PInv s →
      PInv (keys.foldl releaseSlot s) := by
    intro keys
    induction keys with
    | nil => exact fun s hs => hs
    | cons k t ih =>
      intro s hs
      exact ih (releaseSlot s k) (PInv_releaseSlot k hs)
  exact this _ sys hinv

theorem PInv_applyOp {sys : PlayerSys} (hinv : PInv sys) (op : PlayerOp) :
    PInv (applyOp sys op) := by
  cases op with
  | trigger gp m now S v f => exact PInv_triggerSlot gp m now S v f hinv
  | release S => exact PInv_releaseSlot S hinv
  | releaseEverything => exact PInv_releaseAll hinv
  | fire tid => exact PInv_fireTimer tid hinv

theorem PInv_init : PInv PlayerSys.init := by
  refine ⟨?_, ?_, ?_, ?_, ?_, ?_, ?_, ?_⟩ <;>
    simp [PlayerSys.init, mapGet]

theorem PInv_runOps (ops : List PlayerOp) : PInv (runOps ops) := by
  unfold runOps
  have : ∀ (l : List PlayerOp) (s : PlayerSys), PInv s →
      PInv (l.foldl applyOp s) := by
    intro l
    induction l with
    | nil => exact fun s hs => hs
    | cons op t ih =>
      intro s hs
      exact ih (applyOp s op) (PInv_applyOp hs op)
  exact this ops PlayerSys.init PInv_init

theorem scheduleGesture_active (m : ℚ) (sid : ℕ) (st : GesturePlaybackState)
    (w : PlayerSys) : (scheduleGesture m sid st w).active = w.active := by
  unfold scheduleGesture
  have hdelta := foldl_scheduleOne_delta m st.velocity sid st.gesture.events
    st.gesture.events (fun x hx => hx) w
  by_cases hl : st.isLooping ∧ (st.gesture.loopLengthBeats.getD 0) ≠ 0 ∧
      st.gesture.loopLengthBeats.isSome
  · simp only [if_pos hl]
    exact hdelta.active_eq
  · simp only [if_neg hl]
    exact hdelta.active_eq

theorem releaseSlot_active_other (sys : PlayerSys) {S T : ℤ} (h : T ≠ S) :
    mapGet S (releaseSlot sys T).active = mapGet S sys.active := by
  unfold releaseSlot PlayerSys.updateState
  cases ha : mapGet T sys.active with
  | none => rfl
  | some sid =>
    cases hs : mapGet sid sys.states with
    | none =>
      simp only [ha, hs]
    | some st =>
      simp only [ha, hs]
      exact mapGet_mapDelete_ne T S sys.active h

theorem playEvent_active (sid : ℕ) (e : GestureEvent) (gvel : ℚ)
    (sys : PlayerSys) : (playEvent sid e gvel sys).active = sys.active := by
  unfold playEvent PlayerSys.updateState
  cases mapGet sid sys.states with
  | none => rfl
  | some st =>
    by_cases hac : (mapGet st.slotId sys.active).isSome
    · simp only [if_pos hac]
    · simp only [if_neg hac]

theorem stopEvent_active (sid : ℕ) (e : GestureEvent)
    (sys : PlayerSys) : (stopEvent sid e sys).active = sys.active := by
  unfold stopEvent PlayerSys.updateState
  cases mapGet sid sys.states with
  | none => rfl
  | some st =>
    by_cases hac : (mapGet st.slotId sys.active).isSome
    · simp only [if_pos hac]
      by_cases hmem : e.note ∈ st.activeNotes
      · simp only [if_pos hmem]
      · simp only [if_neg hmem]
    · simp only [if_neg hac]

theorem fireTimer_active (tid : ℕ) (sys : PlayerSys) :
    (fireTimer tid sys).active = sys.active := by
  unfold fireTimer
  cases hf : sys.timers.find? (fun t => t.tid == tid) with
  | none => rfl
  | some t =>
    simp only [hf]
    cases t.action with
    | fire sid e gvel => exact playEvent_active sid e gvel _
    | off sid e => exact stopEvent_active sid e _
    | loopTick sid m =>
      cases hg : mapGet sid sys.states with
      | none => simp only [hg]
      | some st =>
        simp only [hg]
        have hdelta := foldl_scheduleOne_delta m st.velocity sid
          st.gesture.events st.gesture.events (fun x hx => hx)
          (sys.updateState sid (fun s => { s with loopCount := s.loopCount + 1 }))
        exact hdelta.active_eq

theorem triggerSlot_success_active (gp : ℤ → Option Gesture) (m now : ℚ)
    (S : ℤ) (v : ℚ) (f : Bool) (sys : PlayerSys)
    (h : ((triggerSlot gp m now S v f sys).2).isSome) :
    mapGet S ((triggerSlot gp m now S v f sys).1).active =
      some (releaseSlot sys S).nextSid := by
  unfold triggerSlot at h ⊢
  cases hgp : gp S with
  | none =>
    rw [hgp] at h
    exact absurd h (by simp)
  | some g =>
    rw [hgp] at h
    by_cases hev : g.events = []
    · exact absurd h (by simp [hev])
    · simp only [if_neg hev]
      show mapGet S (scheduleGesture m _ _ _).active = _
      rw [scheduleGesture_active]
      show mapGet S (mapSet S (releaseSlot sys S).nextSid
        (releaseSlot sys S).active) = _
      rw [mapGet_mapSet_self]

theorem applyOp_keeps (sys : PlayerSys) (op : PlayerOp) (S : ℤ)
    (hk : op.keepsSlot S) (hact : isSlotActive sys S = true) :
    isSlotActive (applyOp sys op) S = true := by
  cases op with
  | trigger gp m now T v f =>
    show isSlotActive (triggerSlot gp m now T v f sys).1 S = true
    unfold triggerSlot
    cases hgp : gp T with
    | none => exact hact
    | some g =>
      by_cases hev : g.events = []
      · simp only [if_pos hev]
        exact hact
      · simp only [if_neg hev]
        unfold isSlotActive at hact ⊢
        show (mapGet S (scheduleGesture m _ _ _).active).isSome = true
        rw [scheduleGesture_active]
        show (mapGet S (mapSet T (releaseSlot sys T).nextSid
          (releaseSlot sys T).active)).isSome = true
        by_cases hTS : T = S
        · subst hTS
          rw [mapGet_mapSet_self]
          rfl
        · rw [mapGet_mapSet_ne _ _ _ _ hTS,
            releaseSlot_active_other sys hTS]
          exact hact
  | release T =>
    show isSlotActive (releaseSlot sys T) S = true
    unfold PlayerOp.keepsSlot at hk
    unfold isSlotActive at hact ⊢
    rw [releaseSlot_active_other sys hk]
    exact hact
  | releaseEverything =>
    unfold PlayerOp.keepsSlot at hk
    exact absurd hk (by simp)
  | fire tid =>
    show isSlotActive (fireTimer tid sys) S = true
    unfold isSlotActive at hact ⊢
    rw [fireTimer_active]
    exact hact

theorem runOps_append (l1 l2 : List PlayerOp) :
    runOps (l1 ++ l2) = l2.foldl applyOp (runOps l1) := by
  unfold runOps
  rw [List.foldl_append]

/-- Claim C1: in every reachable player state, at most one playback state
exists per slot (the active map's keys are unique); a successful trigger
leaves exactly one active state for the slot, whose id was allocated after
the prior state for that slot was released; the slot stays active through
any further interactions that do not release it; every pending timer belongs
to a currently active state (so all timers of a superseded, released trigger
are gone); and the sounding pitches of the slot's current state are pitches
of its own — most recently triggered — gesture. -/
theorem player_single_state_per_slot (ops : List PlayerOp) (S : ℤ) :
    ((runOps ops).active.map Prod.fst).count S ≤ 1 ∧
    (∀ (gp : ℤ → Option Gesture) (m now v : ℚ) (f : Bool),
      ((triggerSlot gp m now S v f (runOps ops)).2).isSome →
      mapGet S ((triggerSlot gp m now S v f (runOps ops)).1).active =
        some (releaseSlot (runOps ops) S).nextSid) ∧
    (∀ ops2 : List PlayerOp, (∀ op ∈ ops2, op.keepsSlot S) →
      isSlotActive (runOps ops) S = true →
      isSlotActive (runOps (ops ++ ops2)) S = true) ∧
    (∀ t ∈ (runOps ops).timers,
      ∃ slot, (slot, t.action.sid) ∈ (runOps ops).active) ∧
    (∀ (sid : ℕ) (st : GesturePlaybackState),
      mapGet S (runOps ops).active = some sid →
      mapGet sid (runOps ops).states = some st →
      ∀ n ∈ st.activeNotes, n ∈ st.gesture.events.map GestureEvent.note) := by
  have hinv := PInv_runOps ops
  refine ⟨?_, ?_, ?_, hinv.timerOwner, ?_⟩
  · exact List.nodup_iff_count_le_one.1 hinv.activeNodup S
  · intro gp m now v f h
    exact triggerSlot_success_active gp m now S v f (runOps ops) h
  · intro ops2 hkeeps hact
    rw [runOps_append]
    clear hinv
    induction ops2 generalizing ops with
    | nil => exact hact
    | cons op t ih =>
      have h1 := applyOp_keeps (runOps ops) op S
        (hkeeps op (List.mem_cons_self _ _)) hact
      have h2 := ih (ops ++ [op])
        (fun o ho => hkeeps o (List.mem_cons_of_mem _ ho))
        (by rw [runOps_append]; simpa using h1)
      rw [runOps_append] at h2
      simpa using h2
  · intro sid st ha hs n hn
    exact hinv.soundingSubset sid st hs n hn

theorem releaseLoop_active (keys : List ℤ) :
    ∀ s : PlayerSys, PInv s →
    (∀ k, k ∈ s.active.map Prod.fst → k ∈ keys) →
    (keys.foldl releaseSlot s).active = [] := by
  induction keys with
  | nil =>
    intro s hinv hsub
    rcases hempty : s.active with - | ⟨p, rest⟩
    · exact hempty
    · have hmem : p.1 ∈ s.active.map Prod.fst := by
        rw [hempty]
        exact List.mem_map_of_mem _ (List.mem_cons_self _ _)
      exact absurd (hsub p.1 hmem) (by simp)
  | cons k rest ih =>
    intro s hinv hsub
    refine ih (releaseSlot s k) (PInv_releaseSlot k hinv) ?_
    intro x hx
    cases ha : mapGet k s.active with
    | none =>
      have hrel : (releaseSlot s k).active = s.active := by
        unfold releaseSlot
        rw [ha]
      have hx' : x ∈ s.active.map Prod.fst := by rwa [hrel] at hx
      have hxk : x ≠ k := by
        intro hEq
        rw [hEq] at hx'
        exact absurd (isSome_of_mem_keys hx') (by rw [ha]; simp)
      rcases List.mem_cons.1 (hsub x hx') with h1 | h2
      · exact absurd h1 hxk
      · exact h2
    | some sid =>
      have hmem := mem_of_mapGet_eq_some ha
      obtain ⟨-, st, hst, -⟩ := hinv.activeSids _ hmem
      rw [releaseSlot_eq s k sid st ha hst] at hx
      rcases List.mem_map.1 hx with ⟨p, hp, he⟩
      have hxk : x ≠ k := by
        intro hEq
        have hsome := mapGet_isSome_of_mem p _ hp
        rw [he, hEq] at hsome
        rw [mapGet_mapDelete_self k s.active hinv.activeNodup] at hsome
        simp at hsome
      have hp0 := (mapDelete_sublist k s.active).mem hp
      rcases List.mem_cons.1 (hsub x (he ▸ List.mem_map_of_mem _ hp0)) with h1 | h2
      · exact absurd h1 hxk
      · exact h2

/-- Claim C3: releasing a slot issues a `noteOff` for every pitch sounding at
the moment of release, clears the sounding set and the timer bookkeeping of
the slot's state, cancels every pending timer of that state, and removes the
slot from the active map; releasing an idle slot is a no-op; and after
`releaseAll()` no slot is active, no timer is pending, and every playback
state's sounding set and timer records are empty. -/
theorem release_postconditions (ops : List PlayerOp) (S : ℤ) :
    (mapGet S (runOps ops).active = none →
      releaseSlot (runOps ops) S = runOps ops) ∧
    (∀ (sid : ℕ) (st : GesturePlaybackState),
      mapGet S (runOps ops).active = some sid →
      mapGet sid (runOps ops).states = some st →
      (releaseSlot (runOps ops) S).log =
        (runOps ops).log ++ st.activeNotes.map EngineCall.noteOff ∧
      mapGet sid (releaseSlot (runOps ops) S).states =
        some { st with activeNotes := [], timeoutIds := [], intervalId := none } ∧
      mapGet S (releaseSlot (runOps ops) S).active = none ∧
      (∀ t ∈ (releaseSlot (runOps ops) S).timers, t.action.sid ≠ sid)) ∧
    ((releaseAll (runOps ops)).active = [] ∧
     (releaseAll (runOps ops)).timers = [] ∧
     (∀ (k : ℕ) (st : GesturePlaybackState),
       mapGet k (releaseAll (runOps ops)).states = some st →
       st.activeNotes = [] ∧ st.timeoutIds = [] ∧ st.intervalId = none)) := by
  have hinv := PInv_runOps ops
  refine ⟨?_, ?_, ?_⟩
  · intro h
    unfold releaseSlot
    rw [h]
  · intro sid st ha hs
    rw [releaseSlot_eq (runOps ops) S sid st ha hs]
    refine ⟨rfl, ?_, ?_, ?_⟩
    · show mapGet sid (mapUpdate sid _ (runOps ops).states) = _
      rw [mapGet_mapUpdate_self, hs]
      rfl
    · exact mapGet_mapDelete_self S (runOps ops).active hinv.activeNodup
    · intro t ht
      have hmem := List.mem_filter.1 ht
      refine surviving_timer_not_released hinv ha hs hmem.1 ⟨?_, ?_⟩
      · intro hmemT
        simp [hmemT] at hmem
      · intro hEq
        simp [hEq] at hmem
  · have hact : ((runOps ops).active.map Prod.fst).foldl releaseSlot
        (runOps ops) = _ := rfl
    have hinv1 : PInv (((runOps ops).active.map Prod.fst).foldl releaseSlot
        (runOps ops)) := by
      have : ∀ (keys : List ℤ) (s : PlayerSys), PInv s →
          PInv (keys.foldl releaseSlot s) := by
        intro keys
        induction keys with
        | nil => exact fun s hs => hs
        | cons k t ih => exact fun s hs => ih _ (PInv_releaseSlot k hs)
      exact this _ _ hinv
    have hempty : (((runOps ops).active.map Prod.fst).foldl releaseSlot
        (runOps ops)).active = [] :=
      releaseLoop_active _ (runOps ops) hinv (fun k hk => hk)
    have htimers : (((runOps ops).active.map Prod.fst).foldl releaseSlot
        (runOps ops)).timers = [] := by
      rcases he : (((runOps ops).active.map Prod.fst).foldl releaseSlot
          (runOps ops)).timers with - | ⟨t, rest⟩
      · rfl
      · exfalso
        obtain ⟨slot, hslot⟩ := hinv1.timerOwner t
          (by rw [he]; exact List.mem_cons_self _ _)
        rw [hempty] at hslot
        simp at hslot
    refine ⟨?_, ?_, ?_⟩
    · show (((runOps ops).active.map Prod.fst).foldl releaseSlot
        (runOps ops)).active = []
      exact hempty
    · show (((runOps ops).active.map Prod.fst).foldl releaseSlot
        (runOps ops)).timers = []
      exact htimers
    · intro k st hst
      have hstale : ∀ slot, (slot, k) ∉ (((runOps ops).active.map
          Prod.fst).foldl releaseSlot (runOps ops)).active := by
        intro slot hslot
        rw [hempty] at hslot
        simp at hslot
      obtain ⟨h1, h2, h3⟩ := hinv1.staleClean k st hst hstale
      exact ⟨h3, h1, h2⟩

theorem player_single_state_per_slot_witness :
    (((runOps []).active.map Prod.fst).count 60 ≤ 1) ∧
    mapGet 60 ((triggerSlot
        (fun _ => some ⟨"t", 60, "lead", [⟨0, 60, 1, 0, none⟩], none, "g"⟩)
        500 0 60 1 true (runOps [])).1).active =
      some (releaseSlot (runOps []) 60).nextSid :=
  ⟨(player_single_state_per_slot [] 60).1,
   (player_single_state_per_slot [] 60).2.1
     (fun _ => some ⟨"t", 60, "lead", [⟨0, 60, 1, 0, none⟩], none, "g"⟩)
     500 0 1 true rfl⟩

theorem release_postconditions_witness :
    releaseSlot (runOps []) 60 = runOps [] ∧
    (releaseAll (runOps [])).active = [] ∧
    (releaseAll (runOps [])).timers = [] :=
  ⟨(release_postconditions [] 60).1 rfl,
   (release_postconditions [] 60).2.2.1,
   (release_postconditions [] 60).2.2.2.1⟩

